import Mathlib

/-!
# Quadruped gait sequencing (ServoEasing, `examples/QuadrupedControl/QuadrupedMovements.cpp`)

A shallow embedding of the gait functions `moveTrot`, `moveTurn`, `basicQuarterTurn`,
`moveCreep`, `basicHalfCreep`, `goToYPosition` and `checkIfBodyHeightHasChanged`.

The process-wide variables (`sMovingDirection`, `sBodyHeightAngle`, the stop request,
`sServoNextPositionArray`, the function-local `static` of `checkIfBodyHeightHasChanged`)
are fields of an explicit `World`.  Every blocking motion call appends one `Step` to
`World.trace`; while it blocks, the command source may overwrite the three shared
inputs, which is modelled by an environment `Env` giving the inputs found after the
`k`-th blocking call.

The headers `QuadrupedServoControl.h`, `QuadrupedMovements.h` and `IRCommandDispatcher.h`
are not part of the sources at hand: their angle constants and channel transforms are the
fields of `ServoControl`; the motion primitives and the macro `RETURN_IF_STOP` are
modelled from the specification.  Angles handed to the transform calls and stored in the
next-position array are C `int` values and modelled as `Int`; the `uint8_t` and `int8_t`
variables of the source wrap explicitly.
-/

namespace Quadruped

/-! ## Machine integers -/

/-- Conversion of a C `int` value to `uint8_t`. -/
def toUInt8 (x : Int) : Nat := (x % 256).toNat

/-- Conversion of a C `int` value to `int8_t` (two's complement wrap). -/
def toInt8 (x : Int) : Int := (x + 128) % 256 - 128

/-- Post-decrement of a `uint8_t` counter: `0` wraps to `255`. -/
def dec8 (n : Nat) : Nat := (n + 255) % 256

/-- Post-increment of a `uint8_t` value: `255` wraps to `0`. -/
def inc8 (n : Nat) : Nat := (n + 1) % 256

/-! ## Data model -/

/-- Modelled from the spec: `NUMBER_OF_LEGS` (QuadrupedServoControl.h), LegIndex has
fixed cardinality 4. -/
def NUMBER_OF_LEGS : Nat := 4

/-- Modelled from the spec: `SERVOS_PER_LEG` (QuadrupedServoControl.h), one pivot and one
lift servo per leg. -/
def SERVOS_PER_LEG : Nat := 2

/-- Modelled from the spec: `NUMBER_OF_SERVOS` (QuadrupedServoControl.h), the total channel
count LegCount × ServosPerLeg, 8 here. -/
def NUMBER_OF_SERVOS : Nat := NUMBER_OF_LEGS * SERVOS_PER_LEG

/-- Modelled from the spec: `LIFT_SERVO_OFFSET` (QuadrupedServoControl.h), a channel is
`LegIndex * ServosPerLeg + Role` with Role ∈ {Pivot, Lift}. -/
def LIFT_SERVO_OFFSET : Nat := 1

/-- Modelled from the spec: `FRONT_LEFT_PIVOT` (QuadrupedServoControl.h), the pivot channel
of the first leg of the ring, the initial turn-leg index 0. -/
def FRONT_LEFT_PIVOT : Nat := 0

/-- Four angles, one per leg, in the argument order of the transform calls. -/
structure LegAngles where
  a1 : Int
  a2 : Int
  a3 : Int
  a4 : Int
deriving DecidableEq, Repr

/-- The shared inputs written by the command source and only read by the gait engine. -/
structure Inputs where
  sMovingDirection : Nat
  sBodyHeightAngle : Nat
  stopRequested : Bool
deriving DecidableEq, Repr

/-- The inputs found after the `k`-th blocking call (counted over the whole trace). -/
abbrev Env := Nat → Inputs

/-- A motion request handed to the actuation collaborator. -/
inductive Commit where
  /-- The call `transformAndSetAllServos(p1, p2, p3, p4, l1, l2, l3, l4, direction[, mirror])` -/
  | allServos (pivots lifts : LegAngles) (aDirection : Nat) (doMirror : Bool)
  /-- The call `synchronizeMoveAllServosAndCheckInputAndWait()` with the eight targets committed -/
  | syncAll (targets : List Int)
  /-- The call `moveOneServoAndCheckInputAndWait(index, degree)` -/
  | oneServo (aServoIndex : Nat) (aDegree : Int)
  /-- The call `setLiftServosToBodyHeight()`, the body-height corrective commit -/
  | liftToBodyHeight (aBodyHeightAngle : Nat)
  /-- The call `setLiftServos(angle)`, the commit of the Y stance -/
  | liftServos (aBodyHeightAngle : Nat)
  /-- The call `centerServos()` -/
  | center
deriving DecidableEq, Repr

/-- One blocking call: the request, and the shared inputs when it was issued and when it
came back. -/
structure Step where
  commit : Commit
  before : Inputs
  after : Inputs
deriving DecidableEq, Repr

/-- The lines written to `Serial` by the gait functions. -/
inductive SerialLine where
  | turnLeg (aMoveLegIndex : Nat) (aTurnLeft : Bool)
  | goToYPosition (aDirection : Nat)
  | basicHalfCreep (aDirection : Nat) (doMirror : Bool)
  | moveFrontLeg
  | moveBody
  | moveBackLeg
deriving DecidableEq, Repr

/-- The program state the gait functions read and write. -/
structure World where
  sMovingDirection : Nat
  sBodyHeightAngle : Nat
  stopRequested : Bool
  sServoNextPositionArray : Nat → Int
  /-- The `static uint8_t tCurrentBodyHeightAngle` of `checkIfBodyHeightHasChanged` -/
  tCurrentBodyHeightAngle : Nat
  trace : List Step
  serial : List SerialLine

/-- The constants and channel transforms declared in the absent headers. -/
structure ServoControl where
  LIFT_MAX_ANGLE : Int
  TROT_BASE_ANGLE_FL_BR : Int
  TROT_BASE_ANGLE_BL_FR : Int
  TROT_MOVE_ANGLE : Int
  TURN_MOVE_ANGLE : Int
  TURN_BODY_ANGLE : Int
  Y_POSITION_OPEN_ANGLE : Int
  Y_POSITION_CLOSE_ANGLE : Int
  Y_POSITION_FRONT_ANGLE : Int
  CREEP_BODY_MOVE_ANGLE : Int
  MOVE_DIRECTION_FORWARD : Nat
  MOVE_DIRECTION_LEFT : Nat
  FRONT_RIGHT_PIVOT : Nat
  BACK_LEFT_PIVOT : Nat
  /-- What `transformAndSetAllServos` stores in the next-position array -/
  setAllServos : LegAngles → LegAngles → Nat → Bool → (Nat → Int) → (Nat → Int)
  /-- What `transformAndSetPivotServos` stores in the next-position array -/
  setPivotServos : LegAngles → Nat → Bool → Bool → (Nat → Int) → (Nat → Int)
  /-- The channel `transformOneServoIndex(index)` returns; the call passes no direction,
  so a defaulted argument can depend at most on the global direction -/
  oneServoIndex : Nat → Nat → Nat

/-- The shared inputs as currently stored in the world. -/
def World.inputs (w : World) : Inputs :=
  ⟨w.sMovingDirection, w.sBodyHeightAngle, w.stopRequested⟩

/-- Array store `a[i] = v` with a C `int` index; a negative index is outside the array and
the store is dropped. -/
def writeArr (a : Nat → Int) (i : Int) (v : Int) : Nat → Int :=
  fun j => if 0 ≤ i ∧ j = i.toNat then v else a j

/-- Array load `a[i]` with a C `int` index. -/
def readArr (a : Nat → Int) (i : Int) : Int :=
  if 0 ≤ i then a i.toNat else 0

/-- The eight channel targets of the next-position array. -/
def targets (a : Nat → Int) : List Int := (List.range NUMBER_OF_SERVOS).map a

/-! ## Collaborators -/

/-- Modelled from the spec: the blocking wait of the Motion Commit Primitive
(QuadrupedServoControl, not in src).  The request is issued, the call blocks while the
command source may run, and on return the shared inputs hold what the command source
left there. -/
def commit (env : Env) (c : Commit) (w : World) : World :=
  let i := env w.trace.length
  { w with
    sMovingDirection := i.sMovingDirection
    sBodyHeightAngle := i.sBodyHeightAngle
    stopRequested := i.stopRequested
    trace := w.trace ++ [⟨c, w.inputs, i⟩] }

/-- Output of one line on `Serial`. -/
def serialPrint (l : SerialLine) (w : World) : World :=
  { w with serial := w.serial ++ [l] }

/-- Modelled from the spec: `setEasingTypeForMoving` (QuadrupedServoControl, not in src)
selects the easing profile, which is opaque to the gait engine. -/
def setEasingTypeForMoving (w : World) : World := w

/-- Modelled from the spec: the macro `RETURN_IF_STOP` (IRCommandDispatcher.h, not in src),
the check of the cancellation signal that follows a commit: when it yields `true` the
enclosing gait function returns at once. -/
def RETURN_IF_STOP (w : World) : Bool := w.stopRequested

/-- Modelled from the spec: `transformAndSetAllServos` (QuadrupedServoControl, not in src):
the Angle Transform Layer populates the next-position array from the canonical angles,
then one synchronized commit is issued.  A call without mirror argument is unmirrored. -/
def transformAndSetAllServos (env : Env) (sc : ServoControl) (pivots lifts : LegAngles)
    (aDirection : Nat) (doMirror : Bool) (w : World) : World :=
  commit env (.allServos pivots lifts aDirection doMirror)
    { w with sServoNextPositionArray :=
        sc.setAllServos pivots lifts aDirection doMirror w.sServoNextPositionArray }

/-- Modelled from the spec: `transformAndSetPivotServos` (QuadrupedServoControl, not in
src): populates the pivot entries of the next-position array; the Y stance is committed
by the `setLiftServos` call that follows it. -/
def transformAndSetPivotServos (sc : ServoControl) (pivots : LegAngles) (aDirection : Nat)
    (aFlag1 aFlag2 : Bool) (w : World) : World :=
  { w with sServoNextPositionArray :=
      sc.setPivotServos pivots aDirection aFlag1 aFlag2 w.sServoNextPositionArray }

/-- Modelled from the spec: `setLiftServos` (QuadrupedServoControl, not in src): all lift
joints get the given angle and the pose is committed (the one-time Y-stance commit). -/
def setLiftServos (env : Env) (aBodyHeightAngle : Nat) (w : World) : World :=
  commit env (.liftServos aBodyHeightAngle) w

/-- Modelled from the spec: `setLiftServosToBodyHeight` (QuadrupedServoControl, not in
src): the corrective motion bringing all lift joints to the current body height. -/
def setLiftServosToBodyHeight (env : Env) (w : World) : World :=
  commit env (.liftToBodyHeight w.sBodyHeightAngle) w

/-- Modelled from the spec: `centerServos` (QuadrupedServoControl, not in src): the
centred pose, all pivots at the neutral angle 90. -/
def centerServos (env : Env) (w : World) : World :=
  commit env .center
    { w with sServoNextPositionArray := fun j =>
        if j < NUMBER_OF_SERVOS ∧ j % SERVOS_PER_LEG = 0 then 90
        else w.sServoNextPositionArray j }

/-- Modelled from the spec: `moveOneServoAndCheckInputAndWait` (QuadrupedServoControl, not
in src): the single-channel commit. -/
def moveOneServoAndCheckInputAndWait (env : Env) (aServoIndex : Nat) (aDegree : Int)
    (w : World) : World :=
  commit env (.oneServo aServoIndex aDegree) w

/-- Modelled from the spec: `synchronizeMoveAllServosAndCheckInputAndWait`
(QuadrupedServoControl, not in src): the synchronized commit of the next-position array. -/
def synchronizeMoveAllServosAndCheckInputAndWait (env : Env) (w : World) : World :=
  commit env (.syncAll (targets w.sServoNextPositionArray)) w

/-! ## Body-height reconciliation -/

/-- The function `checkIfBodyHeightHasChanged()`. -/
def checkIfBodyHeightHasChanged (env : Env) (w : World) : World :=
  let w1 : World :=
    if w.tCurrentBodyHeightAngle = 0 then
      { w with tCurrentBodyHeightAngle := w.sBodyHeightAngle }
    else w
  if w1.sBodyHeightAngle ≠ w1.tCurrentBodyHeightAngle then
    let w2 := setLiftServosToBodyHeight env w1
    { w2 with tCurrentBodyHeightAngle := w2.sBodyHeightAngle }
  else w1

/-! ## Trot -/

/-- The pivot arguments of the first `transformAndSetAllServos` call of a trot cycle. -/
def trotPivots1 (sc : ServoControl) : LegAngles :=
  ⟨sc.TROT_BASE_ANGLE_FL_BR + sc.TROT_MOVE_ANGLE, sc.TROT_BASE_ANGLE_BL_FR - sc.TROT_MOVE_ANGLE,
   sc.TROT_BASE_ANGLE_FL_BR - sc.TROT_MOVE_ANGLE, sc.TROT_BASE_ANGLE_BL_FR + sc.TROT_MOVE_ANGLE⟩

/-- The pivot arguments of the second `transformAndSetAllServos` call of a trot cycle. -/
def trotPivots2 (sc : ServoControl) : LegAngles :=
  ⟨sc.TROT_BASE_ANGLE_FL_BR - sc.TROT_MOVE_ANGLE, sc.TROT_BASE_ANGLE_BL_FR + sc.TROT_MOVE_ANGLE,
   sc.TROT_BASE_ANGLE_FL_BR + sc.TROT_MOVE_ANGLE, sc.TROT_BASE_ANGLE_BL_FR - sc.TROT_MOVE_ANGLE⟩

/-- The initialiser of `uint8_t LiftMaxAngle` in `moveTrot`:
`sBodyHeightAngle + ((LIFT_MAX_ANGLE - sBodyHeightAngle) / 2)`, computed in `int` with the
truncating division of C and stored in 8 bits. -/
def trotLiftMaxAngle (sc : ServoControl) (aBodyHeightAngle : Nat) : Nat :=
  toUInt8 (aBodyHeightAngle + Int.tdiv (sc.LIFT_MAX_ANGLE - aBodyHeightAngle) 2)

/-- The `do … while (aNumberOfTrots != 0)` loop of `moveTrot`; `none` when out of fuel. -/
def moveTrotLoop (env : Env) (sc : ServoControl) : Nat → Nat → Nat → World → Option World
  | 0, _, _, _ => none
  | fuel + 1, aNumberOfTrots, tCurrentDirection, w =>
    let LiftMaxAngle : Int := trotLiftMaxAngle sc w.sBodyHeightAngle
    let w1 := transformAndSetAllServos env sc (trotPivots1 sc)
      ⟨w.sBodyHeightAngle, LiftMaxAngle, w.sBodyHeightAngle, LiftMaxAngle⟩ tCurrentDirection false w
    if RETURN_IF_STOP w1 then some w1 else
    let w2 := checkIfBodyHeightHasChanged env w1
    let w3 := transformAndSetAllServos env sc (trotPivots2 sc)
      ⟨LiftMaxAngle, w2.sBodyHeightAngle, LiftMaxAngle, w2.sBodyHeightAngle⟩ tCurrentDirection false w2
    if RETURN_IF_STOP w3 then some w3 else
    let w4 := checkIfBodyHeightHasChanged env w3
    let tCurrentDirection :=
      if w4.sMovingDirection ≠ tCurrentDirection then w4.sMovingDirection else tCurrentDirection
    let aNumberOfTrots := dec8 aNumberOfTrots
    if aNumberOfTrots ≠ 0 then moveTrotLoop env sc fuel aNumberOfTrots tCurrentDirection w4
    else some w4

/-- The function `moveTrot(aNumberOfTrots)`; 256 iterations always suffice for a `uint8_t` counter. -/
def moveTrot (env : Env) (sc : ServoControl) (aNumberOfTrots : Nat) (w : World) : Option World :=
  let w := setEasingTypeForMoving w
  moveTrotLoop env sc 256 aNumberOfTrots w.sMovingDirection w

/-! ## Turn -/

/-- The `for (i = 0; i < NUMBER_OF_LEGS - 1; ++i)` loop of `basicQuarterTurn`, with the
number of iterations still to run; `tServoIndex` is an `int8_t`. -/
def basicQuarterTurnOthers (tTurnAngle : Int) (aBodyHeightAngle : Nat) :
    Nat → Int → (Nat → Int) → (Nat → Int)
  | 0, _, a => a
  | k + 1, tServoIndex, a =>
    let tServoIndex := toInt8 (Int.tmod tServoIndex NUMBER_OF_SERVOS)
    let a := writeArr a tServoIndex (readArr a tServoIndex + tTurnAngle)
    let a := writeArr a (tServoIndex + LIFT_SERVO_OFFSET) aBodyHeightAngle
    basicQuarterTurnOthers tTurnAngle aBodyHeightAngle k (toInt8 (tServoIndex + SERVOS_PER_LEG)) a

/-- The function `basicQuarterTurn(aMoveLegIndex, aTurnLeft)`. -/
def basicQuarterTurn (env : Env) (sc : ServoControl) (aMoveLegIndex : Nat) (aTurnLeft : Bool)
    (w : World) : World :=
  let w := serialPrint (.turnLeg aMoveLegIndex aTurnLeft) w
  let tServoIndex : Int := toInt8 (aMoveLegIndex * SERVOS_PER_LEG)
  let tMoveAngle : Int :=
    if aTurnLeft then toInt8 sc.TURN_MOVE_ANGLE else toInt8 (-sc.TURN_MOVE_ANGLE)
  let tTurnAngle : Int :=
    if aTurnLeft then toInt8 (-sc.TURN_BODY_ANGLE) else toInt8 sc.TURN_BODY_ANGLE
  let a := writeArr w.sServoNextPositionArray tServoIndex (90 + tMoveAngle)
  let a := writeArr a (tServoIndex + LIFT_SERVO_OFFSET) sc.LIFT_MAX_ANGLE
  let tServoIndex := toInt8 (tServoIndex + SERVOS_PER_LEG)
  let a := basicQuarterTurnOthers tTurnAngle w.sBodyHeightAngle (NUMBER_OF_LEGS - 1) tServoIndex a
  synchronizeMoveAllServosAndCheckInputAndWait env { w with sServoNextPositionArray := a }

/-- The `do … while (aNumberOfTurns != 0)` loop of `moveTurn`; `none` when out of fuel. -/
def moveTurnLoop (env : Env) (sc : ServoControl) : Nat → Nat → Nat → World → Option World
  | 0, _, _, _ => none
  | fuel + 1, aNumberOfTurns, tNextLegIndex, w =>
    let w1 := basicQuarterTurn env sc tNextLegIndex
      (decide (w.sMovingDirection = sc.MOVE_DIRECTION_LEFT)) w
    if RETURN_IF_STOP w1 then some w1 else
    let tNextLegIndex :=
      if w1.sMovingDirection = sc.MOVE_DIRECTION_LEFT then inc8 tNextLegIndex
      else dec8 tNextLegIndex
    let tNextLegIndex := tNextLegIndex % NUMBER_OF_LEGS
    let aNumberOfTurns := dec8 aNumberOfTurns
    if aNumberOfTurns ≠ 0 then moveTurnLoop env sc fuel aNumberOfTurns tNextLegIndex w1
    else some w1

/-- The function `moveTurn(aNumberOfTurns)`. -/
def moveTurn (env : Env) (sc : ServoControl) (aNumberOfTurns : Nat) (w : World) : Option World :=
  let w := centerServos env w
  let w := setEasingTypeForMoving w
  let tNextLegIndex := FRONT_LEFT_PIVOT
  let w1 :=
    if w.sMovingDirection = sc.MOVE_DIRECTION_LEFT then
      moveOneServoAndCheckInputAndWait env sc.FRONT_RIGHT_PIVOT (90 + sc.TURN_MOVE_ANGLE) w
    else
      moveOneServoAndCheckInputAndWait env sc.BACK_LEFT_PIVOT (90 - sc.TURN_MOVE_ANGLE) w
  if RETURN_IF_STOP w1 then some w1 else
  moveTurnLoop env sc 256 aNumberOfTurns tNextLegIndex w1

/-! ## Creep -/

/-- The function `goToYPosition(aDirection)`. -/
def goToYPosition (env : Env) (sc : ServoControl) (aDirection : Nat) (w : World) : World :=
  let w := serialPrint (.goToYPosition aDirection) w
  let w := transformAndSetPivotServos sc
    ⟨180 - sc.Y_POSITION_OPEN_ANGLE, sc.Y_POSITION_OPEN_ANGLE,
     180 - sc.Y_POSITION_CLOSE_ANGLE, sc.Y_POSITION_CLOSE_ANGLE⟩ aDirection false false w
  setLiftServos env w.sBodyHeightAngle w

/-- The pivot arguments of phase 1 of `basicHalfCreep` (move front leg). -/
def creepPivots1 (sc : ServoControl) : LegAngles :=
  ⟨180 - sc.Y_POSITION_OPEN_ANGLE, sc.Y_POSITION_OPEN_ANGLE,
   180 - sc.Y_POSITION_CLOSE_ANGLE, sc.Y_POSITION_FRONT_ANGLE⟩

/-- The pivot arguments of phase 2 of `basicHalfCreep` (move body). -/
def creepPivots2 (sc : ServoControl) : LegAngles :=
  ⟨180 - sc.Y_POSITION_CLOSE_ANGLE, sc.Y_POSITION_OPEN_ANGLE + sc.CREEP_BODY_MOVE_ANGLE,
   180 - sc.Y_POSITION_OPEN_ANGLE, sc.Y_POSITION_OPEN_ANGLE⟩

/-- The pivot arguments of phase 3 of `basicHalfCreep` (move back leg to close position). -/
def creepPivots3 (sc : ServoControl) : LegAngles :=
  ⟨180 - sc.Y_POSITION_CLOSE_ANGLE, sc.Y_POSITION_CLOSE_ANGLE,
   180 - sc.Y_POSITION_OPEN_ANGLE, sc.Y_POSITION_OPEN_ANGLE⟩

/-- The statement
`sServoNextPositionArray[transformOneServoIndex(leg) + LIFT_SERVO_OFFSET] = sBodyHeightAngle`. -/
def resetLift (sc : ServoControl) (aLegPivot : Nat) (w : World) : World :=
  let tIndex : Nat := sc.oneServoIndex aLegPivot w.sMovingDirection + LIFT_SERVO_OFFSET
  { w with sServoNextPositionArray := writeArr w.sServoNextPositionArray tIndex w.sBodyHeightAngle }

/-- The function `basicHalfCreep(aDirection, doMirror)`. -/
def basicHalfCreep (env : Env) (sc : ServoControl) (aDirection : Nat) (doMirror : Bool)
    (w : World) : World :=
  let w := serialPrint (.basicHalfCreep aDirection doMirror) w
  let w := serialPrint .moveFrontLeg w
  let w1 := transformAndSetAllServos env sc (creepPivots1 sc)
    ⟨w.sBodyHeightAngle, w.sBodyHeightAngle, w.sBodyHeightAngle, sc.LIFT_MAX_ANGLE⟩
    aDirection doMirror w
  if RETURN_IF_STOP w1 then w1 else
  let w2 := checkIfBodyHeightHasChanged env w1
  let w2 := resetLift sc sc.FRONT_RIGHT_PIVOT w2
  let w2 := serialPrint .moveBody w2
  let w3 := transformAndSetAllServos env sc (creepPivots2 sc)
    ⟨w2.sBodyHeightAngle, w2.sBodyHeightAngle, w2.sBodyHeightAngle, w2.sBodyHeightAngle⟩
    aDirection doMirror w2
  if RETURN_IF_STOP w3 then w3 else
  let w4 := checkIfBodyHeightHasChanged env w3
  let w4 := serialPrint .moveBackLeg w4
  let w5 := transformAndSetAllServos env sc (creepPivots3 sc)
    ⟨w4.sBodyHeightAngle, sc.LIFT_MAX_ANGLE, w4.sBodyHeightAngle, w4.sBodyHeightAngle⟩
    aDirection doMirror w4
  if RETURN_IF_STOP w5 then w5 else
  let w6 := checkIfBodyHeightHasChanged env w5
  resetLift sc sc.BACK_LEFT_PIVOT w6

/-- The `do … while (aNumberOfCreeps != 0)` loop of `moveCreep`; `none` when out of fuel. -/
def moveCreepLoop (env : Env) (sc : ServoControl) : Nat → Nat → Nat → World → Option World
  | 0, _, _, _ => none
  | fuel + 1, aNumberOfCreeps, tCurrentDirection, w =>
    let w1 := basicHalfCreep env sc tCurrentDirection false w
    if RETURN_IF_STOP w1 then some w1 else
    let w2 := basicHalfCreep env sc tCurrentDirection true w1
    if RETURN_IF_STOP w2 then some w2 else
    let tCurrentDirection :=
      if w2.sMovingDirection ≠ tCurrentDirection then w2.sMovingDirection else tCurrentDirection
    let aNumberOfCreeps := dec8 aNumberOfCreeps
    if aNumberOfCreeps ≠ 0 then moveCreepLoop env sc fuel aNumberOfCreeps tCurrentDirection w2
    else some w2

/-- The function `moveCreep(aNumberOfCreeps)`. -/
def moveCreep (env : Env) (sc : ServoControl) (aNumberOfCreeps : Nat) (w : World) : Option World :=
  let w := goToYPosition env sc w.sMovingDirection w
  let w := setEasingTypeForMoving w
  moveCreepLoop env sc 256 aNumberOfCreeps w.sMovingDirection w

/-! ## Sample inputs -/

/-- A sample set of constants, with the plain channel layout `2 * leg + role` for every
direction, on which the definitions are run on concrete inputs. -/
def sampleControl : ServoControl where
  LIFT_MAX_ANGLE := 135
  TROT_BASE_ANGLE_FL_BR := 135
  TROT_BASE_ANGLE_BL_FR := 45
  TROT_MOVE_ANGLE := 30
  TURN_MOVE_ANGLE := 40
  TURN_BODY_ANGLE := 10
  Y_POSITION_OPEN_ANGLE := 70
  Y_POSITION_CLOSE_ANGLE := 15
  Y_POSITION_FRONT_ANGLE := 10
  CREEP_BODY_MOVE_ANGLE := 55
  MOVE_DIRECTION_FORWARD := 0
  MOVE_DIRECTION_LEFT := 1
  FRONT_RIGHT_PIVOT := 6
  BACK_LEFT_PIVOT := 2
  setAllServos := fun p l _ _ a j =>
    match j with
    | 0 => p.a1 | 1 => l.a1 | 2 => p.a2 | 3 => l.a2
    | 4 => p.a3 | 5 => l.a3 | 6 => p.a4 | 7 => l.a4
    | _ => a j
  setPivotServos := fun p _ _ _ a j =>
    match j with
    | 0 => p.a1 | 2 => p.a2 | 4 => p.a3 | 6 => p.a4
    | _ => a j
  oneServoIndex := fun i _ => i

/-- An environment that never touches the inputs: direction `d`, body height `h`, no stop. -/
def quietEnv (d h : Nat) : Env := fun _ => ⟨d, h, false⟩

/-- A freshly started program: direction `d`, body height `h`, all servos at 90, nothing
committed yet and the `static` of `checkIfBodyHeightHasChanged` still 0. -/
def freshWorld (d h : Nat) : World :=
  ⟨d, h, false, fun _ => 90, 0, [], []⟩

/-! ## Trace observations and invariants -/

/-- The step a body-height corrective commit adds to the trace of `w`. -/
def correctiveStep (env : Env) (w : World) : Step :=
  ⟨.liftToBodyHeight w.sBodyHeightAngle, w.inputs, env w.trace.length⟩

/-- A commit is a synchronized phase commit issued through `transformAndSetAllServos`. -/
def Commit.isAllServos : Commit → Bool
  | .allServos _ _ _ _ => true
  | _ => false

/-- Proof invariant of a run without body-height change: since the trace was `t0`, exactly
`k` steps were appended, all of them phase commits, the body height is `h` and the static
baseline is unset or `h`. -/
def Quiet (h : Nat) (t0 : List Step) (k : Nat) (w : World) : Prop :=
  (∃ new, w.trace = t0 ++ new ∧ new.length = k ∧ ∀ s ∈ new, s.commit.isAllServos = true)
    ∧ w.sBodyHeightAngle = h
    ∧ (w.tCurrentBodyHeightAngle = 0 ∨ w.tCurrentBodyHeightAngle = h)

/-- The number of times the body of a `do … while (--n != 0)`-style loop with a `uint8_t`
counter starting at `n` runs: `n` times, and 256 times when `n` is 0. -/
def iterations (n : Nat) : Nat := if n = 0 then 256 else n

/-- A commit is a synchronized commit of the next-position array as it stands. -/
def Commit.isSyncAll : Commit → Bool
  | .syncAll _ => true
  | _ => false

/-- A commit is a single-channel commit. -/
def Commit.isOneServo : Commit → Bool
  | .oneServo _ _ => true
  | _ => false

/-- The turn-leg rotation as the specification words it: after `K` quarter-turns the
active leg index is `(initial + K) mod 4` for a left turn and `(initial - K) mod 4`
otherwise, with initial index 0. -/
def expectedTurnLeg (aTurnLeft : Bool) (K : Nat) : Nat :=
  if aTurnLeft then ((0 + (K : Int)) % 4).toNat else ((0 - (K : Int)) % 4).toNat

/-- An environment that keeps direction `d` and body height `h` and sets the stop signal
from the `k`-th blocking call on. -/
def stopFromEnv (d h k : Nat) : Env := fun j => ⟨d, h, decide (k ≤ j)⟩

/-- A commit that the gait functions follow with a check of the stop signal: the
synchronized phase commits and the single-channel commit, as opposed to the set-up
commits and the body-height corrective commit. -/
def Commit.isPhase : Commit → Bool
  | .allServos _ _ _ _ => true
  | .syncAll _ => true
  | .oneServo _ _ => true
  | _ => false

/-- No phase commit of the list came back with the stop signal set. -/
def Unstopped (l : List Step) : Prop :=
  ∀ s ∈ l, s.commit.isPhase = true → s.after.stopRequested = false

/-- Nothing follows a phase commit that came back with the stop signal set. -/
def StopHalts (l : List Step) : Prop :=
  ∀ pre s post, l = pre ++ s :: post → s.commit.isPhase = true →
    s.after.stopRequested = true → post = []

/-- Since the trace was `t0`, every phase commit came back with the stop signal clear. -/
def Running (t0 : List Step) (w : World) : Prop :=
  ∃ new, w.trace = t0 ++ new ∧ Unstopped new

/-- Since the trace was `t0`, nothing was committed after a phase commit that came back
with the stop signal set. -/
def Halted (t0 : List Step) (w : World) : Prop :=
  ∃ new, w.trace = t0 ++ new ∧ StopHalts new

/-- The synchronized phase commits among the steps of a trace. -/
def phaseSteps (l : List Step) : List Step := l.filter (fun s => s.commit.isAllServos)

/-- Each step was issued with the inputs its predecessor left, the first one with `i`. -/
def Continuous : Inputs → List Step → Prop
  | _, [] => True
  | i, s :: rest => s.before = i ∧ Continuous s.after rest

/-- The inputs left by the last step of the list, `i` when there is none. -/
def lastInputs : Inputs → List Step → Inputs
  | i, [] => i
  | _, s :: rest => lastInputs s.after rest

/-- World `w1` is reached from `w` by appending the steps `seg`, each issued with the
inputs its predecessor left, and holds the inputs the last one left. -/
def Extends (w w1 : World) (seg : List Step) : Prop :=
  w1.trace = w.trace ++ seg ∧ Continuous w.inputs seg ∧ w1.inputs = lastInputs w.inputs seg

/-- The two phase commits of one trot cycle: both carry the direction value that was
current when the first of them was issued. -/
def TrotCycle (sc : ServoControl) (c : Step × Step) : Prop :=
  ∃ L1 L2,
    c.1.commit = .allServos (trotPivots1 sc) L1 c.1.before.sMovingDirection false
      ∧ c.2.commit = .allServos (trotPivots2 sc) L2 c.1.before.sMovingDirection false

/-- The claimed trot swing: the two legs of one diagonal pair (arguments 1 and 3, base
TROT_BASE_ANGLE_FL_BR, or arguments 2 and 4, base TROT_BASE_ANGLE_BL_FR) both get their
base angle plus TROT_MOVE_ANGLE, the two legs of the other pair both get base minus it. -/
def DiagonalSwing (sc : ServoControl) (p : LegAngles) : Prop :=
  (p.a1 = sc.TROT_BASE_ANGLE_FL_BR + sc.TROT_MOVE_ANGLE
      ∧ p.a3 = sc.TROT_BASE_ANGLE_FL_BR + sc.TROT_MOVE_ANGLE
      ∧ p.a2 = sc.TROT_BASE_ANGLE_BL_FR - sc.TROT_MOVE_ANGLE
      ∧ p.a4 = sc.TROT_BASE_ANGLE_BL_FR - sc.TROT_MOVE_ANGLE)
  ∨ (p.a2 = sc.TROT_BASE_ANGLE_BL_FR + sc.TROT_MOVE_ANGLE
      ∧ p.a4 = sc.TROT_BASE_ANGLE_BL_FR + sc.TROT_MOVE_ANGLE
      ∧ p.a1 = sc.TROT_BASE_ANGLE_FL_BR - sc.TROT_MOVE_ANGLE
      ∧ p.a3 = sc.TROT_BASE_ANGLE_FL_BR - sc.TROT_MOVE_ANGLE)

instance (sc : ServoControl) (p : LegAngles) : Decidable (DiagonalSwing sc p) := by
  unfold DiagonalSwing
  infer_instance

/-- The pivot arguments of a synchronized phase commit. -/
def Commit.pivotArgs : Commit → Option LegAngles
  | .allServos p _ _ _ => some p
  | _ => none

/-- The list `a, b, a, b, …` of length `k`. -/
def alternating {α : Type} (a b : α) : Nat → List α
  | 0 => []
  | k + 1 => a :: alternating b a k

/-- Since the trace was `t0`, the pivot arguments of the `k` phase commits issued are
alternately those of the first and of the second call of a trot cycle. -/
def TrotAlternates (sc : ServoControl) (t0 : List Step) (k : Nat) (w : World) : Prop :=
  ∃ new, w.trace = t0 ++ new
    ∧ (phaseSteps new).map (fun s => s.commit.pivotArgs)
      = alternating (some (trotPivots1 sc)) (some (trotPivots2 sc)) k

/-- Phase 1 of `basicHalfCreep` (move front leg) as a function of the body height at the
time of the call: the fourth leg is lifted to LIFT_MAX_ANGLE. -/
def creepPhase1 (sc : ServoControl) (d : Nat) (m : Bool) (h : Nat) : Commit :=
  .allServos (creepPivots1 sc) ⟨h, h, h, sc.LIFT_MAX_ANGLE⟩ d m

/-- Phase 2 of `basicHalfCreep` (move body): no leg is lifted. -/
def creepPhase2 (sc : ServoControl) (d : Nat) (m : Bool) (h : Nat) : Commit :=
  .allServos (creepPivots2 sc) ⟨h, h, h, h⟩ d m

/-- Phase 3 of `basicHalfCreep` (move back leg to close position): the second leg is
lifted to LIFT_MAX_ANGLE. -/
def creepPhase3 (sc : ServoControl) (d : Nat) (m : Bool) (h : Nat) : Commit :=
  .allServos (creepPivots3 sc) ⟨h, sc.LIFT_MAX_ANGLE, h, h⟩ d m

/-- The three phases of one `basicHalfCreep(d, m)`. -/
def halfCreepTemplate (sc : ServoControl) (d : Nat) (m : Bool) : List (Nat → Commit) :=
  [creepPhase1 sc d m, creepPhase2 sc d m, creepPhase3 sc d m]

/-- The six phases of one creep cycle with direction `d`: the half creep unmirrored, then
the same half creep mirrored. -/
def creepCycleTemplate (sc : ServoControl) (d : Nat) : List (Nat → Commit) :=
  halfCreepTemplate sc d false ++ halfCreepTemplate sc d true

/-- Each step is the corresponding phase of the template, taken at the body height that
was current when the step was issued. -/
def FollowsTemplate (steps : List Step) (tpl : List (Nat → Commit)) : Prop :=
  List.Forall₂ (fun s f => s.commit = f s.before.sBodyHeightAngle) steps tpl

/-- The lift arguments of the first phase of a trot cycle: arguments 2 and 4 (back left
and front right) at the trot lift angle of the body height current at the call,
arguments 1 and 3 (front left and back right) at that body height. -/
def TrotFirstPhaseLifts (sc : ServoControl) (s : Step) : Prop :=
  ∃ P D, s.commit = .allServos P
    ⟨s.before.sBodyHeightAngle, trotLiftMaxAngle sc s.before.sBodyHeightAngle,
     s.before.sBodyHeightAngle, trotLiftMaxAngle sc s.before.sBodyHeightAngle⟩ D false

/-- The lift arguments of the two phases of a trot cycle: the first phase as in
`TrotFirstPhaseLifts`; the second phase with arguments 1 and 3 (front left and back right)
at the trot lift angle computed at the start of the cycle and arguments 2 and 4 (back left
and front right) at the body height current at the second call. -/
def TrotLiftCycle (sc : ServoControl) (c : Step × Step) : Prop :=
  TrotFirstPhaseLifts sc c.1
    ∧ ∃ P D, c.2.commit = .allServos P
        ⟨trotLiftMaxAngle sc c.1.before.sBodyHeightAngle, c.2.before.sBodyHeightAngle,
         trotLiftMaxAngle sc c.1.before.sBodyHeightAngle, c.2.before.sBodyHeightAngle⟩ D false

/-- Between two consecutive steps the stop signal was polled where the source polls it:
a phase commit that is followed by another step came back with the stop signal clear,
and a step that is not a phase commit (set-up or corrective commit) is followed by a
phase commit. -/
def Polled : List Step → Prop
  | [] => True
  | [_] => True
  | s :: t :: rest =>
    ((s.commit.isPhase = true → s.after.stopRequested = false)
      ∧ (s.commit.isPhase = false → t.commit.isPhase = true))
    ∧ Polled (t :: rest)

/-- The claim that every commit is followed by a poll: once a step came back with the stop
signal set, and the signal stays set, no further step follows. -/
def StopHaltsAlways (l : List Step) : Prop :=
  ∀ pre s post, l = pre ++ s :: post → s.after.stopRequested = true →
    (∀ t ∈ post, t.after.stopRequested = true) → post = []

/-- What the gaits guarantee: once a step came back with the stop signal set, and the
signal stays set, nothing follows if the step was a phase commit, and otherwise at most
one further step follows, which is a phase commit. -/
def StopHaltsSoon (l : List Step) : Prop :=
  ∀ pre s post, l = pre ++ s :: post → s.after.stopRequested = true →
    (∀ t ∈ post, t.after.stopRequested = true) →
    (s.commit.isPhase = true → post = []) ∧ post.length ≤ 1
      ∧ ∀ t ∈ post, t.commit.isPhase = true

/-- Since the trace was `t0` the stop signal was polled where the source polls it, and the
last step, if a phase commit, came back with the stop signal clear: the gait may issue a
phase commit. -/
def ReadyForPhase (t0 : List Step) (w : World) : Prop :=
  ∃ new, w.trace = t0 ++ new ∧ Polled new
    ∧ ∀ s ∈ new.getLast?, s.commit.isPhase = true → s.after.stopRequested = false

/-- Since the trace was `t0` the stop signal was polled where the source polls it, and the
last step, if any, is a phase commit that came back with the stop signal clear: the gait
may issue any commit. -/
def ReadyForAny (t0 : List Step) (w : World) : Prop :=
  ∃ new, w.trace = t0 ++ new ∧ Polled new
    ∧ ∀ s ∈ new.getLast?, s.commit.isPhase = true ∧ s.after.stopRequested = false

/-- Since the trace was `t0` the stop signal was polled where the source polls it. -/
def PolledSince (t0 : List Step) (w : World) : Prop :=
  ∃ new, w.trace = t0 ++ new ∧ Polled new

/-- An environment that never sets the stop signal, keeps body height `h`, and shows
direction `d0` after the first `k` blocking calls and direction `d1` after every later
one. -/
def directionFromEnv (d0 d1 h k : Nat) : Env :=
  fun j => ⟨if j < k then d0 else d1, h, false⟩

/-- Modelled from the spec: the bilateral mirror image of a leg of the ring (left and
right legs exchanged), used by the mirroring of the Angle Transform Layer
(QuadrupedServoControl, not in src); the unused example `basicSimpleHalfCreep` of the
source computes the mirrored leg in the same way, `(NUMBER_OF_LEGS - 1) - leg`. -/
def mirroredLeg (leg : Nat) : Nat := (NUMBER_OF_LEGS - 1) - leg

/-- Modelled from the spec: the channel map of the Angle Transform Layer
(`transformAndSetAllServos` and `transformOneServoIndex` of QuadrupedServoControl, not in
src): the pivot channel `LegIndex * ServosPerLeg` of the concrete leg that receives the
angles of the canonical leg `leg`.  The mirror flag swaps which physical leg receives the
angles; the direction-dependent part of the map is left out (identity). -/
def transformLegChannel (leg : Nat) (_aDirection : Nat) (doMirror : Bool) : Nat :=
  (if doMirror then mirroredLeg leg else leg) * SERVOS_PER_LEG

/-- Modelled from the spec: what `transformAndSetAllServos` (QuadrupedServoControl, not in
src) stores: pivot and lift angle of each of the four canonical legs (arguments 1 to 4 are
legs 0 to 3 of the ring) at the channels `transformLegChannel` gives, every channel being
assigned. -/
def specSetAllServos (p l : LegAngles) (aDirection : Nat) (doMirror : Bool)
    (a : Nat → Int) : Nat → Int :=
  fun j =>
    if j = transformLegChannel 0 aDirection doMirror then p.a1
    else if j = transformLegChannel 0 aDirection doMirror + LIFT_SERVO_OFFSET then l.a1
    else if j = transformLegChannel 1 aDirection doMirror then p.a2
    else if j = transformLegChannel 1 aDirection doMirror + LIFT_SERVO_OFFSET then l.a2
    else if j = transformLegChannel 2 aDirection doMirror then p.a3
    else if j = transformLegChannel 2 aDirection doMirror + LIFT_SERVO_OFFSET then l.a3
    else if j = transformLegChannel 3 aDirection doMirror then p.a4
    else if j = transformLegChannel 3 aDirection doMirror + LIFT_SERVO_OFFSET then l.a4
    else a j

/-- Modelled from the spec: the sample constants with the channel maps of the Angle
Transform Layer (QuadrupedServoControl, not in src) taken from `transformLegChannel`; the
call `transformOneServoIndex(index)` of the source passes neither direction nor mirror flag
and gets the unmirrored channel. -/
def specControl : ServoControl :=
  { sampleControl with
    setAllServos := specSetAllServos
    setPivotServos := fun p d m _ a j =>
      if j = transformLegChannel 0 d m then p.a1
      else if j = transformLegChannel 1 d m then p.a2
      else if j = transformLegChannel 2 d m then p.a3
      else if j = transformLegChannel 3 d m then p.a4
      else a j
    oneServoIndex := fun i g => transformLegChannel (i / SERVOS_PER_LEG) g false }

/-- The four lift entries of the next-position array, legs 0 to 3. -/
def liftTargets (a : Nat → Int) : List Int :=
  (List.range NUMBER_OF_LEGS).map (fun leg => a (leg * SERVOS_PER_LEG + LIFT_SERVO_OFFSET))

/-- The stores `sServoNextPositionArray[index] = value` executed by the `for` loop of
`basicQuarterTurn`, in execution order, as pairs of index and value; the arguments are
those of `basicQuarterTurnOthers`. -/
def basicQuarterTurnOthersStores (tTurnAngle : Int) (aBodyHeightAngle : Nat) :
    Nat → Int → (Nat → Int) → List (Int × Int)
  | 0, _, _ => []
  | k + 1, tServoIndex, a =>
    let tServoIndex := toInt8 (Int.tmod tServoIndex NUMBER_OF_SERVOS)
    let v := readArr a tServoIndex + tTurnAngle
    let a := writeArr a tServoIndex v
    let a := writeArr a (tServoIndex + LIFT_SERVO_OFFSET) aBodyHeightAngle
    (tServoIndex, v) :: (tServoIndex + LIFT_SERVO_OFFSET, (aBodyHeightAngle : Int))
      :: basicQuarterTurnOthersStores tTurnAngle aBodyHeightAngle k
          (toInt8 (tServoIndex + SERVOS_PER_LEG)) a

/-- The stores into `sServoNextPositionArray` executed by
`basicQuarterTurn(aMoveLegIndex, aTurnLeft)` before its synchronized commit, in execution
order, as pairs of index and value. -/
def basicQuarterTurnStores (sc : ServoControl) (aMoveLegIndex : Nat) (aTurnLeft : Bool)
    (w : World) : List (Int × Int) :=
  let tServoIndex : Int := toInt8 (aMoveLegIndex * SERVOS_PER_LEG)
  let tMoveAngle : Int :=
    if aTurnLeft then toInt8 sc.TURN_MOVE_ANGLE else toInt8 (-sc.TURN_MOVE_ANGLE)
  let tTurnAngle : Int :=
    if aTurnLeft then toInt8 (-sc.TURN_BODY_ANGLE) else toInt8 sc.TURN_BODY_ANGLE
  let a := writeArr w.sServoNextPositionArray tServoIndex (90 + tMoveAngle)
  let a := writeArr a (tServoIndex + LIFT_SERVO_OFFSET) sc.LIFT_MAX_ANGLE
  (tServoIndex, 90 + tMoveAngle) :: (tServoIndex + LIFT_SERVO_OFFSET, sc.LIFT_MAX_ANGLE)
    :: basicQuarterTurnOthersStores tTurnAngle w.sBodyHeightAngle (NUMBER_OF_LEGS - 1)
        (toInt8 (tServoIndex + SERVOS_PER_LEG)) a

/-- A list of stores carried out on an array, first store first. -/
def applyStores (stores : List (Int × Int)) (a : Nat → Int) : Nat → Int :=
  stores.foldl (fun a s => writeArr a s.1 s.2) a

/-- The leg index a line of the serial log reports for a quarter-turn is one of the legs
0 to `NUMBER_OF_LEGS - 1`; other lines report no leg. -/
def SerialLine.legInRange : SerialLine → Prop
  | .turnLeg aMoveLegIndex _ => aMoveLegIndex < NUMBER_OF_LEGS
  | _ => False

/-- The direction a line of the serial log reports: the argument of `goToYPosition` and of
`basicHalfCreep`. -/
def SerialLine.direction? : SerialLine → Option Nat
  | .goToYPosition aDirection => some aDirection
  | .basicHalfCreep aDirection _ => some aDirection
  | _ => none

/-- The phase commits of one creep cycle, complete or cut short by the stop signal: they
are the first phases of the six-phase cycle (half creep unmirrored, then mirrored) for the
direction value that was current when the first of them was issued. -/
def CreepCycle (sc : ServoControl) (c : List Step) : Prop :=
  ∃ s rest, c = s :: rest
    ∧ FollowsTemplate c ((creepCycleTemplate sc s.before.sMovingDirection).take c.length)

/-- The sense of a quarter-turn as a sign: 1 when the direction value is
MOVE_DIRECTION_LEFT (left turn), -1 for every other value. -/
def turnSign (sc : ServoControl) (aDirection : Nat) : Int :=
  if aDirection = sc.MOVE_DIRECTION_LEFT then 1 else -1

/-- The turn sense `σ` may occur during the call: the window `lo..hi` of accumulated body
turns is open upwards (`hi = 3`) when left turns occur and downwards (`lo = -3`) when
other turns occur. -/
def SignAllowed (lo hi σ : Int) : Prop := (σ = 1 → hi = 3) ∧ (σ = -1 → lo = -3)

/-- Proof invariant of the quarter-turn loop for the pivot target `v` of leg `leg`, at
the top of an iteration with turn-leg index `p` and turn sense `σ`.  The target is
`90 + k * M - u * B`: `k` says whether the leg was last moved by a left turn (1), by
another turn (-1) or not yet (0), `u` is the signed number of body turns applied since.
For a leg moved before, `u` is tied to the distance of the turn-leg index from the leg
modulo 4; for a leg not yet moved, to the distance `x` the index has travelled from 0. -/
def TurnLegInv (M B lo hi : Int) (leg p : Nat) (σ v : Int) : Prop :=
  ∃ k u : Int, v = 90 + k * M - u * B ∧ lo ≤ u ∧ u ≤ hi
    ∧ (k = 1 → hi = 3) ∧ (k = -1 → lo = -3)
    ∧ (((k = 1 ∨ k = -1) ∧ (u + σ - p + leg) % 4 = 0)
       ∨ (k = 0 ∧ ∃ x : Int, (x - p) % 4 = 0 ∧ (leg : Int) - 4 ≤ x ∧ x ≤ leg
            ∧ (u + σ - x = 1 ∨ u + σ - x = -1) ∧ (leg = 0 → p = 0)))

/-- Proof invariant of the quarter-turn loop: `TurnLegInv` for the pivot entry of each of
the four legs. -/
def TurnInv (sc : ServoControl) (lo hi : Int) (p : Nat) (w : World) : Prop :=
  ∀ leg, leg < NUMBER_OF_LEGS →
    TurnLegInv sc.TURN_MOVE_ANGLE sc.TURN_BODY_ANGLE lo hi leg p
      (turnSign sc w.sMovingDirection) (w.sServoNextPositionArray (leg * SERVOS_PER_LEG))

/-- The pivot targets a commit hands to the servos are valid servo angles: the four pivot
entries of a synchronized commit of the next-position array, and the angle of a
single-channel commit, lie in 0..180. -/
def Commit.pivotsValid : Commit → Prop
  | .syncAll ts => ∀ leg, leg < NUMBER_OF_LEGS →
      0 ≤ ts.getD (leg * SERVOS_PER_LEG) 0 ∧ ts.getD (leg * SERVOS_PER_LEG) 0 ≤ 180
  | .oneServo _ aDegree => 0 ≤ aDegree ∧ aDegree ≤ 180
  | _ => True

/-- The sample constants with the largest turn angles the bounds TURN_MOVE_ANGLE ≤ 90 and
3 * TURN_BODY_ANGLE ≤ 90 admit. -/
def steepTurnControl : ServoControl :=
  { sampleControl with TURN_MOVE_ANGLE := 90, TURN_BODY_ANGLE := 30 }

/-- The quarter-turns of one `moveTurn` call as the loop chains them, for the commits `qs`
and the serial lines `lines` they produce, starting at turn-leg index `leg`: each
quarter-turn is run for the current index with the turn sense of the direction value
current when it is issued, and the index is then advanced or retreated by the direction
value current when its commit has returned. -/
def TurnChain (sc : ServoControl) : Nat → List Step → List SerialLine → Prop
  | _, [], [] => True
  | leg, s :: ss, l :: ls =>
      l = .turnLeg leg (decide (s.before.sMovingDirection = sc.MOVE_DIRECTION_LEFT))
      ∧ s.commit.isSyncAll = true
      ∧ TurnChain sc
          ((if s.after.sMovingDirection = sc.MOVE_DIRECTION_LEFT then inc8 leg else dec8 leg)
            % NUMBER_OF_LEGS) ss ls
  | _, _, _ => False

/-- The claimed chaining of the quarter-turns, with the direction sampled once per
iteration: as `TurnChain`, but the index is advanced or retreated by the same direction
value that gave the turn sense, the one current when the quarter-turn is issued. -/
def TurnChainSampledOnce (sc : ServoControl) : Nat → List Step → List SerialLine → Prop
  | _, [], [] => True
  | leg, s :: ss, l :: ls =>
      l = .turnLeg leg (decide (s.before.sMovingDirection = sc.MOVE_DIRECTION_LEFT))
      ∧ s.commit.isSyncAll = true
      ∧ TurnChainSampledOnce sc
          ((if s.before.sMovingDirection = sc.MOVE_DIRECTION_LEFT then inc8 leg else dec8 leg)
            % NUMBER_OF_LEGS) ss ls
  | _, _, _ => False

/-- The lift arguments of a synchronized phase commit. -/
def Commit.liftArgs : Commit → Option LegAngles
  | .allServos _ l _ _ => some l
  | _ => none

/-- Exactly the diagonal pair back left and front right (arguments 2 and 4) is raised: the
two share a lift angle strictly above the body height `h`, and front left and back right
(arguments 1 and 3) are at `h`. -/
def BackLeftFrontRightRaised (l : LegAngles) (h : Nat) : Prop :=
  l.a1 = h ∧ l.a3 = h ∧ l.a4 = l.a2 ∧ (h : Int) < l.a2

/-- Exactly the diagonal pair front left and back right (arguments 1 and 3) is raised: the
two share a lift angle strictly above the body height `h`, and back left and front right
(arguments 2 and 4) are at `h`. -/
def FrontLeftBackRightRaised (l : LegAngles) (h : Nat) : Prop :=
  l.a2 = h ∧ l.a4 = h ∧ l.a3 = l.a1 ∧ (h : Int) < l.a1

/-- The first phase of a trot cycle raises exactly back left and front right, provided the
body height current at the call is at least 2 below LIFT_MAX_ANGLE. -/
def TrotFirstPhaseRaised (sc : ServoControl) (s : Step) : Prop :=
  (s.before.sBodyHeightAngle : Int) + 2 ≤ sc.LIFT_MAX_ANGLE →
    ∃ l, s.commit.liftArgs = some l ∧ BackLeftFrontRightRaised l s.before.sBodyHeightAngle

/-- The raised pairs of the two phases of a trot cycle: the first phase as in
`TrotFirstPhaseRaised`; the second phase raises exactly front left and back right,
provided the body height current at the second call is the one the cycle began with and
is at least 2 below LIFT_MAX_ANGLE. -/
def TrotRaisedCycle (sc : ServoControl) (c : Step × Step) : Prop :=
  TrotFirstPhaseRaised sc c.1
    ∧ (c.2.before.sBodyHeightAngle = c.1.before.sBodyHeightAngle →
        (c.1.before.sBodyHeightAngle : Int) + 2 ≤ sc.LIFT_MAX_ANGLE →
        ∃ l, c.2.commit.liftArgs = some l
          ∧ FrontLeftBackRightRaised l c.2.before.sBodyHeightAngle)

end Quadruped

/-!
# Push buttons at INT0 / INT1 (`examples/RobotArmControl/EasyButtonAtInt01.h`)

A shallow embedding of `EasyButton::init`, `EasyButton::updateButtonPressDuration` and
`handleINT01Interrupts`.  The button object is a record; the hardware is read through
explicit arguments: the levels of port D pins 2 and 3 found by a read of `PIND`, and the
value returned by `millis()`.  The press callback is user code outside the file: a call
is recorded with its argument, and the callback is taken not to write the button object.
The `long` values are integers of 32 bits: the difference `tMillis -
ButtonLastChangeMillis` wraps as on the target.
The preprocessor switches `USE_BUTTON_0`, `USE_BUTTON_1` and the overridable constant
`BUTTON_DEBOUNCING_MILLIS` are the fields of `ButtonBuild`.
-/

namespace EasyButtonAtInt01

/-- Conversion of a C integer value to `uint16_t`. -/
def toUInt16 (x : Int) : Nat := (x % 65536).toNat

/-- Conversion of an `unsigned long` value to `long` (32 bits, two's complement). -/
def toLong (x : Nat) : Int := ((x : Int) + 2147483648) % 4294967296 - 2147483648

/-- The value a `long` expression takes on the target (32 bits, two's complement): the
mathematical result wrapped into -2147483648..2147483647. -/
def wrapLong (x : Int) : Int := (x + 2147483648) % 4294967296 - 2147483648

/-- Which of `USE_BUTTON_0` and `USE_BUTTON_1` are defined; the file does not compile with
neither. -/
inductive ButtonsUsed where
  | button0
  | button1
  | both
deriving DecidableEq, Repr

/-- The compile-time configuration of the file. -/
structure ButtonBuild where
  used : ButtonsUsed
  /-- Defaults to 50 unless defined before the file is included. -/
  BUTTON_DEBOUNCING_MILLIS : Int
deriving DecidableEq, Repr

/-- The build with both buttons and the default debouncing time of 50 milliseconds. -/
def defaultBuild : ButtonBuild := ⟨.both, 50⟩

/-- The levels of pins 2 and 3 found by one read of `PIND`, `true` for HIGH. -/
structure PinD where
  pin2 : Bool
  pin3 : Bool
deriving DecidableEq, Repr

/-- The fields of `class EasyButton`. -/
structure EasyButton where
  /-- Negative logic: true / active means button pin is LOW. -/
  ButtonStateIsActive : Bool
  /-- Toggle is on press, not on release. -/
  ButtonToggleState : Bool
  ButtonStateHasJustChanged : Bool
  /-- A `uint16_t`. -/
  ButtonPressDurationMillis : Nat
  /-- A `long`. -/
  ButtonLastChangeMillis : Int
  /-- A `long`. -/
  ButtonReleaseMillis : Int
  isButton0AtPin2 : Bool
  /-- Whether the function pointer `ButtonPressCallback` is not NULL. -/
  ButtonPressCallback : Bool
deriving DecidableEq, Repr

/-- The expression `PIND & _BV(2)` or `PIND & _BV(3)` selected by the preprocessor
switches and `isButton0AtPin2`, as a truth value: `true` when the button pin is HIGH. -/
def readButtonPin (build : ButtonBuild) (aIsButton0AtPin2 : Bool) (pind : PinD) : Bool :=
  match build.used with
  | .button0 => pind.pin2
  | .button1 => pind.pin3
  | .both => if aIsButton0AtPin2 then pind.pin2 else pind.pin3

/-- The assignments at the end of `EasyButton::init()`; the register set-up before them
does not touch the fields. -/
def init (b : EasyButton) : EasyButton :=
  { b with ButtonStateIsActive := false, ButtonToggleState := false }

/-- The method `EasyButton::updateButtonPressDuration()`: the button after the call and
the value returned.  `pind` is the read of `PIND`, `aMillis` the value of `millis()`.  The
`uint8_t` local holds `PIND & _BV(2)` or `PIND & _BV(3)`, which is non-zero exactly when
the button pin is HIGH; it is not negated before it is tested.  The difference of the
`unsigned long` and the `long` is taken modulo 2^32 and stored in 16 bits. -/
def updateButtonPressDuration (build : ButtonBuild) (pind : PinD) (aMillis : Nat)
    (b : EasyButton) : EasyButton × Nat :=
  let tActualButtonStateIsActive : Bool := readButtonPin build b.isButton0AtPin2 pind
  let b1 : EasyButton :=
    if tActualButtonStateIsActive then
      { b with ButtonPressDurationMillis := toUInt16 ((aMillis : Int) - b.ButtonLastChangeMillis) }
    else b
  (b1, b1.ButtonPressDurationMillis)

/-- One run of the interrupt handler: the read of `PIND` at entry, the value of
`millis()`, and the read of `PIND` after the callback has returned. -/
structure Interrupt where
  pind : PinD
  millis : Nat
  pindAfterCallback : PinD
deriving DecidableEq, Repr

/-- The local `tActualButtonStateIsActive` of `handleINT01Interrupts` after the negation
of line 259: `true` when the button pin is LOW. -/
def actualButtonStateIsActive (build : ButtonBuild) (ev : Interrupt) (b : EasyButton) : Bool :=
  !(readButtonPin build b.isButton0AtPin2 ev.pind)

/-- The local `tDeltaMillis` of `handleINT01Interrupts`: the difference of the two `long`
values `tMillis` and `ButtonLastChangeMillis`, computed in 32 bits. -/
def deltaMillis (ev : Interrupt) (b : EasyButton) : Int :=
  wrapLong (toLong ev.millis - b.ButtonLastChangeMillis)

/-- The function `handleINT01Interrupts(aButtonControlPtr)`: the button after the call and
the arguments of the calls of the press callback, in order. -/
def handleINT01Interrupts (build : ButtonBuild) (ev : Interrupt) (b : EasyButton) :
    EasyButton × List Bool :=
  let tActualButtonStateIsActive := actualButtonStateIsActive build ev b
  let tMillis : Int := toLong ev.millis
  let tDeltaMillis : Int := wrapLong (tMillis - b.ButtonLastChangeMillis)
  if tDeltaMillis ≤ build.BUTTON_DEBOUNCING_MILLIS then
    (b, [])
  else if tActualButtonStateIsActive = b.ButtonStateIsActive then
    (b, [])
  else
    let b1 : EasyButton :=
      { b with
        ButtonLastChangeMillis := tMillis
        ButtonPressDurationMillis := toUInt16 tDeltaMillis
        ButtonStateIsActive := tActualButtonStateIsActive
        ButtonStateHasJustChanged := true }
    if tActualButtonStateIsActive then
      let b2 : EasyButton := { b1 with ButtonToggleState := !b1.ButtonToggleState }
      if b2.ButtonPressCallback then
        let calls := [b2.ButtonToggleState]
        let tActualButtonStateIsActive := !ev.pindAfterCallback.pin2
        if b2.ButtonStateIsActive ≠ tActualButtonStateIsActive then
          ({ b2 with
              ButtonStateIsActive := tActualButtonStateIsActive
              ButtonStateHasJustChanged := true }, calls)
        else (b2, calls)
      else (b2, [])
    else
      ({ b1 with ButtonReleaseMillis := tMillis }, [])

/-- The handler run on a sequence of interrupts: the final button and all callback calls. -/
def handleAll (build : ButtonBuild) : List Interrupt → EasyButton → EasyButton × List Bool
  | [], b => (b, [])
  | ev :: rest, b =>
    let r := handleINT01Interrupts build ev b
    let r2 := handleAll build rest r.1
    (r2.1, r.2 ++ r2.2)

/-- The interrupt is an accepted press: outside the debouncing time, the state read
differs from the stored one, and the state read is active. -/
def acceptedPress (build : ButtonBuild) (ev : Interrupt) (b : EasyButton) : Bool :=
  decide (build.BUTTON_DEBOUNCING_MILLIS < deltaMillis ev b)
    && (actualButtonStateIsActive build ev b != b.ButtonStateIsActive)
    && actualButtonStateIsActive build ev b

/-- The interrupt is an accepted release: outside the debouncing time, the state read
differs from the stored one, and the state read is not active. -/
def acceptedRelease (build : ButtonBuild) (ev : Interrupt) (b : EasyButton) : Bool :=
  decide (build.BUTTON_DEBOUNCING_MILLIS < deltaMillis ev b)
    && (actualButtonStateIsActive build ev b != b.ButtonStateIsActive)
    && !actualButtonStateIsActive build ev b

/-- The number of accepted presses in a sequence of interrupts handled from button `b`. -/
def acceptedPresses (build : ButtonBuild) : List Interrupt → EasyButton → Nat
  | [], _ => 0
  | ev :: rest, b =>
    (if acceptedPress build ev b then 1 else 0)
      + acceptedPresses build rest (handleINT01Interrupts build ev b).1

/-- A sample button at pin 2 with a callback, released, last change at 400 ms. -/
def sampleButton : EasyButton :=
  { ButtonStateIsActive := false
    ButtonToggleState := false
    ButtonStateHasJustChanged := false
    ButtonPressDurationMillis := 0
    ButtonLastChangeMillis := 400
    ButtonReleaseMillis := 400
    isButton0AtPin2 := true
    ButtonPressCallback := true }

end EasyButtonAtInt01

namespace Quadruped

/-! ## Body-height reconciliation: properties -/

theorem check_remembers (env : Env) (w : World) :
    (checkIfBodyHeightHasChanged env w).tCurrentBodyHeightAngle
      = (checkIfBodyHeightHasChanged env w).sBodyHeightAngle := by
  unfold checkIfBodyHeightHasChanged
  by_cases h0 : w.tCurrentBodyHeightAngle = 0
  · simp [h0]
  · by_cases h1 : w.sBodyHeightAngle = w.tCurrentBodyHeightAngle
    · simp [h0, h1]
    · simp [h0, h1]

theorem check_trace (env : Env) (w : World) :
    (checkIfBodyHeightHasChanged env w).trace
      = w.trace ++
        (if w.tCurrentBodyHeightAngle ≠ 0 ∧ w.sBodyHeightAngle ≠ w.tCurrentBodyHeightAngle
         then [correctiveStep env w] else []) := by
  unfold checkIfBodyHeightHasChanged
  by_cases h0 : w.tCurrentBodyHeightAngle = 0
  · simp [h0]
  · by_cases h1 : w.sBodyHeightAngle = w.tCurrentBodyHeightAngle
    · simp [h0, h1]
    · simp [h0, h1, setLiftServosToBodyHeight, commit, correctiveStep, World.inputs]

/-- C10: on the first call of `checkIfBodyHeightHasChanged` (the `static` still holds its
initial 0), whatever the current body height, the remembered baseline becomes the current
body height and no corrective commit is issued (the trace is unchanged). -/
theorem C10_first_call_sets_baseline (env : Env) (w : World)
    (hfirst : w.tCurrentBodyHeightAngle = 0) :
    (checkIfBodyHeightHasChanged env w).tCurrentBodyHeightAngle = w.sBodyHeightAngle
      ∧ (checkIfBodyHeightHasChanged env w).trace = w.trace := by
  constructor
  · simp [checkIfBodyHeightHasChanged, hfirst]
  · simp [check_trace, hfirst]

/-- C10 (witness): a fresh program at body height 60. -/
theorem C10_first_call_sets_baseline_witness :
    (freshWorld 0 60).tCurrentBodyHeightAngle = 0
      ∧ (checkIfBodyHeightHasChanged (quietEnv 0 60) (freshWorld 0 60)).tCurrentBodyHeightAngle = 60
      ∧ (checkIfBodyHeightHasChanged (quietEnv 0 60) (freshWorld 0 60)).trace = [] :=
  ⟨rfl, C10_first_call_sets_baseline (quietEnv 0 60) (freshWorld 0 60) rfl⟩

/-- C2 (counterexample): the previous call ran with body height 0 (and left the static at
0); the current call sees body height 5.  The two values differ, yet the current call
appends nothing to the trace: it takes the static for uninitialised and sets it to 5. -/
theorem C2_counterexample :
    (checkIfBodyHeightHasChanged (quietEnv 0 0) (freshWorld 0 0)).sBodyHeightAngle = 0
    ∧ ({ checkIfBodyHeightHasChanged (quietEnv 0 0) (freshWorld 0 0) with
          sBodyHeightAngle := 5 } : World).sBodyHeightAngle
        ≠ (checkIfBodyHeightHasChanged (quietEnv 0 0) (freshWorld 0 0)).sBodyHeightAngle
    ∧ (checkIfBodyHeightHasChanged (quietEnv 0 0)
          { checkIfBodyHeightHasChanged (quietEnv 0 0) (freshWorld 0 0) with
            sBodyHeightAngle := 5 }).trace
        = (checkIfBodyHeightHasChanged (quietEnv 0 0) (freshWorld 0 0)).trace
    ∧ (checkIfBodyHeightHasChanged (quietEnv 0 0)
          { checkIfBodyHeightHasChanged (quietEnv 0 0) (freshWorld 0 0) with
            sBodyHeightAngle := 5 }).tCurrentBodyHeightAngle = 5 := by
  refine ⟨by rfl, by decide, by rfl, by rfl⟩

/-- C2 (amended): for a call of `checkIfBodyHeightHasChanged` after the first, let `prev` be
the body height when the previous call returned (the static then holds it).  The call
appends exactly the corrective commit when the current body height differs from `prev`
and `prev` is not 0, and appends nothing otherwise; a call with an unchanged value issues
no commit. -/
theorem C2_corrective_commit_iff_changed (env : Env) (w0 w : World)
    (hstatic : w.tCurrentBodyHeightAngle
      = (checkIfBodyHeightHasChanged env w0).tCurrentBodyHeightAngle) :
    (checkIfBodyHeightHasChanged env w).trace
      = w.trace ++
        (if w.sBodyHeightAngle ≠ (checkIfBodyHeightHasChanged env w0).sBodyHeightAngle
            ∧ (checkIfBodyHeightHasChanged env w0).sBodyHeightAngle ≠ 0
         then [correctiveStep env w] else []) := by
  rw [check_remembers] at hstatic
  rw [check_trace, hstatic]
  by_cases h0 : (checkIfBodyHeightHasChanged env w0).sBodyHeightAngle = 0
  · simp [h0]
  · by_cases h1 : w.sBodyHeightAngle = (checkIfBodyHeightHasChanged env w0).sBodyHeightAngle
    · simp [h0, h1]
    · simp [h0, h1]

/-- C2 (witness): after a call at body height 60, a call at body height 62 appends the
corrective commit for 62. -/
theorem C2_corrective_commit_iff_changed_witness :
    (checkIfBodyHeightHasChanged (quietEnv 0 62)
        { checkIfBodyHeightHasChanged (quietEnv 0 62) (freshWorld 0 60) with
          sBodyHeightAngle := 62 }).trace
      = [⟨.liftToBodyHeight 62, ⟨0, 62, false⟩, ⟨0, 62, false⟩⟩] := by
  have h := C2_corrective_commit_iff_changed (quietEnv 0 62) (freshWorld 0 60)
    { checkIfBodyHeightHasChanged (quietEnv 0 62) (freshWorld 0 60) with
      sBodyHeightAngle := 62 } (by decide)
  rw [h]
  decide

theorem toInt8_of_fits (x : Int) (h1 : -128 ≤ x) (h2 : x ≤ 127) : toInt8 x = x := by
  unfold toInt8
  omega

theorem writeArr_natCast (a : Nat → Int) (k : Nat) (v : Int) :
    writeArr a (k : Int) v = fun j => if j = k then v else a j := by
  funext j
  simp [writeArr]

theorem readArr_natCast (a : Nat → Int) (k : Nat) : readArr a (k : Int) = a k := by
  simp [readArr]

theorem others_step (t : Int) (h k i : Nat) (hi : i ≤ 8) (a : Nat → Int) :
    basicQuarterTurnOthers t h (k + 1) (i : Int) a
      = basicQuarterTurnOthers t h k ((i % 8 + 2 : Nat) : Int)
          (fun j => if j = i % 8 + 1 then (h : Int)
            else if j = i % 8 then a (i % 8) + t else a j) := by
  have e1 : toInt8 (Int.tmod (i : Int) (NUMBER_OF_SERVOS : Nat)) = ((i % 8 : Nat) : Int) := by
    have : Int.tmod (i : Int) ((NUMBER_OF_SERVOS : Nat) : Int) = ((i % 8 : Nat) : Int) := by
      rw [Int.tmod_eq_emod (by omega) (by simp [NUMBER_OF_SERVOS, NUMBER_OF_LEGS, SERVOS_PER_LEG])]
      simp [NUMBER_OF_SERVOS, NUMBER_OF_LEGS, SERVOS_PER_LEG]
    rw [this]
    apply toInt8_of_fits <;> omega
  have e2 : toInt8 (((i % 8 : Nat) : Int) + (SERVOS_PER_LEG : Nat)) = ((i % 8 + 2 : Nat) : Int) := by
    rw [toInt8_of_fits] <;> simp [SERVOS_PER_LEG] <;> omega
  have e3 : ((i % 8 : Nat) : Int) + ((LIFT_SERVO_OFFSET : Nat) : Int) = ((i % 8 + 1 : Nat) : Int) := by
    simp [LIFT_SERVO_OFFSET]
  rw [basicQuarterTurnOthers]
  simp only [e1, e2, e3, writeArr_natCast, readArr_natCast]


theorem basicQuarterTurn_array (env : Env) (sc : ServoControl) (L : Nat) (aTurnLeft : Bool)
    (w : World) (hL : L < 4)
    (hM : -127 ≤ sc.TURN_MOVE_ANGLE ∧ sc.TURN_MOVE_ANGLE ≤ 127)
    (hB : -127 ≤ sc.TURN_BODY_ANGLE ∧ sc.TURN_BODY_ANGLE ≤ 127) :
    (basicQuarterTurn env sc L aTurnLeft w).sServoNextPositionArray
      = fun j =>
          if j = 2 * L then (if aTurnLeft then 90 + sc.TURN_MOVE_ANGLE else 90 - sc.TURN_MOVE_ANGLE)
          else if j = 2 * L + 1 then sc.LIFT_MAX_ANGLE
          else if j < 8 then
            (if j % 2 = 0 then
              (if aTurnLeft then w.sServoNextPositionArray j - sc.TURN_BODY_ANGLE
               else w.sServoNextPositionArray j + sc.TURN_BODY_ANGLE)
             else (w.sBodyHeightAngle : Int))
          else w.sServoNextPositionArray j := by
  have e1 := toInt8_of_fits sc.TURN_MOVE_ANGLE (by omega) (by omega)
  have e2 := toInt8_of_fits (-sc.TURN_MOVE_ANGLE) (by omega) (by omega)
  have e3 := toInt8_of_fits sc.TURN_BODY_ANGLE (by omega) (by omega)
  have e4 := toInt8_of_fits (-sc.TURN_BODY_ANGLE) (by omega) (by omega)
  have i1 : toInt8 ((L : Int) * ((SERVOS_PER_LEG : Nat) : Int)) = ((2 * L : Nat) : Int) := by
    rw [toInt8_of_fits] <;> simp [SERVOS_PER_LEG] <;> omega
  have i2 : ((2 * L : Nat) : Int) + ((LIFT_SERVO_OFFSET : Nat) : Int) = ((2 * L + 1 : Nat) : Int) := by
    simp [LIFT_SERVO_OFFSET]
  have i3 : toInt8 (((2 * L : Nat) : Int) + ((SERVOS_PER_LEG : Nat) : Int)) = ((2 * L + 2 : Nat) : Int) := by
    rw [toInt8_of_fits] <;> simp [SERVOS_PER_LEG] <;> omega
  have n3 : NUMBER_OF_LEGS - 1 = 2 + 1 := rfl
  unfold basicQuarterTurn
  simp only [synchronizeMoveAllServosAndCheckInputAndWait, commit, serialPrint, i1, i2, i3, n3,
    writeArr_natCast, readArr_natCast]
  rw [others_step _ _ _ _ (by omega), others_step _ _ _ _ (by omega),
    others_step _ _ _ _ (by omega)]
  simp only [basicQuarterTurnOthers]
  funext j
  by_cases hj : j < 8
  · interval_cases L <;> cases aTurnLeft <;> simp [e1, e2, e3, e4] <;>
      interval_cases j <;> simp <;> ring
  · have h0 : j ≠ 0 := by omega
    have h1 : j ≠ 1 := by omega
    have h2 : j ≠ 2 := by omega
    have h3 : j ≠ 3 := by omega
    have h4 : j ≠ 4 := by omega
    have h5 : j ≠ 5 := by omega
    have h6 : j ≠ 6 := by omega
    have h7 : j ≠ 7 := by omega
    interval_cases L <;> simp [h0, h1, h2, h3, h4, h5, h6, h7, hj]


theorem basicQuarterTurn_trace (env : Env) (sc : ServoControl) (L : Nat) (aTurnLeft : Bool)
    (w : World) :
    (basicQuarterTurn env sc L aTurnLeft w).trace
      = w.trace ++ [⟨.syncAll (targets (basicQuarterTurn env sc L aTurnLeft w).sServoNextPositionArray),
          w.inputs, env w.trace.length⟩] := by
  simp [basicQuarterTurn, synchronizeMoveAllServosAndCheckInputAndWait, commit, serialPrint,
    World.inputs]

/-- C7: for a leg index `L` in 0..3, either turn sense and any prior next-position array,
`basicQuarterTurn` leaves the pivot of leg `L` at 90 ± TURN_MOVE_ANGLE and its lift at
LIFT_MAX_ANGLE, shifts the pivot of each other leg by ∓ TURN_BODY_ANGLE, sets the lift of
each other leg to the current body height, and appends exactly one synchronized commit
(of the array so computed) to the trace.  The two turn constants are taken to fit the
`int8_t` locals they are stored in. -/
theorem C7_basicQuarterTurn_targets (env : Env) (sc : ServoControl) (L : Nat)
    (aTurnLeft : Bool) (w : World)
    (hL : L < NUMBER_OF_LEGS)
    (hM : -127 ≤ sc.TURN_MOVE_ANGLE ∧ sc.TURN_MOVE_ANGLE ≤ 127)
    (hB : -127 ≤ sc.TURN_BODY_ANGLE ∧ sc.TURN_BODY_ANGLE ≤ 127) :
    (basicQuarterTurn env sc L aTurnLeft w).sServoNextPositionArray (L * SERVOS_PER_LEG)
        = (if aTurnLeft then 90 + sc.TURN_MOVE_ANGLE else 90 - sc.TURN_MOVE_ANGLE)
      ∧ (basicQuarterTurn env sc L aTurnLeft w).sServoNextPositionArray
          (L * SERVOS_PER_LEG + LIFT_SERVO_OFFSET) = sc.LIFT_MAX_ANGLE
      ∧ (∀ j, j < NUMBER_OF_LEGS → j ≠ L →
          (basicQuarterTurn env sc L aTurnLeft w).sServoNextPositionArray (j * SERVOS_PER_LEG)
              = (if aTurnLeft
                 then w.sServoNextPositionArray (j * SERVOS_PER_LEG) - sc.TURN_BODY_ANGLE
                 else w.sServoNextPositionArray (j * SERVOS_PER_LEG) + sc.TURN_BODY_ANGLE)
            ∧ (basicQuarterTurn env sc L aTurnLeft w).sServoNextPositionArray
                (j * SERVOS_PER_LEG + LIFT_SERVO_OFFSET) = w.sBodyHeightAngle)
      ∧ (basicQuarterTurn env sc L aTurnLeft w).trace
          = w.trace ++
            [⟨.syncAll (targets (basicQuarterTurn env sc L aTurnLeft w).sServoNextPositionArray),
              w.inputs, env w.trace.length⟩] := by
  have hL4 : L < 4 := hL
  refine ⟨?_, ?_, ?_, basicQuarterTurn_trace env sc L aTurnLeft w⟩
  · rw [basicQuarterTurn_array env sc L aTurnLeft w hL4 hM hB]
    have : L * SERVOS_PER_LEG = 2 * L := by simp [SERVOS_PER_LEG, Nat.mul_comm]
    simp [this]
  · rw [basicQuarterTurn_array env sc L aTurnLeft w hL4 hM hB]
    have : L * SERVOS_PER_LEG + LIFT_SERVO_OFFSET = 2 * L + 1 := by
      simp [SERVOS_PER_LEG, LIFT_SERVO_OFFSET, Nat.mul_comm]
    simp [this]
  · intro j hj hne
    have hj4 : j < 4 := hj
    rw [basicQuarterTurn_array env sc L aTurnLeft w hL4 hM hB]
    have e1 : j * SERVOS_PER_LEG = 2 * j := by simp [SERVOS_PER_LEG, Nat.mul_comm]
    have e2 : 2 * j + LIFT_SERVO_OFFSET = 2 * j + 1 := rfl
    have n1 : 2 * j ≠ 2 * L := by omega
    have n2 : 2 * j ≠ 2 * L + 1 := by omega
    have n3 : 2 * j + 1 ≠ 2 * L := by omega
    have n4 : 2 * j + 1 ≠ 2 * L + 1 := by omega
    have l1 : 2 * j < 8 := by omega
    have l2 : 2 * j + 1 < 8 := by omega
    have m1 : 2 * j % 2 = 0 := by omega
    have m2 : (2 * j + 1) % 2 ≠ 0 := by omega
    rw [e1, e2]
    simp only [if_neg n1, if_neg n2, if_neg n3, if_neg n4, if_pos l1, if_pos l2, if_pos m1,
      if_neg m2, and_self]

/-- C7 (witness): a left quarter-turn of leg 1 with move angle 40 and lift maximum 135. -/
theorem C7_basicQuarterTurn_targets_witness :
    (basicQuarterTurn (quietEnv 1 60) sampleControl 1 true (freshWorld 1 60)).sServoNextPositionArray
          (1 * SERVOS_PER_LEG) = 130
      ∧ (basicQuarterTurn (quietEnv 1 60) sampleControl 1 true (freshWorld 1 60)).sServoNextPositionArray
          (1 * SERVOS_PER_LEG + LIFT_SERVO_OFFSET) = 135 := by
  have h := C7_basicQuarterTurn_targets (quietEnv 1 60) sampleControl 1 true (freshWorld 1 60)
    (by decide) (by decide) (by decide)
  exact ⟨h.1, h.2.1⟩


theorem check_eq (env : Env) (w : World) :
    checkIfBodyHeightHasChanged env w
      = if w.tCurrentBodyHeightAngle ≠ 0 ∧ w.sBodyHeightAngle ≠ w.tCurrentBodyHeightAngle then
          { commit env (.liftToBodyHeight w.sBodyHeightAngle) w with
            tCurrentBodyHeightAngle := (env w.trace.length).sBodyHeightAngle }
        else { w with tCurrentBodyHeightAngle := w.sBodyHeightAngle } := by
  unfold checkIfBodyHeightHasChanged
  by_cases h0 : w.tCurrentBodyHeightAngle = 0
  · simp [h0]
  · by_cases h1 : w.sBodyHeightAngle = w.tCurrentBodyHeightAngle
    · simp [h0, h1]
      cases w
      simp_all
    · simp [h0, h1, setLiftServosToBodyHeight, commit]

theorem dec8_of_pos (n : Nat) (h1 : 1 ≤ n) (h2 : n ≤ 255) : dec8 n = n - 1 := by
  unfold dec8
  omega

@[simp] theorem transformAll_stop (env : Env) (sc : ServoControl) (p l : LegAngles) (d : Nat)
    (m : Bool) (w : World) :
    (transformAndSetAllServos env sc p l d m w).stopRequested
      = (env w.trace.length).stopRequested := rfl

@[simp] theorem transformAll_height (env : Env) (sc : ServoControl) (p l : LegAngles) (d : Nat)
    (m : Bool) (w : World) :
    (transformAndSetAllServos env sc p l d m w).sBodyHeightAngle
      = (env w.trace.length).sBodyHeightAngle := rfl

@[simp] theorem transformAll_direction (env : Env) (sc : ServoControl) (p l : LegAngles) (d : Nat)
    (m : Bool) (w : World) :
    (transformAndSetAllServos env sc p l d m w).sMovingDirection
      = (env w.trace.length).sMovingDirection := rfl

@[simp] theorem transformAll_static (env : Env) (sc : ServoControl) (p l : LegAngles) (d : Nat)
    (m : Bool) (w : World) :
    (transformAndSetAllServos env sc p l d m w).tCurrentBodyHeightAngle
      = w.tCurrentBodyHeightAngle := rfl

@[simp] theorem transformAll_serial (env : Env) (sc : ServoControl) (p l : LegAngles) (d : Nat)
    (m : Bool) (w : World) :
    (transformAndSetAllServos env sc p l d m w).serial = w.serial := rfl

@[simp] theorem transformAll_trace (env : Env) (sc : ServoControl) (p l : LegAngles) (d : Nat)
    (m : Bool) (w : World) :
    (transformAndSetAllServos env sc p l d m w).trace
      = w.trace ++ [⟨.allServos p l d m, w.inputs, env w.trace.length⟩] := rfl

theorem check_quiet (env : Env) (w : World)
    (h : w.tCurrentBodyHeightAngle = 0 ∨ w.tCurrentBodyHeightAngle = w.sBodyHeightAngle) :
    checkIfBodyHeightHasChanged env w
      = { w with tCurrentBodyHeightAngle := w.sBodyHeightAngle } := by
  rw [check_eq, if_neg]
  rcases h with h | h
  · simp [h]
  · simp [h]

theorem Quiet.quietTransformAll {env : Env} {h : Nat} {t0 : List Step} {k : Nat} {w : World}
    (hheight : ∀ k, (env k).sBodyHeightAngle = h) (hq : Quiet h t0 k w)
    (sc : ServoControl) (p l : LegAngles) (d : Nat) (m : Bool) :
    Quiet h t0 (k + 1) (transformAndSetAllServos env sc p l d m w) := by
  obtain ⟨⟨new, h1, h2, h3⟩, _, h5⟩ := hq
  refine ⟨⟨new ++ [⟨.allServos p l d m, w.inputs, env w.trace.length⟩], ?_, ?_, ?_⟩, ?_, ?_⟩
  · simp [h1]
  · simp [h2]
  · intro s hs
    rcases List.mem_append.mp hs with hs | hs
    · exact h3 s hs
    · simp at hs
      subst hs
      rfl
  · simp [hheight]
  · simpa using h5

theorem Quiet.quietCheck {env : Env} {h : Nat} {t0 : List Step} {k : Nat} {w : World}
    (hq : Quiet h t0 k w) : Quiet h t0 k (checkIfBodyHeightHasChanged env w) := by
  obtain ⟨h1, h4, h5⟩ := hq
  rw [check_quiet env w (by rw [h4]; exact h5)]
  exact ⟨h1, h4, Or.inr h4⟩

theorem trotLoop_quiet (env : Env) (sc : ServoControl) (h : Nat) (t0 : List Step)
    (hstop : ∀ k, (env k).stopRequested = false)
    (hheight : ∀ k, (env k).sBodyHeightAngle = h) :
    ∀ (fuel n d k : Nat) (w : World), 1 ≤ n → n ≤ fuel → n ≤ 255 → Quiet h t0 k w →
      ∃ w1, moveTrotLoop env sc fuel n d w = some w1 ∧ Quiet h t0 (k + 2 * n) w1 := by
  intro fuel
  induction fuel with
  | zero => intro n d k w h1 h2; omega
  | succ fuel ih =>
    intro n d k w h1 h2 h3 hq
    have key : ∀ L1 L2, Quiet h t0 (k + 1 + 1)
        (checkIfBodyHeightHasChanged env (transformAndSetAllServos env sc (trotPivots2 sc) L2 d false
          (checkIfBodyHeightHasChanged env
            (transformAndSetAllServos env sc (trotPivots1 sc) L1 d false w)))) :=
      fun L1 L2 => (((hq.quietTransformAll hheight sc _ L1 d false).quietCheck).quietTransformAll
        hheight sc _ L2 d false).quietCheck
    have step : ∀ (D : Nat) (W : World), Quiet h t0 (k + 1 + 1) W →
        ∃ w1, (if n - 1 ≠ 0 then moveTrotLoop env sc fuel (n - 1) D W else some W) = some w1
          ∧ Quiet h t0 (k + 2 * n) w1 := by
      intro D W hW
      by_cases hn : n - 1 = 0
      · rw [if_neg (by simpa using hn)]
        refine ⟨W, rfl, ?_⟩
        have : k + 2 * n = k + 1 + 1 := by omega
        rw [this]
        exact hW
      · rw [if_pos hn]
        obtain ⟨w1, e1, e2⟩ := ih (n - 1) D (k + 1 + 1) W (by omega) (by omega) (by omega) hW
        refine ⟨w1, e1, ?_⟩
        have : k + 2 * n = k + 1 + 1 + 2 * (n - 1) := by omega
        rw [this]
        exact e2
    simp only [moveTrotLoop, RETURN_IF_STOP, transformAll_stop, hstop, Bool.false_eq_true, if_false,
      dec8_of_pos n h1 h3]
    exact step _ _ (key _ _)

/-- C1: for every cycle count `N` with 1 ≤ N ≤ 255, when the stop signal is never set and
the body height never changes (the environment keeps it at its value, and the remembered
baseline is still unset or already that value), `moveTrot N` returns and has appended
exactly `2 * N` steps to the trace, every one of them a synchronized phase commit of
`transformAndSetAllServos`; so no body-height corrective commit is among them. -/
theorem C1_moveTrot_commit_count (env : Env) (sc : ServoControl) (N : Nat) (w : World)
    (h1 : 1 ≤ N) (h2 : N ≤ 255)
    (hstop : ∀ k, (env k).stopRequested = false)
    (hheight : ∀ k, (env k).sBodyHeightAngle = w.sBodyHeightAngle)
    (hbase : w.tCurrentBodyHeightAngle = 0 ∨ w.tCurrentBodyHeightAngle = w.sBodyHeightAngle) :
    ∃ w1 new, moveTrot env sc N w = some w1 ∧ w1.trace = w.trace ++ new
      ∧ new.length = 2 * N ∧ ∀ s ∈ new, s.commit.isAllServos = true := by
  have hq : Quiet w.sBodyHeightAngle w.trace 0 w := ⟨⟨[], by simp, rfl, by simp⟩, rfl, hbase⟩
  obtain ⟨w1, e1, ⟨new, e2, e3, e4⟩, _, _⟩ :=
    trotLoop_quiet env sc w.sBodyHeightAngle w.trace hstop hheight 256 N w.sMovingDirection 0 w
      h1 (by omega) h2 hq
  exact ⟨w1, new, e1, e2, by omega, e4⟩

/-- C1 (witness): two trot cycles of a fresh program in a quiet environment. -/
theorem C1_moveTrot_commit_count_witness :
    ∃ w1 new, moveTrot (quietEnv 0 60) sampleControl 2 (freshWorld 0 60) = some w1
      ∧ w1.trace = (freshWorld 0 60).trace ++ new
      ∧ new.length = 2 * 2 ∧ ∀ s ∈ new, s.commit.isAllServos = true :=
  C1_moveTrot_commit_count (quietEnv 0 60) sampleControl 2 (freshWorld 0 60)
    (by decide) (by decide) (fun _ => rfl) (fun _ => rfl) (Or.inl rfl)

/-! ## Turn: properties -/

@[simp] theorem basicQuarterTurn_stop (env : Env) (sc : ServoControl) (L : Nat) (b : Bool)
    (w : World) :
    (basicQuarterTurn env sc L b w).stopRequested = (env w.trace.length).stopRequested := rfl

@[simp] theorem basicQuarterTurn_direction (env : Env) (sc : ServoControl) (L : Nat) (b : Bool)
    (w : World) :
    (basicQuarterTurn env sc L b w).sMovingDirection = (env w.trace.length).sMovingDirection := rfl

@[simp] theorem basicQuarterTurn_serial (env : Env) (sc : ServoControl) (L : Nat) (b : Bool)
    (w : World) :
    (basicQuarterTurn env sc L b w).serial = w.serial ++ [.turnLeg L b] := rfl

theorem basicQuarterTurn_trace_length (env : Env) (sc : ServoControl) (L : Nat) (b : Bool)
    (w : World) :
    (basicQuarterTurn env sc L b w).trace.length = w.trace.length + 1 := by
  rw [basicQuarterTurn_trace]
  simp

theorem iterations_le (n : Nat) (h : n ≤ 255) : iterations n ≤ 256 := by
  unfold iterations
  split <;> omega

theorem iterations_pos (n : Nat) : 1 ≤ iterations n := by
  unfold iterations
  split <;> omega

theorem iterations_of_dec8_eq_zero (n : Nat) (h : n ≤ 255) (h0 : dec8 n = 0) :
    iterations n = 1 := by
  unfold dec8 at h0
  unfold iterations
  split <;> omega

theorem iterations_of_dec8_ne_zero (n : Nat) (h : n ≤ 255) (h0 : dec8 n ≠ 0) :
    iterations (dec8 n) + 1 = iterations n ∧ dec8 n ≤ 255 := by
  unfold dec8 at h0 ⊢
  unfold iterations
  split <;> split <;> omega

/-- The quarter-turn loop, run to completion or to the first stop: `m` quarter-turns are
committed when the stop signal is clear after the first `m - 1` of them and either `m` is
the full count or the stop signal is set after the `m`-th. -/
theorem turnLoop_count (env : Env) (sc : ServoControl) :
    ∀ (fuel n leg m : Nat) (w : World), n ≤ 255 → iterations n ≤ fuel →
      1 ≤ m → m ≤ iterations n →
      (∀ j, j + 1 < m → (env (w.trace.length + j)).stopRequested = false) →
      (m < iterations n → (env (w.trace.length + (m - 1))).stopRequested = true) →
      ∃ w1 qs, moveTurnLoop env sc fuel n leg w = some w1 ∧ w1.trace = w.trace ++ qs
        ∧ qs.length = m ∧ ∀ s ∈ qs, s.commit.isSyncAll = true := by
  intro fuel
  induction fuel with
  | zero =>
    intro n leg m w h1 h2
    unfold iterations at h2
    split at h2 <;> omega
  | succ fuel ih =>
    intro n leg m w h1 h2 h3 h4 hclear hset
    have htr := basicQuarterTurn_trace env sc leg (decide (w.sMovingDirection = sc.MOVE_DIRECTION_LEFT)) w
    have hlen := basicQuarterTurn_trace_length env sc leg
      (decide (w.sMovingDirection = sc.MOVE_DIRECTION_LEFT)) w
    obtain ⟨s0, hs0, hsync⟩ : ∃ s0 : Step, (basicQuarterTurn env sc leg
          (decide (w.sMovingDirection = sc.MOVE_DIRECTION_LEFT)) w).trace = w.trace ++ [s0]
        ∧ s0.commit.isSyncAll = true := ⟨_, htr, rfl⟩
    simp only [moveTurnLoop, RETURN_IF_STOP, basicQuarterTurn_stop]
    by_cases hm : m = 1
    · -- the first quarter-turn is the last one
      subst hm
      have one : ∃ qs, (basicQuarterTurn env sc leg
            (decide (w.sMovingDirection = sc.MOVE_DIRECTION_LEFT)) w).trace = w.trace ++ qs
          ∧ qs.length = 1 ∧ ∀ s ∈ qs, s.commit.isSyncAll = true :=
        ⟨_, htr, rfl, by simp [Commit.isSyncAll]⟩
      by_cases hs : (env w.trace.length).stopRequested = true
      · rw [if_pos hs]
        exact ⟨_, one.choose, rfl, one.choose_spec⟩
      · rw [if_neg hs]
        by_cases hd : dec8 n = 0
        · rw [if_neg (by simpa using hd)]
          exact ⟨_, one.choose, rfl, one.choose_spec⟩
        · have := iterations_of_dec8_ne_zero n h1 hd
          have := iterations_pos (dec8 n)
          have := hset (by omega)
          simp at this
          exact absurd this hs
    · have hs : (env w.trace.length).stopRequested = false := by
        have := hclear 0 (by omega)
        simpa using this
      have hd : dec8 n ≠ 0 := by
        intro hd
        have := iterations_of_dec8_eq_zero n h1 hd
        omega
      have hi := iterations_of_dec8_ne_zero n h1 hd
      have hp := iterations_pos (dec8 n)
      rw [if_neg (by simp [hs]), if_pos hd]
      obtain ⟨w1, qs, e1, e2, e3, e4⟩ := ih (dec8 n) _ (m - 1)
        (basicQuarterTurn env sc leg (decide (w.sMovingDirection = sc.MOVE_DIRECTION_LEFT)) w)
        hi.2 (by omega) (by omega) (by omega)
        (by
          intro j hj
          rw [hlen]
          have := hclear (j + 1) (by omega)
          rw [show w.trace.length + 1 + j = w.trace.length + (j + 1) by omega]
          exact this)
        (by
          intro hlt
          rw [hlen]
          have := hset (by omega)
          rw [show w.trace.length + 1 + (m - 1 - 1) = w.trace.length + (m - 1) by omega]
          exact this)
      refine ⟨w1, s0 :: qs, e1, ?_, ?_, ?_⟩
      · rw [e2, hs0]
        simp
      · simp [e3]
        omega
      · intro s hs'
        rcases List.mem_cons.mp hs' with hs' | hs'
        · subst hs'
          exact hsync
        · exact e4 s hs'

theorem iterations_of_pos (n : Nat) (h : 1 ≤ n) : iterations n = n := by
  unfold iterations
  split <;> omega

theorem premove_spec (env : Env) (idx : Nat) (deg : Int) (w : World) :
    ∃ c p, (moveOneServoAndCheckInputAndWait env idx deg (centerServos env w)).trace
        = w.trace ++ c :: p :: []
      ∧ c.commit = .center ∧ p.commit.isOneServo = true
      ∧ (moveOneServoAndCheckInputAndWait env idx deg (centerServos env w)).stopRequested
        = (env (w.trace.length + 1)).stopRequested
      ∧ (moveOneServoAndCheckInputAndWait env idx deg (centerServos env w)).trace.length
        = w.trace.length + 2 := by
  refine ⟨⟨.center, w.inputs, env w.trace.length⟩,
    ⟨.oneServo idx deg, (centerServos env w).inputs, env (w.trace.length + 1)⟩, ?_, rfl, rfl, ?_, ?_⟩
  · simp [moveOneServoAndCheckInputAndWait, commit, centerServos, World.inputs]
  · simp [moveOneServoAndCheckInputAndWait, commit, centerServos]
  · simp [moveOneServoAndCheckInputAndWait, commit, centerServos]

theorem moveTurn_count (env : Env) (sc : ServoControl) (N m : Nat) (w : World)
    (h1 : N ≤ 255) (h3 : 1 ≤ m) (h4 : m ≤ iterations N)
    (hpre : (env (w.trace.length + 1)).stopRequested = false)
    (hclear : ∀ j, j + 1 < m → (env (w.trace.length + 2 + j)).stopRequested = false)
    (hset : m < iterations N → (env (w.trace.length + 2 + (m - 1))).stopRequested = true) :
    ∃ w1 c p qs, moveTurn env sc N w = some w1 ∧ w1.trace = w.trace ++ c :: p :: qs
      ∧ c.commit = .center ∧ p.commit.isOneServo = true
      ∧ qs.length = m ∧ ∀ s ∈ qs, s.commit.isSyncAll = true := by
  have main : ∀ idx deg, ∃ w1 c p qs,
      (if (moveOneServoAndCheckInputAndWait env idx deg (centerServos env w)).stopRequested = true
        then some (moveOneServoAndCheckInputAndWait env idx deg (centerServos env w))
        else moveTurnLoop env sc 256 N FRONT_LEFT_PIVOT
          (moveOneServoAndCheckInputAndWait env idx deg (centerServos env w))) = some w1
      ∧ w1.trace = w.trace ++ c :: p :: qs
      ∧ c.commit = .center ∧ p.commit.isOneServo = true
      ∧ qs.length = m ∧ ∀ s ∈ qs, s.commit.isSyncAll = true := by
    intro idx deg
    obtain ⟨c, p, t1, t2, t3, t4, t5⟩ := premove_spec env idx deg w
    rw [if_neg (by rw [t4, hpre]; simp)]
    obtain ⟨w1, qs, e1, e2, e3, e4⟩ := turnLoop_count env sc 256 N FRONT_LEFT_PIVOT m
      (moveOneServoAndCheckInputAndWait env idx deg (centerServos env w)) h1
      (iterations_le N h1) h3 h4 (by rw [t5]; exact hclear) (by rw [t5]; exact hset)
    refine ⟨w1, c, p, qs, e1, ?_, t2, t3, e3, e4⟩
    rw [e2, t1]
    simp
  unfold moveTurn
  simp only [setEasingTypeForMoving, RETURN_IF_STOP]
  by_cases hd : (centerServos env w).sMovingDirection = sc.MOVE_DIRECTION_LEFT
  · simp only [hd, if_true]
    exact main _ _
  · simp only [hd, if_false]
    exact main _ _

/-- C4 (counterexample): `moveTurn 3` with the stop signal first set during the first
quarter-turn issues three commits, not two: the centring, the pre-move and one
quarter-turn.  Never stopped it issues five, not four. -/
theorem C4_counterexample :
    (moveTurn (stopFromEnv 1 60 2) sampleControl 3 (freshWorld 1 60)).map
        (fun w => w.trace.map (fun s => s.commit))
      = some [.center, .oneServo 6 130, .syncAll [130, 135, 80, 60, 80, 60, 80, 60]]
    ∧ (moveTurn (stopFromEnv 1 60 2) sampleControl 3 (freshWorld 1 60)).map
        (fun w => w.trace.length) = some 3
    ∧ (moveTurn (quietEnv 1 60) sampleControl 3 (freshWorld 1 60)).map
        (fun w => w.trace.length) = some 5 := by
  refine ⟨by rfl, by rfl, by rfl⟩

/-- C4 (amended): for every `N` with 1 ≤ N ≤ 255, `moveTurn N` returns having issued the
centring commit, exactly one single-channel pre-move commit and `N` synchronized
quarter-turn commits, 2 + N commits in total, when the stop signal is never set; and when
the stop signal is clear up to the `k`-th quarter-turn (1 ≤ k ≤ N) and set when that
quarter-turn comes back, it returns having issued the centring, the pre-move and exactly
`k` quarter-turn commits, 2 + k commits in total, the remaining `N - k` quarter-turns not
being run. -/
theorem C4_moveTurn_commit_count (env : Env) (sc : ServoControl) (N : Nat) (w : World)
    (h1 : 1 ≤ N) (h2 : N ≤ 255) :
    ((∀ j, (env j).stopRequested = false) →
      ∃ w1 c p qs, moveTurn env sc N w = some w1 ∧ w1.trace = w.trace ++ c :: p :: qs
        ∧ c.commit = .center ∧ p.commit.isOneServo = true
        ∧ qs.length = N ∧ (∀ s ∈ qs, s.commit.isSyncAll = true)
        ∧ w1.trace.length = w.trace.length + (2 + N))
    ∧ (∀ k, 1 ≤ k → k ≤ N →
      (∀ j, w.trace.length ≤ j → j < w.trace.length + 1 + k → (env j).stopRequested = false) →
      (env (w.trace.length + 1 + k)).stopRequested = true →
      ∃ w1 c p qs, moveTurn env sc N w = some w1 ∧ w1.trace = w.trace ++ c :: p :: qs
        ∧ c.commit = .center ∧ p.commit.isOneServo = true
        ∧ qs.length = k ∧ (∀ s ∈ qs, s.commit.isSyncAll = true)
        ∧ w1.trace.length = w.trace.length + (2 + k)) := by
  have hN := iterations_of_pos N h1
  have total : ∀ (m : Nat) (w1 : World) (c p : Step) (qs : List Step),
      w1.trace = w.trace ++ c :: p :: qs → qs.length = m →
      w1.trace.length = w.trace.length + (2 + m) := by
    intro m w1 c p qs e el
    rw [e, List.length_append, List.length_cons, List.length_cons, el]
    omega
  constructor
  · intro hstop
    obtain ⟨w1, c, p, qs, e1, e2, e3, e4, e5, e6⟩ :=
      moveTurn_count env sc N N w h2 h1 (by omega) (hstop _) (fun j _ => hstop _)
        (fun hlt => by omega)
    exact ⟨w1, c, p, qs, e1, e2, e3, e4, e5, e6, total N w1 c p qs e2 e5⟩
  · intro k hk1 hk2 hclear hset
    obtain ⟨w1, c, p, qs, e1, e2, e3, e4, e5, e6⟩ :=
      moveTurn_count env sc N k w h2 hk1 (by omega) (hclear _ (by omega) (by omega))
        (fun j hj => hclear _ (by omega) (by omega)) (fun _ => by
          rw [show w.trace.length + 2 + (k - 1) = w.trace.length + 1 + k by omega]
          exact hset)
    exact ⟨w1, c, p, qs, e1, e2, e3, e4, e5, e6, total k w1 c p qs e2 e5⟩

/-- C4 (witness): `moveTurn 3` with the stop signal set during the first quarter-turn
commits the centring, the pre-move and one quarter-turn, three commits in total. -/
theorem C4_moveTurn_commit_count_witness :
    ∃ w1 c p qs, moveTurn (stopFromEnv 1 60 2) sampleControl 3 (freshWorld 1 60) = some w1
      ∧ w1.trace = (freshWorld 1 60).trace ++ c :: p :: qs
      ∧ c.commit = .center ∧ p.commit.isOneServo = true
      ∧ qs.length = 1 ∧ (∀ s ∈ qs, s.commit.isSyncAll = true)
      ∧ w1.trace.length = (freshWorld 1 60).trace.length + (2 + 1) :=
  (C4_moveTurn_commit_count (stopFromEnv 1 60 2) sampleControl 3 (freshWorld 1 60)
    (by decide) (by decide)).2 1 (by decide) (by decide)
    (fun j _ hj => by
      have hj2 : j < 2 := hj
      simp [stopFromEnv, hj2])
    (by decide)

theorem turnLoop_legs (env : Env) (sc : ServoControl) (D : Nat)
    (hstop : ∀ k, (env k).stopRequested = false)
    (hdir : ∀ k, (env k).sMovingDirection = D) :
    ∀ (fuel n leg K : Nat) (w : World), n ≤ 255 → iterations n ≤ fuel →
      w.sMovingDirection = D →
      leg = expectedTurnLeg (decide (D = sc.MOVE_DIRECTION_LEFT)) K →
      ∃ w1, moveTurnLoop env sc fuel n leg w = some w1
        ∧ w1.serial = w.serial ++ (List.range (iterations n)).map (fun i =>
            SerialLine.turnLeg (expectedTurnLeg (decide (D = sc.MOVE_DIRECTION_LEFT)) (K + i))
              (decide (D = sc.MOVE_DIRECTION_LEFT))) := by
  intro fuel
  induction fuel with
  | zero =>
    intro n leg K w h1 h2
    have := iterations_pos n
    omega
  | succ fuel ih =>
    intro n leg K w h1 h2 hw hleg
    have hnext : (if D = sc.MOVE_DIRECTION_LEFT then inc8 leg else dec8 leg) % NUMBER_OF_LEGS
        = expectedTurnLeg (decide (D = sc.MOVE_DIRECTION_LEFT)) (K + 1) := by
      by_cases hD : D = sc.MOVE_DIRECTION_LEFT
      · simp only [hD, if_true, decide_True, expectedTurnLeg] at hleg ⊢
        unfold inc8 NUMBER_OF_LEGS
        omega
      · simp only [hD, if_false, decide_False, expectedTurnLeg] at hleg ⊢
        unfold dec8 NUMBER_OF_LEGS
        simp only [Bool.false_eq_true, if_false] at hleg ⊢
        omega
    simp only [moveTurnLoop, RETURN_IF_STOP, basicQuarterTurn_stop, hstop, Bool.false_eq_true, if_false,
      basicQuarterTurn_direction, hdir, hw]
    by_cases hd : dec8 n = 0
    · rw [if_neg (by simpa using hd), iterations_of_dec8_eq_zero n h1 hd]
      refine ⟨_, rfl, ?_⟩
      simp [hleg, List.range_succ]
    · have hi := iterations_of_dec8_ne_zero n h1 hd
      rw [if_pos hd, hnext]
      obtain ⟨w1, e1, e2⟩ := ih (dec8 n) _ (K + 1)
        (basicQuarterTurn env sc leg (decide (D = sc.MOVE_DIRECTION_LEFT)) w) hi.2 (by omega)
        (by simp [hdir]) rfl
      refine ⟨w1, e1, ?_⟩
      rw [e2, ← hi.1, List.range_succ_eq_map]
      simp [hleg, List.map_map, Function.comp_def, Nat.add_assoc, Nat.add_comm 1]

/-- C6: in `moveTurn` with the stop signal never set and the direction held at `D`, the
legs printed for the successive quarter-turns are, for every number `K` of completed
quarter-turns reachable in the call, `(0 + K) mod 4` when `D` is Left and `(0 - K) mod 4`
otherwise (mathematical modulo); the decrement of the 8-bit index below 0 wraps to 255
before the modulo and still lands on that leg. -/
theorem C6_turn_leg_rotation (env : Env) (sc : ServoControl) (N D : Nat) (w : World)
    (hN : N ≤ 255)
    (hstop : ∀ k, (env k).stopRequested = false)
    (hdir : ∀ k, (env k).sMovingDirection = D) :
    ∃ w1, moveTurn env sc N w = some w1
      ∧ w1.serial = w.serial ++ (List.range (iterations N)).map (fun K : Nat =>
          SerialLine.turnLeg
            (if D = sc.MOVE_DIRECTION_LEFT then ((0 + (K : Int)) % 4).toNat
             else ((0 - (K : Int)) % 4).toNat)
            (decide (D = sc.MOVE_DIRECTION_LEFT))) := by
  have main : ∀ idx deg, ∃ w1,
      (if (moveOneServoAndCheckInputAndWait env idx deg (centerServos env w)).stopRequested = true
        then some (moveOneServoAndCheckInputAndWait env idx deg (centerServos env w))
        else moveTurnLoop env sc 256 N FRONT_LEFT_PIVOT
          (moveOneServoAndCheckInputAndWait env idx deg (centerServos env w))) = some w1
      ∧ w1.serial = w.serial ++ (List.range (iterations N)).map (fun K =>
          SerialLine.turnLeg (expectedTurnLeg (decide (D = sc.MOVE_DIRECTION_LEFT)) K)
            (decide (D = sc.MOVE_DIRECTION_LEFT))) := by
    intro idx deg
    obtain ⟨c, p, t1, t2, t3, t4, t5⟩ := premove_spec env idx deg w
    rw [if_neg (by rw [t4, hstop]; simp)]
    obtain ⟨w1, e1, e2⟩ := turnLoop_legs env sc D hstop hdir 256 N FRONT_LEFT_PIVOT 0
      (moveOneServoAndCheckInputAndWait env idx deg (centerServos env w)) hN
      (iterations_le N hN) (hdir _)
      (by cases decide (D = sc.MOVE_DIRECTION_LEFT) <;> rfl)
    refine ⟨w1, e1, ?_⟩
    rw [e2]
    simp [moveOneServoAndCheckInputAndWait, commit, centerServos]
  have hexp : ∀ K, expectedTurnLeg (decide (D = sc.MOVE_DIRECTION_LEFT)) K
      = (if D = sc.MOVE_DIRECTION_LEFT then ((0 + (K : Int)) % 4).toNat
         else ((0 - (K : Int)) % 4).toNat) := by
    intro K
    by_cases hD : D = sc.MOVE_DIRECTION_LEFT <;> simp [expectedTurnLeg, hD]
  have hfun : (fun K : Nat => SerialLine.turnLeg
        (if D = sc.MOVE_DIRECTION_LEFT then ((0 + (K : Int)) % 4).toNat
         else ((0 - (K : Int)) % 4).toNat) (decide (D = sc.MOVE_DIRECTION_LEFT)))
      = (fun K : Nat => SerialLine.turnLeg
          (expectedTurnLeg (decide (D = sc.MOVE_DIRECTION_LEFT)) K)
          (decide (D = sc.MOVE_DIRECTION_LEFT))) := by
    funext K
    rw [hexp]
  rw [hfun]
  unfold moveTurn
  simp only [setEasingTypeForMoving, RETURN_IF_STOP]
  by_cases hd : (centerServos env w).sMovingDirection = sc.MOVE_DIRECTION_LEFT
  · simp only [hd, if_true]
    exact main _ _
  · simp only [hd, if_false]
    exact main _ _

/-- C6 (witness): five quarter-turns to the right. -/
theorem C6_turn_leg_rotation_witness :
    ∃ w1, moveTurn (quietEnv 3 60) sampleControl 5 (freshWorld 3 60) = some w1
      ∧ w1.serial = (freshWorld 3 60).serial ++ (List.range (iterations 5)).map (fun K : Nat =>
          SerialLine.turnLeg
            (if 3 = sampleControl.MOVE_DIRECTION_LEFT then ((0 + (K : Int)) % 4).toNat
             else ((0 - (K : Int)) % 4).toNat)
            (decide (3 = sampleControl.MOVE_DIRECTION_LEFT))) :=
  C6_turn_leg_rotation (quietEnv 3 60) sampleControl 5 3 (freshWorld 3 60) (by decide)
    (fun _ => rfl) (fun _ => rfl)

/-! ## Cancellation: properties -/

theorem Unstopped.stopHalts {l : List Step} (h : Unstopped l) : StopHalts l := by
  intro pre s post e hp hs
  have := h s (by rw [e]; simp) hp
  rw [this] at hs
  exact absurd hs (by simp)

theorem Unstopped.stopHalts_snoc {l : List Step} (h : Unstopped l) (x : Step) :
    StopHalts (l ++ [x]) := by
  intro pre s post e hp hs
  rcases List.eq_nil_or_concat post with hpost | ⟨post1, y, hpost⟩
  · exact hpost
  · exfalso
    subst hpost
    have e2 : l ++ [x] = (pre ++ s :: post1) ++ [y] := by simpa using e
    have e3 := List.append_inj_left' e2 rfl
    have := h s (by rw [e3]; simp) hp
    rw [this] at hs
    exact absurd hs (by simp)

theorem Unstopped.snoc {l : List Step} (h : Unstopped l) (x : Step)
    (hx : x.commit.isPhase = true → x.after.stopRequested = false) : Unstopped (l ++ [x]) := by
  intro s hs hp
  rcases List.mem_append.mp hs with hs | hs
  · exact h s hs hp
  · simp at hs
    subst hs
    exact hx hp

theorem Running.halted {t0 : List Step} {w : World} (h : Running t0 w) : Halted t0 w := by
  obtain ⟨new, e, hu⟩ := h
  exact ⟨new, e, hu.stopHalts⟩

theorem Running.of_trace_eq {t0 : List Step} {w w1 : World} (h : Running t0 w)
    (e : w1.trace = w.trace) : Running t0 w1 := by
  obtain ⟨new, e1, hu⟩ := h
  exact ⟨new, by rw [e, e1], hu⟩

theorem Running.commit_halted {t0 : List Step} {w : World} (h : Running t0 w) (env : Env)
    (c : Commit) : Halted t0 (commit env c w) := by
  obtain ⟨new, e, hu⟩ := h
  refine ⟨new ++ [⟨c, w.inputs, env w.trace.length⟩], ?_, hu.stopHalts_snoc _⟩
  simp [commit, e]

theorem Running.commit_running {t0 : List Step} {w : World} (h : Running t0 w) (env : Env)
    (c : Commit) (hc : c.isPhase = true → (commit env c w).stopRequested = false) :
    Running t0 (commit env c w) := by
  obtain ⟨new, e, hu⟩ := h
  refine ⟨new ++ [⟨c, w.inputs, env w.trace.length⟩], ?_, hu.snoc _ ?_⟩
  · simp [commit, e]
  · intro hp
    exact hc hp

theorem Running.runningCheck {t0 : List Step} {w : World} (h : Running t0 w) (env : Env) :
    Running t0 (checkIfBodyHeightHasChanged env w) := by
  rw [check_eq]
  split
  · exact (h.commit_running env (.liftToBodyHeight w.sBodyHeightAngle)
      (fun hp => by simp [Commit.isPhase] at hp)).of_trace_eq rfl
  · exact h.of_trace_eq rfl

theorem Running.transformAll_halted {t0 : List Step} {w : World} (h : Running t0 w) (env : Env)
    (sc : ServoControl) (p l : LegAngles) (d : Nat) (m : Bool) :
    Halted t0 (transformAndSetAllServos env sc p l d m w) := by
  obtain ⟨new, e, hu⟩ := h
  refine ⟨new ++ [⟨.allServos p l d m, w.inputs, env w.trace.length⟩], ?_, hu.stopHalts_snoc _⟩
  simp [e]

theorem Running.transformAll_running {t0 : List Step} {w : World} (h : Running t0 w) (env : Env)
    (sc : ServoControl) (p l : LegAngles) (d : Nat) (m : Bool)
    (hs : ¬ (transformAndSetAllServos env sc p l d m w).stopRequested = true) :
    Running t0 (transformAndSetAllServos env sc p l d m w) := by
  obtain ⟨new, e, hu⟩ := h
  refine ⟨new ++ [⟨.allServos p l d m, w.inputs, env w.trace.length⟩], ?_, hu.snoc _ ?_⟩
  · simp [e]
  · intro _
    simpa using hs

theorem trotLoop_halts (env : Env) (sc : ServoControl) (t0 : List Step) :
    ∀ (fuel n d : Nat) (w : World), n ≤ 255 → iterations n ≤ fuel → Running t0 w →
      ∃ w1, moveTrotLoop env sc fuel n d w = some w1 ∧ Halted t0 w1 := by
  intro fuel
  induction fuel with
  | zero =>
    intro n d w h1 h2
    have := iterations_pos n
    omega
  | succ fuel ih =>
    intro n d w h1 h2 hr
    simp only [moveTrotLoop, RETURN_IF_STOP]
    split
    · exact ⟨_, rfl, hr.transformAll_halted env sc _ _ _ _⟩
    · rename_i hs1
      have r2 := (hr.transformAll_running env sc _ _ _ _ hs1).runningCheck env
      split
      · exact ⟨_, rfl, r2.transformAll_halted env sc _ _ _ _⟩
      · rename_i hs3
        have r4 := (r2.transformAll_running env sc _ _ _ _ hs3).runningCheck env
        split
        · rename_i hd
          have hi := iterations_of_dec8_ne_zero n h1 hd
          exact ih _ _ _ hi.2 (by omega) r4
        · exact ⟨_, rfl, r4.halted⟩

theorem Running.step_halted {t0 : List Step} {w w1 : World} (h : Running t0 w) (x : Step)
    (e : w1.trace = w.trace ++ [x]) : Halted t0 w1 := by
  obtain ⟨new, e1, hu⟩ := h
  exact ⟨new ++ [x], by rw [e, e1]; simp, hu.stopHalts_snoc x⟩

theorem Running.step_running {t0 : List Step} {w w1 : World} (h : Running t0 w) (x : Step)
    (e : w1.trace = w.trace ++ [x])
    (hx : x.commit.isPhase = true → x.after.stopRequested = false) : Running t0 w1 := by
  obtain ⟨new, e1, hu⟩ := h
  exact ⟨new ++ [x], by rw [e, e1]; simp, hu.snoc x hx⟩

theorem Running.serialPrint {t0 : List Step} {w : World} (h : Running t0 w) (l : SerialLine) :
    Running t0 (serialPrint l w) := h.of_trace_eq rfl

theorem Running.resetLift {t0 : List Step} {w : World} (h : Running t0 w) (sc : ServoControl)
    (i : Nat) : Running t0 (resetLift sc i w) := h.of_trace_eq rfl

theorem turnLoop_halts (env : Env) (sc : ServoControl) (t0 : List Step) :
    ∀ (fuel n leg : Nat) (w : World), n ≤ 255 → iterations n ≤ fuel → Running t0 w →
      ∃ w1, moveTurnLoop env sc fuel n leg w = some w1 ∧ Halted t0 w1 := by
  intro fuel
  induction fuel with
  | zero =>
    intro n leg w h1 h2
    have := iterations_pos n
    omega
  | succ fuel ih =>
    intro n leg w h1 h2 hr
    simp only [moveTurnLoop, RETURN_IF_STOP]
    split
    · exact ⟨_, rfl, hr.step_halted _ (basicQuarterTurn_trace env sc _ _ w)⟩
    · rename_i hs1
      have r1 : Running t0 (basicQuarterTurn env sc leg
          (decide (w.sMovingDirection = sc.MOVE_DIRECTION_LEFT)) w) :=
        hr.step_running _ (basicQuarterTurn_trace env sc _ _ w) (fun _ => by simpa using hs1)
      split
      · rename_i hd
        have hi := iterations_of_dec8_ne_zero n h1 hd
        exact ih _ _ _ hi.2 (by omega) r1
      · exact ⟨_, rfl, r1.halted⟩

theorem moveTurn_halts (env : Env) (sc : ServoControl) (n : Nat) (w : World) (h1 : n ≤ 255) :
    ∃ w1, moveTurn env sc n w = some w1 ∧ Halted w.trace w1 := by
  have r0 : Running w.trace (centerServos env w) :=
    ⟨[⟨.center, w.inputs, env w.trace.length⟩], rfl, by
      intro s hs hp
      simp at hs
      subst hs
      simp [Commit.isPhase] at hp⟩
  have main : ∀ idx deg, ∃ w1,
      (if (moveOneServoAndCheckInputAndWait env idx deg (centerServos env w)).stopRequested = true
        then some (moveOneServoAndCheckInputAndWait env idx deg (centerServos env w))
        else moveTurnLoop env sc 256 n FRONT_LEFT_PIVOT
          (moveOneServoAndCheckInputAndWait env idx deg (centerServos env w))) = some w1
      ∧ Halted w.trace w1 := by
    intro idx deg
    split
    · exact ⟨_, rfl, r0.commit_halted env _⟩
    · rename_i hs
      exact turnLoop_halts env sc w.trace 256 n _ _ h1 (iterations_le n h1)
        (r0.commit_running env _ (fun _ => by simpa using hs))
  unfold moveTurn
  simp only [setEasingTypeForMoving, RETURN_IF_STOP]
  by_cases hd : (centerServos env w).sMovingDirection = sc.MOVE_DIRECTION_LEFT
  · simp only [hd, if_true]
    exact main _ _
  · simp only [hd, if_false]
    exact main _ _

theorem basicHalfCreep_halts (env : Env) (sc : ServoControl) (t0 : List Step) (d : Nat)
    (m : Bool) (w : World) (hr : Running t0 w) :
    Halted t0 (basicHalfCreep env sc d m w)
      ∧ (¬ (basicHalfCreep env sc d m w).stopRequested = true →
          Running t0 (basicHalfCreep env sc d m w)) := by
  have r0 := (hr.serialPrint (.basicHalfCreep d m)).serialPrint .moveFrontLeg
  simp only [basicHalfCreep, RETURN_IF_STOP]
  split
  · rename_i hs1
    exact ⟨r0.transformAll_halted env sc _ _ _ _, fun hn => absurd hs1 hn⟩
  · rename_i hs1
    have r2 := ((((r0.transformAll_running env sc _ _ _ _ hs1).runningCheck env).resetLift sc
      sc.FRONT_RIGHT_PIVOT).serialPrint .moveBody)
    split
    · rename_i hs3
      exact ⟨r2.transformAll_halted env sc _ _ _ _, fun hn => absurd hs3 hn⟩
    · rename_i hs3
      have r4 := ((r2.transformAll_running env sc _ _ _ _ hs3).runningCheck env).serialPrint .moveBackLeg
      split
      · rename_i hs5
        exact ⟨r4.transformAll_halted env sc _ _ _ _, fun hn => absurd hs5 hn⟩
      · rename_i hs5
        have r6 := ((r4.transformAll_running env sc _ _ _ _ hs5).runningCheck env).resetLift sc
          sc.BACK_LEFT_PIVOT
        exact ⟨r6.halted, fun _ => r6⟩

theorem creepLoop_halts (env : Env) (sc : ServoControl) (t0 : List Step) :
    ∀ (fuel n d : Nat) (w : World), n ≤ 255 → iterations n ≤ fuel → Running t0 w →
      ∃ w1, moveCreepLoop env sc fuel n d w = some w1 ∧ Halted t0 w1 := by
  intro fuel
  induction fuel with
  | zero =>
    intro n d w h1 h2
    have := iterations_pos n
    omega
  | succ fuel ih =>
    intro n d w h1 h2 hr
    have b1 := basicHalfCreep_halts env sc t0 d false w hr
    simp only [moveCreepLoop, RETURN_IF_STOP]
    split
    · exact ⟨_, rfl, b1.1⟩
    · rename_i hs1
      have b2 := basicHalfCreep_halts env sc t0 d true _ (b1.2 hs1)
      split
      · exact ⟨_, rfl, b2.1⟩
      · rename_i hs2
        split
        · rename_i hd
          have hi := iterations_of_dec8_ne_zero n h1 hd
          exact ih _ _ _ hi.2 (by omega) (b2.2 hs2)
        · exact ⟨_, rfl, (b2.2 hs2).halted⟩

theorem moveCreep_halts (env : Env) (sc : ServoControl) (n : Nat) (w : World) (h1 : n ≤ 255) :
    ∃ w1, moveCreep env sc n w = some w1 ∧ Halted w.trace w1 := by
  have r0 : Running w.trace (goToYPosition env sc w.sMovingDirection w) :=
    ⟨[⟨.liftServos w.sBodyHeightAngle, w.inputs, env w.trace.length⟩], rfl, by
      intro s hs hp
      simp at hs
      subst hs
      simp [Commit.isPhase] at hp⟩
  unfold moveCreep
  simp only [setEasingTypeForMoving]
  exact creepLoop_halts env sc w.trace 256 n _ _ h1 (iterations_le n h1) r0

theorem moveTrot_halts (env : Env) (sc : ServoControl) (n : Nat) (w : World) (h1 : n ≤ 255) :
    ∃ w1, moveTrot env sc n w = some w1 ∧ Halted w.trace w1 := by
  unfold moveTrot
  simp only [setEasingTypeForMoving]
  exact trotLoop_halts env sc w.trace 256 n _ _ h1 (iterations_le n h1)
    ⟨[], by simp, by intro s hs; simp at hs⟩

/-- C3: for each of `moveTrot`, `moveTurn` and `moveCreep` (cycle count an 8-bit value),
under every environment the call returns, and in the steps it appended to the trace
nothing follows a phase commit (synchronized or single-channel) that came back with the
stop signal set: no further synchronized, single-channel or corrective commit is issued
and the remaining cycles are not run. -/
theorem C3_stop_halts_gait (env : Env) (sc : ServoControl) (n : Nat) (w : World)
    (hn : n ≤ 255) :
    (∃ w1 new, moveTrot env sc n w = some w1 ∧ w1.trace = w.trace ++ new ∧ StopHalts new)
    ∧ (∃ w1 new, moveTurn env sc n w = some w1 ∧ w1.trace = w.trace ++ new ∧ StopHalts new)
    ∧ (∃ w1 new, moveCreep env sc n w = some w1 ∧ w1.trace = w.trace ++ new ∧ StopHalts new) := by
  obtain ⟨a, ha, na, ea, sa⟩ := moveTrot_halts env sc n w hn
  obtain ⟨b, hb, nb, eb, sb⟩ := moveTurn_halts env sc n w hn
  obtain ⟨c, hc, nc, ec, sc1⟩ := moveCreep_halts env sc n w hn
  exact ⟨⟨a, na, ha, ea, sa⟩, ⟨b, nb, hb, eb, sb⟩, ⟨c, nc, hc, ec, sc1⟩⟩

/-- C3 (witness): the three gaits with the stop signal set from the second blocking call
on. -/
theorem C3_stop_halts_gait_witness :
    (∃ w1 new, moveTrot (stopFromEnv 0 60 1) sampleControl 3 (freshWorld 0 60) = some w1
        ∧ w1.trace = (freshWorld 0 60).trace ++ new ∧ StopHalts new)
    ∧ (∃ w1 new, moveTurn (stopFromEnv 0 60 1) sampleControl 3 (freshWorld 0 60) = some w1
        ∧ w1.trace = (freshWorld 0 60).trace ++ new ∧ StopHalts new)
    ∧ (∃ w1 new, moveCreep (stopFromEnv 0 60 1) sampleControl 3 (freshWorld 0 60) = some w1
        ∧ w1.trace = (freshWorld 0 60).trace ++ new ∧ StopHalts new) :=
  C3_stop_halts_gait (stopFromEnv 0 60 1) sampleControl 3 (freshWorld 0 60) (by decide)

/-! ## Trace segments -/

theorem continuous_append (i : Inputs) (a b : List Step) :
    Continuous i (a ++ b) ↔ Continuous i a ∧ Continuous (lastInputs i a) b := by
  induction a generalizing i with
  | nil => simp [Continuous, lastInputs]
  | cons s rest ih => simp [Continuous, lastInputs, ih, and_assoc]

theorem lastInputs_append (i : Inputs) (a b : List Step) :
    lastInputs i (a ++ b) = lastInputs (lastInputs i a) b := by
  induction a generalizing i with
  | nil => simp [lastInputs]
  | cons s rest ih => simp [lastInputs, ih]

theorem phaseSteps_append (a b : List Step) :
    phaseSteps (a ++ b) = phaseSteps a ++ phaseSteps b := by
  simp [phaseSteps]

theorem Extends.trans {w w1 w2 : World} {a b : List Step} (h1 : Extends w w1 a)
    (h2 : Extends w1 w2 b) : Extends w w2 (a ++ b) := by
  obtain ⟨e1, c1, l1⟩ := h1
  obtain ⟨e2, c2, l2⟩ := h2
  refine ⟨?_, ?_, ?_⟩
  · rw [e2, e1, List.append_assoc]
  · rw [continuous_append]
    exact ⟨c1, by rw [← l1]; exact c2⟩
  · rw [lastInputs_append, ← l1]
    exact l2

theorem Extends.of_eq {w w1 : World} (e : w1.trace = w.trace) (i : w1.inputs = w.inputs) :
    Extends w w1 [] :=
  ⟨by simp [e], trivial, i⟩

theorem Extends.ofCommit (env : Env) (c : Commit) (w : World) :
    Extends w (commit env c w) [⟨c, w.inputs, env w.trace.length⟩] :=
  ⟨rfl, ⟨rfl, trivial⟩, rfl⟩

theorem Extends.ofTransformAll (env : Env) (sc : ServoControl) (p l : LegAngles) (d : Nat)
    (m : Bool) (w : World) :
    Extends w (transformAndSetAllServos env sc p l d m w)
      [⟨.allServos p l d m, w.inputs, env w.trace.length⟩] :=
  ⟨rfl, ⟨rfl, trivial⟩, rfl⟩

theorem Extends.ofCheck (env : Env) (w : World) :
    ∃ c, Extends w (checkIfBodyHeightHasChanged env w) c ∧ phaseSteps c = [] := by
  rw [check_eq]
  split
  · exact ⟨[⟨.liftToBodyHeight w.sBodyHeightAngle, w.inputs, env w.trace.length⟩],
      ⟨rfl, ⟨rfl, trivial⟩, rfl⟩, rfl⟩
  · exact ⟨[], Extends.of_eq rfl rfl, rfl⟩

/-! ## Trot: direction sampling -/

theorem trot_cycle_spec (env : Env) (sc : ServoControl) (d : Nat) (w : World)
    (hd : d = w.sMovingDirection) (L1 : LegAngles) (L2 : World → LegAngles) :
    ∃ (seg : List Step) (s1 s2 : Step),
      Extends w (checkIfBodyHeightHasChanged env
        (transformAndSetAllServos env sc (trotPivots2 sc)
          (L2 (checkIfBodyHeightHasChanged env
            (transformAndSetAllServos env sc (trotPivots1 sc) L1 d false w))) d false
          (checkIfBodyHeightHasChanged env
            (transformAndSetAllServos env sc (trotPivots1 sc) L1 d false w)))) seg
      ∧ phaseSteps seg = [s1, s2] ∧ TrotCycle sc (s1, s2) ∧ s1.before = w.inputs := by
  have e1 := Extends.ofTransformAll env sc (trotPivots1 sc) L1 d false w
  generalize transformAndSetAllServos env sc (trotPivots1 sc) L1 d false w = W1 at e1 ⊢
  obtain ⟨c1, e2, p2⟩ := Extends.ofCheck env W1
  generalize checkIfBodyHeightHasChanged env W1 = W2 at e2 ⊢
  have e3 := Extends.ofTransformAll env sc (trotPivots2 sc) (L2 W2) d false W2
  generalize transformAndSetAllServos env sc (trotPivots2 sc) (L2 W2) d false W2 = W3 at e3 ⊢
  obtain ⟨c2, e4, p4⟩ := Extends.ofCheck env W3
  refine ⟨_, ⟨.allServos (trotPivots1 sc) L1 d false, w.inputs, env w.trace.length⟩,
    ⟨.allServos (trotPivots2 sc) (L2 W2) d false, W2.inputs, env W2.trace.length⟩,
    ((e1.trans e2).trans e3).trans e4, ?_, ?_, rfl⟩
  · simp only [phaseSteps_append, p2, p4, List.append_nil]
    rfl
  · exact ⟨L1, L2 W2, by simp [hd, World.inputs], by simp [hd, World.inputs]⟩

theorem trotLoop_cycles (env : Env) (sc : ServoControl)
    (hstop : ∀ k, (env k).stopRequested = false) :
    ∀ (fuel n d : Nat) (w : World), n ≤ 255 → iterations n ≤ fuel →
      d = w.sMovingDirection →
      ∃ (w1 : World) (new : List Step) (cycles : List (Step × Step)),
        moveTrotLoop env sc fuel n d w = some w1 ∧ Extends w w1 new
        ∧ phaseSteps new = cycles.flatMap (fun c => [c.1, c.2])
        ∧ cycles.length = iterations n
        ∧ (∀ c ∈ cycles, TrotCycle sc c)
        ∧ (∀ c ∈ cycles.head?, c.1.before = w.inputs) := by
  intro fuel
  induction fuel with
  | zero =>
    intro n d w h1 h2
    have := iterations_pos n
    omega
  | succ fuel ih =>
    intro n d w h1 h2 hd
    have step : ∀ (W : World) (seg : List Step) (s1 s2 : Step),
        Extends w W seg → phaseSteps seg = [s1, s2] → TrotCycle sc (s1, s2) →
        s1.before = w.inputs →
        ∃ (w1 : World) (new : List Step) (cycles : List (Step × Step)),
          (if dec8 n ≠ 0 then
            moveTrotLoop env sc fuel (dec8 n)
              (if W.sMovingDirection ≠ d then W.sMovingDirection else d) W
           else some W) = some w1 ∧ Extends w w1 new
          ∧ phaseSteps new = cycles.flatMap (fun c => [c.1, c.2])
          ∧ cycles.length = iterations n
          ∧ (∀ c ∈ cycles, TrotCycle sc c)
          ∧ (∀ c ∈ cycles.head?, c.1.before = w.inputs) := by
      intro W seg s1 s2 hW hp hc hb
      by_cases hn : dec8 n = 0
      · rw [if_neg (by simpa using hn)]
        refine ⟨W, seg, [(s1, s2)], rfl, hW, by simp [hp], ?_, ?_, ?_⟩
        · simp [iterations_of_dec8_eq_zero n h1 hn]
        · intro c hcm
          simp at hcm
          subst hcm
          exact hc
        · intro c hcm
          simp at hcm
          subst hcm
          exact hb
      · have hi := iterations_of_dec8_ne_zero n h1 hn
        rw [if_pos hn]
        obtain ⟨w1, new, cycles, e1, e2, e3, e4, e5, _⟩ := ih (dec8 n)
          (if W.sMovingDirection ≠ d then W.sMovingDirection else d) W hi.2 (by omega)
          (by split <;> simp_all)
        refine ⟨w1, seg ++ new, (s1, s2) :: cycles, e1, hW.trans e2, ?_, ?_, ?_, ?_⟩
        · simp [phaseSteps_append, hp, e3]
        · simp [e4]
          omega
        · intro c hcm
          rcases List.mem_cons.mp hcm with hcm | hcm
          · subst hcm
            exact hc
          · exact e5 c hcm
        · intro c hcm
          simp at hcm
          subst hcm
          exact hb
    simp only [moveTrotLoop, RETURN_IF_STOP, transformAll_stop, hstop, Bool.false_eq_true, if_false]
    obtain ⟨seg, s1, s2, k1, k2, k3, k4⟩ := trot_cycle_spec env sc d w hd
      ⟨w.sBodyHeightAngle, trotLiftMaxAngle sc w.sBodyHeightAngle, w.sBodyHeightAngle,
        trotLiftMaxAngle sc w.sBodyHeightAngle⟩
      (fun v => ⟨trotLiftMaxAngle sc w.sBodyHeightAngle, v.sBodyHeightAngle,
        trotLiftMaxAngle sc w.sBodyHeightAngle, v.sBodyHeightAngle⟩)
    exact step _ seg s1 s2 k1 k2 k3 k4

/-- C9: in `moveTrot` run to completion (stop signal never set, 1 ≤ N ≤ 255), the phase
commits form exactly `N` cycles of a first and a second phase; both phases of a cycle
carry the direction value that was current when the first of them was issued, whatever
the direction is when the second is issued.  For the first cycle that is the direction at
gait entry; for a later cycle it is, every step being issued with the inputs its
predecessor left, the direction found at the end of the cycle before. -/
theorem C9_trot_direction_per_cycle (env : Env) (sc : ServoControl) (N : Nat) (w : World)
    (h1 : 1 ≤ N) (h2 : N ≤ 255)
    (hstop : ∀ k, (env k).stopRequested = false) :
    ∃ (w1 : World) (new : List Step) (cycles : List (Step × Step)),
      moveTrot env sc N w = some w1 ∧ w1.trace = w.trace ++ new
      ∧ Continuous w.inputs new
      ∧ phaseSteps new = cycles.flatMap (fun c => [c.1, c.2])
      ∧ cycles.length = N
      ∧ (∀ c ∈ cycles, TrotCycle sc c)
      ∧ (∀ c ∈ cycles.head?, c.1.before = w.inputs) := by
  obtain ⟨w1, new, cycles, e1, ⟨e2, e3, _⟩, e4, e5, e6, e7⟩ :=
    trotLoop_cycles env sc hstop 256 N w.sMovingDirection w h2 (iterations_le N h2) rfl
  exact ⟨w1, new, cycles, e1, e2, e3, e4, by rw [e5, iterations_of_pos N h1], e6, e7⟩

/-- C9 (witness): two trot cycles entered with direction 0 while the environment switches
to direction 2. -/
theorem C9_trot_direction_per_cycle_witness :
    ∃ (w1 : World) (new : List Step) (cycles : List (Step × Step)),
      moveTrot (quietEnv 2 60) sampleControl 2 (freshWorld 0 60) = some w1
      ∧ w1.trace = (freshWorld 0 60).trace ++ new
      ∧ Continuous (freshWorld 0 60).inputs new
      ∧ phaseSteps new = cycles.flatMap (fun c => [c.1, c.2])
      ∧ cycles.length = 2
      ∧ (∀ c ∈ cycles, TrotCycle sampleControl c)
      ∧ (∀ c ∈ cycles.head?, c.1.before = (freshWorld 0 60).inputs) :=
  C9_trot_direction_per_cycle (quietEnv 2 60) sampleControl 2 (freshWorld 0 60)
    (by decide) (by decide) (fun _ => rfl)

/-! ## Trot: pivot swing -/

/-- C8 (counterexample): one forward trot cycle with base angles 135 and 45 and move angle
30 commits the pivots (165, 15, 105, 75) and then (105, 75, 165, 15): in both phases each
diagonal pair (arguments 1, 3 and arguments 2, 4) gets one leg at base + 30 and the other
at base - 30, so no diagonal pair has both legs on the positive swing. -/
theorem C8_counterexample :
    (moveTrot (quietEnv sampleControl.MOVE_DIRECTION_FORWARD 60) sampleControl 1
        (freshWorld sampleControl.MOVE_DIRECTION_FORWARD 60)).map
        (fun w => w.trace.map (fun s => s.commit))
      = some [.allServos ⟨165, 15, 105, 75⟩ ⟨60, 97, 60, 97⟩
                sampleControl.MOVE_DIRECTION_FORWARD false,
              .allServos ⟨105, 75, 165, 15⟩ ⟨97, 60, 97, 60⟩
                sampleControl.MOVE_DIRECTION_FORWARD false]
    ∧ ¬ DiagonalSwing sampleControl ⟨165, 15, 105, 75⟩
    ∧ ¬ DiagonalSwing sampleControl ⟨105, 75, 165, 15⟩ := by
  refine ⟨by rfl, by decide, by decide⟩

theorem alternating_succ {α : Type} (a b : α) (k : Nat) :
    alternating a b (k + 1) = alternating a b k ++ [if k % 2 = 0 then a else b] := by
  induction k generalizing a b with
  | zero => rfl
  | succ k ih =>
    rw [alternating, ih b a]
    have : (if k % 2 = 0 then b else a) = (if (k + 1) % 2 = 0 then a else b) := by
      rcases Nat.mod_two_eq_zero_or_one k with h | h
      · have : (k + 1) % 2 = 1 := by omega
        simp [h, this]
      · have : (k + 1) % 2 = 0 := by omega
        simp [h, this]
    rw [this]
    rfl

theorem TrotAlternates.altTransformAll {env : Env} {sc : ServoControl} {t0 : List Step} {k : Nat}
    {w : World} (h : TrotAlternates sc t0 k w) (p l : LegAngles) (d : Nat) (m : Bool)
    (hp : p = if k % 2 = 0 then trotPivots1 sc else trotPivots2 sc) :
    TrotAlternates sc t0 (k + 1) (transformAndSetAllServos env sc p l d m w) := by
  obtain ⟨new, e, ha⟩ := h
  refine ⟨new ++ [⟨.allServos p l d m, w.inputs, env w.trace.length⟩], by simp [e], ?_⟩
  rw [phaseSteps_append, List.map_append, ha, alternating_succ]
  congr 1
  rw [hp]
  split <;> rfl

theorem TrotAlternates.altCheck {env : Env} {sc : ServoControl} {t0 : List Step} {k : Nat}
    {w : World} (h : TrotAlternates sc t0 k w) :
    TrotAlternates sc t0 k (checkIfBodyHeightHasChanged env w) := by
  obtain ⟨new, e, ha⟩ := h
  obtain ⟨c, ⟨e1, _, _⟩, hc⟩ := Extends.ofCheck env w
  exact ⟨new ++ c, by rw [e1, e, List.append_assoc], by
    rw [phaseSteps_append, hc, List.append_nil, ha]⟩

theorem trotLoop_alternates (env : Env) (sc : ServoControl) (t0 : List Step) :
    ∀ (fuel n d k : Nat) (w : World), n ≤ 255 → iterations n ≤ fuel → k % 2 = 0 →
      TrotAlternates sc t0 k w →
      ∃ w1 k1, moveTrotLoop env sc fuel n d w = some w1 ∧ k < k1 ∧ TrotAlternates sc t0 k1 w1 := by
  intro fuel
  induction fuel with
  | zero =>
    intro n d k w h1 h2
    have := iterations_pos n
    omega
  | succ fuel ih =>
    intro n d k w h1 h2 hk ha
    have hk1 : (k + 1) % 2 ≠ 0 := by omega
    have a1 : ∀ L1, TrotAlternates sc t0 (k + 1)
        (transformAndSetAllServos env sc (trotPivots1 sc) L1 d false w) :=
      fun L1 => ha.altTransformAll _ L1 d false (by rw [if_pos hk])
    simp only [moveTrotLoop, RETURN_IF_STOP]
    split
    · exact ⟨_, k + 1, rfl, by omega, a1 _⟩
    · have a3 : ∀ L1 L2, TrotAlternates sc t0 (k + 1 + 1)
          (transformAndSetAllServos env sc (trotPivots2 sc) L2 d false
            (checkIfBodyHeightHasChanged env
              (transformAndSetAllServos env sc (trotPivots1 sc) L1 d false w))) :=
        fun L1 L2 => (a1 L1).altCheck.altTransformAll _ L2 d false (by rw [if_neg hk1])
      split
      · exact ⟨_, k + 1 + 1, rfl, by omega, a3 _ _⟩
      · split
        · rename_i hd
          have hi := iterations_of_dec8_ne_zero n h1 hd
          obtain ⟨w1, k1, e1, e2, e3⟩ := ih (dec8 n) _ (k + 1 + 1) _ hi.2 (by omega) (by omega)
            (a3 _ _).altCheck
          exact ⟨w1, k1, e1, by omega, e3⟩
        · exact ⟨_, k + 1 + 1, rfl, by omega, (a3 _ _).altCheck⟩

/-- C8 (amended): in `moveTrot`, for every direction and under every environment, the call
returns having issued at least one phase commit, and the pivot arguments of the phase
commits are alternately `trotPivots1` (arguments 1 and 4 at base + TROT_MOVE_ANGLE,
arguments 2 and 3 at base - TROT_MOVE_ANGLE) and `trotPivots2` (the signs exchanged): in
every phase each diagonal pair has one leg on the positive and one on the negative swing,
and the legs on the positive swing alternate from each phase to the next. -/
theorem C8_trot_pivots_alternate (env : Env) (sc : ServoControl) (n : Nat) (w : World)
    (hn : n ≤ 255) :
    ∃ w1 new k, moveTrot env sc n w = some w1 ∧ w1.trace = w.trace ++ new ∧ 0 < k
      ∧ (phaseSteps new).map (fun s => s.commit.pivotArgs)
        = alternating (some (trotPivots1 sc)) (some (trotPivots2 sc)) k := by
  obtain ⟨w1, k1, e1, e2, new, e3, e4⟩ := trotLoop_alternates env sc w.trace 256 n
    w.sMovingDirection 0 w hn (iterations_le n hn) rfl ⟨[], by simp, rfl⟩
  exact ⟨w1, new, k1, e1, e3, e2, e4⟩

/-- C8 (witness): two forward trot cycles. -/
theorem C8_trot_pivots_alternate_witness :
    ∃ w1 new k, moveTrot (quietEnv 0 60) sampleControl 2 (freshWorld 0 60) = some w1
      ∧ w1.trace = (freshWorld 0 60).trace ++ new ∧ 0 < k
      ∧ (phaseSteps new).map (fun s => s.commit.pivotArgs)
        = alternating (some (trotPivots1 sampleControl)) (some (trotPivots2 sampleControl)) k :=
  C8_trot_pivots_alternate (quietEnv 0 60) sampleControl 2 (freshWorld 0 60) (by decide)

/-! ## Creep: cycle structure -/

theorem check_stop (env : Env) (w : World) (hstop : ∀ k, (env k).stopRequested = false)
    (hw : w.stopRequested = false) :
    (checkIfBodyHeightHasChanged env w).stopRequested = false := by
  rw [check_eq]
  split
  · exact hstop _
  · exact hw

@[simp] theorem resetLift_stop (sc : ServoControl) (i : Nat) (w : World) :
    (resetLift sc i w).stopRequested = w.stopRequested := rfl

theorem basicHalfCreep_stop (env : Env) (sc : ServoControl) (d : Nat) (m : Bool) (w : World)
    (hstop : ∀ k, (env k).stopRequested = false) :
    (basicHalfCreep env sc d m w).stopRequested = false := by
  simp only [basicHalfCreep, RETURN_IF_STOP, transformAll_stop, hstop, Bool.false_eq_true, if_false,
    resetLift_stop]
  apply check_stop env _ hstop
  rw [transformAll_stop]
  exact hstop _

theorem basicHalfCreep_spec (env : Env) (sc : ServoControl) (d : Nat) (m : Bool) (w : World)
    (hstop : ∀ k, (env k).stopRequested = false) :
    ∃ seg, Extends w (basicHalfCreep env sc d m w) seg
      ∧ FollowsTemplate (phaseSteps seg) (halfCreepTemplate sc d m) := by
  simp only [basicHalfCreep, RETURN_IF_STOP, transformAll_stop, hstop, Bool.false_eq_true, if_false]
  have a0 : Extends w (serialPrint .moveFrontLeg (serialPrint (.basicHalfCreep d m) w)) [] :=
    Extends.of_eq rfl rfl
  generalize serialPrint .moveFrontLeg (serialPrint (.basicHalfCreep d m) w) = V0 at a0 ⊢
  have a1 := Extends.ofTransformAll env sc (creepPivots1 sc)
    ⟨V0.sBodyHeightAngle, V0.sBodyHeightAngle, V0.sBodyHeightAngle, sc.LIFT_MAX_ANGLE⟩ d m V0
  generalize transformAndSetAllServos env sc (creepPivots1 sc)
    ⟨V0.sBodyHeightAngle, V0.sBodyHeightAngle, V0.sBodyHeightAngle, sc.LIFT_MAX_ANGLE⟩ d m V0
    = V1 at a1 ⊢
  obtain ⟨c1, a2, q2⟩ := Extends.ofCheck env V1
  generalize checkIfBodyHeightHasChanged env V1 = V2 at a2 ⊢
  have a3 : Extends V2 (serialPrint .moveBody (resetLift sc sc.FRONT_RIGHT_PIVOT V2)) [] :=
    Extends.of_eq rfl rfl
  generalize serialPrint .moveBody (resetLift sc sc.FRONT_RIGHT_PIVOT V2) = V3 at a3 ⊢
  have a4 := Extends.ofTransformAll env sc (creepPivots2 sc)
    ⟨V3.sBodyHeightAngle, V3.sBodyHeightAngle, V3.sBodyHeightAngle, V3.sBodyHeightAngle⟩ d m V3
  generalize transformAndSetAllServos env sc (creepPivots2 sc)
    ⟨V3.sBodyHeightAngle, V3.sBodyHeightAngle, V3.sBodyHeightAngle, V3.sBodyHeightAngle⟩ d m V3
    = V4 at a4 ⊢
  obtain ⟨c2, a5, q5⟩ := Extends.ofCheck env V4
  generalize checkIfBodyHeightHasChanged env V4 = V5 at a5 ⊢
  have a6 : Extends V5 (serialPrint .moveBackLeg V5) [] := Extends.of_eq rfl rfl
  generalize serialPrint .moveBackLeg V5 = V6 at a6 ⊢
  have a7 := Extends.ofTransformAll env sc (creepPivots3 sc)
    ⟨V6.sBodyHeightAngle, sc.LIFT_MAX_ANGLE, V6.sBodyHeightAngle, V6.sBodyHeightAngle⟩ d m V6
  generalize transformAndSetAllServos env sc (creepPivots3 sc)
    ⟨V6.sBodyHeightAngle, sc.LIFT_MAX_ANGLE, V6.sBodyHeightAngle, V6.sBodyHeightAngle⟩ d m V6
    = V7 at a7 ⊢
  obtain ⟨c3, a8, q8⟩ := Extends.ofCheck env V7
  generalize checkIfBodyHeightHasChanged env V7 = V8 at a8 ⊢
  have a9 : Extends V8 (resetLift sc sc.BACK_LEFT_PIVOT V8) [] := Extends.of_eq rfl rfl
  refine ⟨_, ((((((((a0.trans a1).trans a2).trans a3).trans a4).trans a5).trans a6).trans
    a7).trans a8).trans a9, ?_⟩
  simp only [phaseSteps_append, q2, q5, q8, List.append_nil, List.nil_append]
  exact List.Forall₂.cons rfl (List.Forall₂.cons rfl (List.Forall₂.cons rfl List.Forall₂.nil))

theorem FollowsTemplate.append {a b : List Step} {s t : List (Nat → Commit)}
    (h1 : FollowsTemplate a s) (h2 : FollowsTemplate b t) :
    FollowsTemplate (a ++ b) (s ++ t) := by
  unfold FollowsTemplate at *
  induction h1 with
  | nil => simpa using h2
  | cons hx _ ih => exact List.Forall₂.cons hx ih

theorem FollowsTemplate.length_eq {a : List Step} {s : List (Nat → Commit)}
    (h : FollowsTemplate a s) : a.length = s.length :=
  List.Forall₂.length_eq h

theorem creepCycles_length (sc : ServoControl) (dirs : List Nat) :
    (dirs.flatMap (creepCycleTemplate sc)).length = 6 * dirs.length := by
  induction dirs with
  | nil => rfl
  | cons d rest ih =>
    rw [List.flatMap_cons, List.length_append, ih, List.length_cons]
    have : (creepCycleTemplate sc d).length = 6 := rfl
    omega

theorem creepLoop_cycles (env : Env) (sc : ServoControl)
    (hstop : ∀ k, (env k).stopRequested = false) :
    ∀ (fuel n d : Nat) (w : World), n ≤ 255 → iterations n ≤ fuel →
      ∃ (w1 : World) (new : List Step) (dirs : List Nat),
        moveCreepLoop env sc fuel n d w = some w1 ∧ Extends w w1 new
        ∧ dirs.length = iterations n
        ∧ FollowsTemplate (phaseSteps new) (dirs.flatMap (creepCycleTemplate sc)) := by
  intro fuel
  induction fuel with
  | zero =>
    intro n d w h1 h2
    have := iterations_pos n
    omega
  | succ fuel ih =>
    intro n d w h1 h2
    obtain ⟨seg1, x1, f1⟩ := basicHalfCreep_spec env sc d false w hstop
    obtain ⟨seg2, x2, f2⟩ := basicHalfCreep_spec env sc d true
      (basicHalfCreep env sc d false w) hstop
    have fc : FollowsTemplate (phaseSteps (seg1 ++ seg2)) (creepCycleTemplate sc d) := by
      rw [phaseSteps_append]
      exact f1.append f2
    simp only [moveCreepLoop, RETURN_IF_STOP, basicHalfCreep_stop env sc _ _ _ hstop, Bool.false_eq_true,
      if_false]
    by_cases hn : dec8 n = 0
    · rw [if_neg (by simpa using hn)]
      refine ⟨_, seg1 ++ seg2, [d], rfl, x1.trans x2, ?_, ?_⟩
      · simp [iterations_of_dec8_eq_zero n h1 hn]
      · simpa using fc
    · have hi := iterations_of_dec8_ne_zero n h1 hn
      rw [if_pos hn]
      obtain ⟨w1, new, dirs, e1, e2, e3, e4⟩ := ih (dec8 n)
        (if (basicHalfCreep env sc d true (basicHalfCreep env sc d false w)).sMovingDirection ≠ d
          then (basicHalfCreep env sc d true (basicHalfCreep env sc d false w)).sMovingDirection
          else d)
        (basicHalfCreep env sc d true (basicHalfCreep env sc d false w)) hi.2 (by omega)
      refine ⟨w1, (seg1 ++ seg2) ++ new, d :: dirs, e1, (x1.trans x2).trans e2, ?_, ?_⟩
      · simp [e3]
        omega
      · rw [phaseSteps_append, List.flatMap_cons]
        exact fc.append e4

/-- C5: for every `N` with 1 ≤ N ≤ 255 and the stop signal never set, `moveCreep N`
returns having appended the one-time Y-stance commit and then steps whose phase commits
number exactly `6 * N` and are, cycle by cycle, the three phases of `basicHalfCreep` with
the mirror flag false followed by the same three phases (same pivot arguments, same lift
pattern at the body height current at each call, same direction) with the mirror flag
true. -/
theorem C5_moveCreep_cycle_structure (env : Env) (sc : ServoControl) (N : Nat) (w : World)
    (h1 : 1 ≤ N) (h2 : N ≤ 255)
    (hstop : ∀ k, (env k).stopRequested = false) :
    ∃ (w1 : World) (setup : Step) (rest : List Step) (dirs : List Nat),
      moveCreep env sc N w = some w1 ∧ w1.trace = w.trace ++ setup :: rest
      ∧ setup.commit = .liftServos w.sBodyHeightAngle
      ∧ (phaseSteps rest).length = 6 * N
      ∧ dirs.length = N
      ∧ FollowsTemplate (phaseSteps rest) (dirs.flatMap (creepCycleTemplate sc)) := by
  unfold moveCreep
  simp only [setEasingTypeForMoving]
  obtain ⟨w1, new, dirs, e1, ⟨e2, _, _⟩, e3, e4⟩ := creepLoop_cycles env sc hstop 256 N
    (goToYPosition env sc w.sMovingDirection w).sMovingDirection
    (goToYPosition env sc w.sMovingDirection w) h2 (iterations_le N h2)
  rw [iterations_of_pos N h1] at e3
  refine ⟨w1, ⟨.liftServos w.sBodyHeightAngle, w.inputs, env w.trace.length⟩, new, dirs, e1,
    ?_, rfl, ?_, e3, e4⟩
  · rw [e2]
    simp [goToYPosition, setLiftServos, commit, transformAndSetPivotServos, serialPrint,
      World.inputs]
  · rw [e4.length_eq, creepCycles_length, e3]

/-- C5 (witness): one creep cycle of a fresh program in a quiet environment. -/
theorem C5_moveCreep_cycle_structure_witness :
    ∃ (w1 : World) (setup : Step) (rest : List Step) (dirs : List Nat),
      moveCreep (quietEnv 0 60) sampleControl 1 (freshWorld 0 60) = some w1
      ∧ w1.trace = (freshWorld 0 60).trace ++ setup :: rest
      ∧ setup.commit = .liftServos (freshWorld 0 60).sBodyHeightAngle
      ∧ (phaseSteps rest).length = 6 * 1
      ∧ dirs.length = 1
      ∧ FollowsTemplate (phaseSteps rest) (dirs.flatMap (creepCycleTemplate sampleControl)) :=
  C5_moveCreep_cycle_structure (quietEnv 0 60) sampleControl 1 (freshWorld 0 60)
    (by decide) (by decide) (fun _ => rfl)

/-! ## Trot: lift angle -/

theorem tdiv_two_of_nonneg (x : Int) (h : 0 ≤ x) : Int.tdiv x 2 = x / 2 :=
  Int.tdiv_eq_ediv h (by norm_num)

theorem tdiv_two_of_neg (x : Int) (h : x < 0) : Int.tdiv x 2 = -((-x) / 2) := by
  have e : x = -(-x) := by ring
  rw [e, Int.neg_tdiv, Int.tdiv_eq_ediv (by omega) (by norm_num)]
  simp

/-- C20: for every 8-bit body height `b` (and LIFT_MAX_ANGLE an angle that fits 8 bits),
the trot lift angle `b + (LIFT_MAX_ANGLE - b) / 2` with the truncating division of C is
stored in 8 bits without wrap, lies between `b` and LIFT_MAX_ANGLE inclusive (also when
`b` exceeds LIFT_MAX_ANGLE), and twice its value differs from `b + LIFT_MAX_ANGLE` by at
most 1, that is, it is within 1/2 of the exact midpoint. -/
theorem C20_trot_lift_angle_midpoint (sc : ServoControl) (b : Nat) (hb : b ≤ 255)
    (hL : 0 ≤ sc.LIFT_MAX_ANGLE ∧ sc.LIFT_MAX_ANGLE ≤ 255) :
    ((trotLiftMaxAngle sc b : Nat) : Int) = b + Int.tdiv (sc.LIFT_MAX_ANGLE - b) 2
      ∧ min (b : Int) sc.LIFT_MAX_ANGLE ≤ trotLiftMaxAngle sc b
      ∧ (trotLiftMaxAngle sc b : Int) ≤ max (b : Int) sc.LIFT_MAX_ANGLE
      ∧ |2 * (trotLiftMaxAngle sc b : Int) - ((b : Int) + sc.LIFT_MAX_ANGLE)| ≤ 1 := by
  obtain ⟨hL0, hL1⟩ := hL
  have key : ((trotLiftMaxAngle sc b : Nat) : Int) = b + Int.tdiv (sc.LIFT_MAX_ANGLE - b) 2
      ∧ min (b : Int) sc.LIFT_MAX_ANGLE ≤ b + Int.tdiv (sc.LIFT_MAX_ANGLE - b) 2
      ∧ b + Int.tdiv (sc.LIFT_MAX_ANGLE - b) 2 ≤ max (b : Int) sc.LIFT_MAX_ANGLE
      ∧ -1 ≤ 2 * (b + Int.tdiv (sc.LIFT_MAX_ANGLE - b) 2) - ((b : Int) + sc.LIFT_MAX_ANGLE)
      ∧ 2 * (b + Int.tdiv (sc.LIFT_MAX_ANGLE - b) 2) - ((b : Int) + sc.LIFT_MAX_ANGLE) ≤ 1 := by
    unfold trotLiftMaxAngle toUInt8
    rcases Int.lt_or_le (sc.LIFT_MAX_ANGLE - b) 0 with hneg | hpos
    · rw [tdiv_two_of_neg _ hneg]
      omega
    · rw [tdiv_two_of_nonneg _ hpos]
      omega
  obtain ⟨k1, k2, k3, k4, k5⟩ := key
  refine ⟨k1, by rw [k1]; exact k2, by rw [k1]; exact k3, ?_⟩
  rw [k1, abs_le]
  exact ⟨k4, k5⟩

/-- C20 (witness): body height 200 above a lift maximum of 135 gives the lift angle 168. -/
theorem C20_trot_lift_angle_midpoint_witness :
    ((trotLiftMaxAngle sampleControl 200 : Nat) : Int)
        = (200 : Nat) + Int.tdiv (sampleControl.LIFT_MAX_ANGLE - (200 : Nat)) 2
      ∧ min ((200 : Nat) : Int) sampleControl.LIFT_MAX_ANGLE ≤ trotLiftMaxAngle sampleControl 200
      ∧ (trotLiftMaxAngle sampleControl 200 : Int) ≤ max ((200 : Nat) : Int) sampleControl.LIFT_MAX_ANGLE
      ∧ |2 * (trotLiftMaxAngle sampleControl 200 : Int)
          - (((200 : Nat) : Int) + sampleControl.LIFT_MAX_ANGLE)| ≤ 1 :=
  C20_trot_lift_angle_midpoint sampleControl 200 (by decide) (by decide)

/-! ## Cycle count 0 -/

/-- C12: a gait called with cycle count 0 and never stopped does not return at once: the
8-bit counter is decremented from 0 to 255 before it is tested, so `moveTrot 0` runs 256
cycles (512 phase commits in 256 pairs), `moveTurn 0` runs 256 quarter-turns after its
pre-move, and `moveCreep 0` runs 256 creep cycles (of six phase commits each) after the
Y stance. -/
theorem C12_zero_count_runs_256_cycles (env : Env) (sc : ServoControl) (w : World)
    (hstop : ∀ k, (env k).stopRequested = false) :
    (∃ (w1 : World) (new : List Step) (cycles : List (Step × Step)),
        moveTrot env sc 0 w = some w1 ∧ w1.trace = w.trace ++ new
        ∧ phaseSteps new = cycles.flatMap (fun c => [c.1, c.2])
        ∧ cycles.length = 256 ∧ (∀ c ∈ cycles, TrotCycle sc c))
    ∧ (∃ w1 c p qs, moveTurn env sc 0 w = some w1 ∧ w1.trace = w.trace ++ c :: p :: qs
        ∧ c.commit = .center ∧ p.commit.isOneServo = true
        ∧ qs.length = 256 ∧ ∀ s ∈ qs, s.commit.isSyncAll = true)
    ∧ (∃ (w1 : World) (setup : Step) (rest : List Step) (dirs : List Nat),
        moveCreep env sc 0 w = some w1 ∧ w1.trace = w.trace ++ setup :: rest
        ∧ setup.commit = .liftServos w.sBodyHeightAngle
        ∧ dirs.length = 256
        ∧ FollowsTemplate (phaseSteps rest) (dirs.flatMap (creepCycleTemplate sc))) := by
  have h256 : iterations 0 = 256 := rfl
  refine ⟨?_, ?_, ?_⟩
  · obtain ⟨w1, new, cycles, e1, ⟨e2, _, _⟩, e4, e5, e6, _⟩ :=
      trotLoop_cycles env sc hstop 256 0 w.sMovingDirection w (by decide) (by decide) rfl
    exact ⟨w1, new, cycles, e1, e2, e4, e5, e6⟩
  · exact moveTurn_count env sc 0 256 w (by decide) (by decide) (by decide) (hstop _)
      (fun j _ => hstop _) (fun hlt => absurd hlt (by decide))
  · unfold moveCreep
    simp only [setEasingTypeForMoving]
    obtain ⟨w1, new, dirs, e1, ⟨e2, _, _⟩, e3, e4⟩ := creepLoop_cycles env sc hstop 256 0
      (goToYPosition env sc w.sMovingDirection w).sMovingDirection
      (goToYPosition env sc w.sMovingDirection w) (by decide) (by decide)
    refine ⟨w1, ⟨.liftServos w.sBodyHeightAngle, w.inputs, env w.trace.length⟩, new, dirs, e1,
      ?_, rfl, e3, e4⟩
    rw [e2]
    simp [goToYPosition, setLiftServos, commit, transformAndSetPivotServos, serialPrint,
      World.inputs]

/-- C12 (witness): the three gaits with count 0 in a quiet environment. -/
theorem C12_zero_count_runs_256_cycles_witness :
    (∃ (w1 : World) (new : List Step) (cycles : List (Step × Step)),
        moveTrot (quietEnv 0 60) sampleControl 0 (freshWorld 0 60) = some w1
        ∧ w1.trace = (freshWorld 0 60).trace ++ new
        ∧ phaseSteps new = cycles.flatMap (fun c => [c.1, c.2])
        ∧ cycles.length = 256 ∧ (∀ c ∈ cycles, TrotCycle sampleControl c))
    ∧ (∃ w1 c p qs, moveTurn (quietEnv 0 60) sampleControl 0 (freshWorld 0 60) = some w1
        ∧ w1.trace = (freshWorld 0 60).trace ++ c :: p :: qs
        ∧ c.commit = .center ∧ p.commit.isOneServo = true
        ∧ qs.length = 256 ∧ ∀ s ∈ qs, s.commit.isSyncAll = true)
    ∧ (∃ (w1 : World) (setup : Step) (rest : List Step) (dirs : List Nat),
        moveCreep (quietEnv 0 60) sampleControl 0 (freshWorld 0 60) = some w1
        ∧ w1.trace = (freshWorld 0 60).trace ++ setup :: rest
        ∧ setup.commit = .liftServos (freshWorld 0 60).sBodyHeightAngle
        ∧ dirs.length = 256
        ∧ FollowsTemplate (phaseSteps rest) (dirs.flatMap (creepCycleTemplate sampleControl))) :=
  C12_zero_count_runs_256_cycles (quietEnv 0 60) sampleControl (freshWorld 0 60) (fun _ => rfl)

/-! ## Creep: grounded legs -/

theorem trotLoop_lifts (env : Env) (sc : ServoControl) :
    ∀ (fuel n d : Nat) (w : World), n ≤ 255 → iterations n ≤ fuel →
      ∃ (w1 : World) (new : List Step) (cycles : List (Step × Step)) (tail : List Step),
        moveTrotLoop env sc fuel n d w = some w1 ∧ Extends w w1 new
        ∧ phaseSteps new = cycles.flatMap (fun c => [c.1, c.2]) ++ tail
        ∧ (∀ c ∈ cycles, TrotLiftCycle sc c)
        ∧ (tail = [] ∨ ∃ s, tail = [s] ∧ TrotFirstPhaseLifts sc s)
        ∧ 0 < cycles.length + tail.length := by
  intro fuel
  induction fuel with
  | zero =>
    intro n d w h1 h2
    have := iterations_pos n
    omega
  | succ fuel ih =>
    intro n d w h1 h2
    simp only [moveTrotLoop, RETURN_IF_STOP]
    obtain ⟨x1, a1, f1, b1, p1⟩ : ∃ x1 : Step, Extends w (transformAndSetAllServos env sc
          (trotPivots1 sc) ⟨w.sBodyHeightAngle, trotLiftMaxAngle sc w.sBodyHeightAngle,
            w.sBodyHeightAngle, trotLiftMaxAngle sc w.sBodyHeightAngle⟩ d false w) [x1]
        ∧ TrotFirstPhaseLifts sc x1 ∧ x1.before.sBodyHeightAngle = w.sBodyHeightAngle
        ∧ phaseSteps [x1] = [x1] :=
      ⟨_, Extends.ofTransformAll env sc _ _ d false w, ⟨_, _, rfl⟩, rfl, rfl⟩
    generalize transformAndSetAllServos env sc (trotPivots1 sc)
      ⟨w.sBodyHeightAngle, trotLiftMaxAngle sc w.sBodyHeightAngle, w.sBodyHeightAngle,
        trotLiftMaxAngle sc w.sBodyHeightAngle⟩ d false w = V1 at a1 ⊢
    by_cases h1s : V1.stopRequested = true
    · rw [if_pos h1s]
      exact ⟨V1, [x1], [], [x1], rfl, a1, by simp [p1], by simp, Or.inr ⟨x1, rfl, f1⟩, by simp⟩
    rw [if_neg h1s]
    obtain ⟨c1, a2, q2⟩ := Extends.ofCheck env V1
    generalize checkIfBodyHeightHasChanged env V1 = V2 at a2 ⊢
    obtain ⟨x2, a3, f2, p2⟩ : ∃ x2 : Step, Extends V2 (transformAndSetAllServos env sc
          (trotPivots2 sc) ⟨trotLiftMaxAngle sc w.sBodyHeightAngle, V2.sBodyHeightAngle,
            trotLiftMaxAngle sc w.sBodyHeightAngle, V2.sBodyHeightAngle⟩ d false V2) [x2]
        ∧ TrotLiftCycle sc (x1, x2) ∧ phaseSteps [x2] = [x2] :=
      ⟨_, Extends.ofTransformAll env sc _ _ d false V2, ⟨f1, _, _, by rw [b1]; rfl⟩, rfl⟩
    generalize transformAndSetAllServos env sc (trotPivots2 sc)
      ⟨trotLiftMaxAngle sc w.sBodyHeightAngle, V2.sBodyHeightAngle,
        trotLiftMaxAngle sc w.sBodyHeightAngle, V2.sBodyHeightAngle⟩ d false V2 = V3 at a3 ⊢
    have a13 := (a1.trans a2).trans a3
    have p13 : phaseSteps ([x1] ++ c1 ++ [x2]) = [x1, x2] := by
      simp only [phaseSteps_append, p1, q2, p2, List.append_nil]
      rfl
    by_cases h3s : V3.stopRequested = true
    · rw [if_pos h3s]
      refine ⟨V3, _, [(x1, x2)], [], rfl, a13, by rw [p13]; simp, ?_, Or.inl rfl, by simp⟩
      intro c hc
      simp at hc
      subst hc
      exact f2
    rw [if_neg h3s]
    obtain ⟨c2, a4, q4⟩ := Extends.ofCheck env V3
    generalize checkIfBodyHeightHasChanged env V3 = V4 at a4 ⊢
    have a14 := a13.trans a4
    have p14 : phaseSteps ([x1] ++ c1 ++ [x2] ++ c2) = [x1, x2] := by
      rw [phaseSteps_append, p13, q4, List.append_nil]
    by_cases hn : dec8 n = 0
    · rw [if_neg (by simpa using hn)]
      refine ⟨V4, _, [(x1, x2)], [], rfl, a14, by rw [p14]; simp, ?_, Or.inl rfl, by simp⟩
      intro c hc
      simp at hc
      subst hc
      exact f2
    · have hi := iterations_of_dec8_ne_zero n h1 hn
      rw [if_pos hn]
      obtain ⟨w1, new, cycles, tail, e1, e2, e3, e4, e5, _⟩ := ih (dec8 n)
        (if V4.sMovingDirection ≠ d then V4.sMovingDirection else d) V4 hi.2 (by omega)
      refine ⟨w1, _, (x1, x2) :: cycles, tail, e1, a14.trans e2, ?_, ?_, e5, by simp⟩
      · rw [phaseSteps_append, p14, e3]
        simp
      · intro c hc
        rcases List.mem_cons.mp hc with hc | hc
        · subst hc
          exact f2
        · exact e4 c hc

theorem trotLift_above (sc : ServoControl) (h : Nat) (hL : sc.LIFT_MAX_ANGLE ≤ 255)
    (hh : (h : Int) + 2 ≤ sc.LIFT_MAX_ANGLE) : (h : Int) < trotLiftMaxAngle sc h := by
  unfold trotLiftMaxAngle toUInt8
  rw [tdiv_two_of_nonneg _ (by omega)]
  omega

theorem firstPhase_raised (sc : ServoControl) (s : Step) (hL : sc.LIFT_MAX_ANGLE ≤ 255)
    (f : TrotFirstPhaseLifts sc s) : TrotFirstPhaseRaised sc s := by
  intro hh
  obtain ⟨P, D, e⟩ := f
  exact ⟨_, by rw [e]; rfl, rfl, rfl, rfl, trotLift_above sc _ hL hh⟩

theorem liftCycle_raised (sc : ServoControl) (c : Step × Step) (hL : sc.LIFT_MAX_ANGLE ≤ 255)
    (f : TrotLiftCycle sc c) : TrotRaisedCycle sc c := by
  obtain ⟨f1, P, D, e⟩ := f
  refine ⟨firstPhase_raised sc c.1 hL f1, ?_⟩
  intro heq hh
  refine ⟨_, by rw [e]; rfl, rfl, rfl, rfl, ?_⟩
  rw [heq]
  exact trotLift_above sc _ hL hh

/-- C19 (counterexample): one trot cycle at body height 135 = LIFT_MAX_ANGLE passes the
lift 135 to all four legs in both phases, so no diagonal pair is raised; at body height
200 the pair given the trot lift angle (168) is below the other pair. -/
theorem C19_counterexample :
    (moveTrot (quietEnv 0 135) sampleControl 1 (freshWorld 0 135)).map
        (fun w => w.trace.map (fun s => (s.commit.liftArgs, s.before.sBodyHeightAngle)))
      = some [(some ⟨135, 135, 135, 135⟩, 135), (some ⟨135, 135, 135, 135⟩, 135)]
    ∧ ¬ BackLeftFrontRightRaised ⟨135, 135, 135, 135⟩ 135
    ∧ ¬ FrontLeftBackRightRaised ⟨135, 135, 135, 135⟩ 135
    ∧ (moveTrot (quietEnv 0 200) sampleControl 1 (freshWorld 0 200)).map
        (fun w => w.trace.map (fun s => (s.commit.liftArgs, s.before.sBodyHeightAngle)))
      = some [(some ⟨200, 168, 200, 168⟩, 200), (some ⟨168, 200, 168, 200⟩, 200)]
    ∧ ¬ BackLeftFrontRightRaised ⟨200, 168, 200, 168⟩ 200 := by
  refine ⟨by rfl, ?_, ?_, by rfl, ?_⟩
  · intro h
    exact absurd h.2.2.2 (by decide)
  · intro h
    exact absurd h.2.2.2 (by decide)
  · intro h
    exact absurd h.2.2.2 (by decide)

/-- C19 (amended): in `moveTrot`, for every environment and LIFT_MAX_ANGLE ≤ 255, the phase
commits come in cycles of a first and a second phase (the call may stop after a first
phase).  The first phase passes the trot lift angle to arguments 2 and 4 (back left and
front right) and the current body height to arguments 1 and 3 (front left and back right);
the second phase passes the trot lift angle of the cycle to arguments 1 and 3 and the
current body height to arguments 2 and 4, so the pair given the trot lift angle
alternates.  That pair is raised, its lift strictly above the body height the other pair
is at, whenever the body height is at least 2 below LIFT_MAX_ANGLE and, for the second
phase, is still the one the cycle began with. -/
theorem C19_trot_raised_pair_alternates (env : Env) (sc : ServoControl) (n : Nat) (w : World)
    (hn : n ≤ 255) (hL : sc.LIFT_MAX_ANGLE ≤ 255) :
    ∃ (w1 : World) (new : List Step) (cycles : List (Step × Step)) (tail : List Step),
      moveTrot env sc n w = some w1 ∧ w1.trace = w.trace ++ new
      ∧ phaseSteps new = cycles.flatMap (fun c => [c.1, c.2]) ++ tail
      ∧ (∀ c ∈ cycles, TrotLiftCycle sc c ∧ TrotRaisedCycle sc c)
      ∧ (tail = [] ∨ ∃ s, tail = [s] ∧ TrotFirstPhaseLifts sc s ∧ TrotFirstPhaseRaised sc s)
      ∧ 0 < cycles.length + tail.length := by
  obtain ⟨w1, new, cycles, tail, e1, ⟨e2, _, _⟩, e3, e4, e5, e6⟩ :=
    trotLoop_lifts env sc 256 n w.sMovingDirection w hn (iterations_le n hn)
  refine ⟨w1, new, cycles, tail, e1, e2, e3, ?_, ?_, e6⟩
  · intro c hc
    exact ⟨e4 c hc, liftCycle_raised sc c hL (e4 c hc)⟩
  · rcases e5 with h | ⟨s, hs, f⟩
    · exact Or.inl h
    · exact Or.inr ⟨s, hs, f, firstPhase_raised sc s hL f⟩

/-- C19 (witness): two trot cycles of a fresh program in a quiet environment. -/
theorem C19_trot_raised_pair_alternates_witness :
    ∃ (w1 : World) (new : List Step) (cycles : List (Step × Step)) (tail : List Step),
      moveTrot (quietEnv 0 60) sampleControl 2 (freshWorld 0 60) = some w1
      ∧ w1.trace = (freshWorld 0 60).trace ++ new
      ∧ phaseSteps new = cycles.flatMap (fun c => [c.1, c.2]) ++ tail
      ∧ (∀ c ∈ cycles, TrotLiftCycle sampleControl c ∧ TrotRaisedCycle sampleControl c)
      ∧ (tail = [] ∨ ∃ s, tail = [s] ∧ TrotFirstPhaseLifts sampleControl s
          ∧ TrotFirstPhaseRaised sampleControl s)
      ∧ 0 < cycles.length + tail.length :=
  C19_trot_raised_pair_alternates (quietEnv 0 60) sampleControl 2 (freshWorld 0 60)
    (by decide) (by decide)

/-! ## Cancellation: set-up and corrective commits -/

theorem polled_snoc (l : List Step) (x : Step) :
    Polled (l ++ [x]) ↔ Polled l ∧ ∀ s ∈ l.getLast?,
      (s.commit.isPhase = true → s.after.stopRequested = false)
        ∧ (s.commit.isPhase = false → x.commit.isPhase = true) := by
  induction l with
  | nil => simp [Polled]
  | cons a rest ih =>
    cases rest with
    | nil => simp [Polled]
    | cons b rest2 =>
      have e : (a :: b :: rest2) ++ [x] = a :: b :: (rest2 ++ [x]) := rfl
      rw [e]
      simp only [Polled]
      have ih2 : Polled (b :: (rest2 ++ [x])) ↔ Polled (b :: rest2) ∧ ∀ s ∈ (b :: rest2).getLast?,
          (s.commit.isPhase = true → s.after.stopRequested = false)
            ∧ (s.commit.isPhase = false → x.commit.isPhase = true) := ih
      rw [ih2, List.getLast?_cons_cons]
      tauto

theorem polled_suffix (pre l : List Step) (h : Polled (pre ++ l)) : Polled l := by
  induction pre with
  | nil => exact h
  | cons a rest ih =>
    cases hr : rest ++ l with
    | nil =>
      have : l = [] := by
        cases rest <;> simp_all
      rw [this]
      trivial
    | cons b r2 =>
      have e : (a :: rest) ++ l = a :: b :: r2 := by simp [hr]
      rw [e] at h
      exact ih (by rw [hr]; exact h.2)

theorem Polled.stopHaltsSoon {l : List Step} (h : Polled l) : StopHaltsSoon l := by
  intro pre s post e hs hall
  rw [e] at h
  have h1 := polled_suffix pre _ h
  cases post with
  | nil => simp
  | cons t post1 =>
    obtain ⟨⟨c1, c2⟩, h2⟩ := h1
    have hnp : s.commit.isPhase = false := by
      cases hp : s.commit.isPhase
      · rfl
      · have := c1 hp
        rw [this] at hs
        exact absurd hs (by simp)
    have ht := c2 hnp
    cases post1 with
    | nil =>
      refine ⟨fun hp => ?_, by simp, ?_⟩
      · rw [hnp] at hp
        exact absurd hp (by simp)
      · intro u hu
        simp at hu
        subst hu
        exact ht
    | cons u post2 =>
      exfalso
      obtain ⟨⟨d1, _⟩, _⟩ := h2
      have := d1 ht
      have ht2 := hall t (by simp)
      rw [this] at ht2
      exact absurd ht2 (by simp)

theorem ReadyForAny.toPhase {t0 : List Step} {w : World} (h : ReadyForAny t0 w) :
    ReadyForPhase t0 w := by
  obtain ⟨new, e, p, hl⟩ := h
  exact ⟨new, e, p, fun s hs _ => (hl s hs).2⟩

theorem ReadyForPhase.polled {t0 : List Step} {w : World} (h : ReadyForPhase t0 w) :
    PolledSince t0 w := by
  obtain ⟨new, e, p, _⟩ := h
  exact ⟨new, e, p⟩

theorem ReadyForPhase.same_trace {t0 : List Step} {w w1 : World} (h : ReadyForPhase t0 w)
    (e : w1.trace = w.trace) : ReadyForPhase t0 w1 := by
  obtain ⟨new, e1, p⟩ := h
  exact ⟨new, by rw [e, e1], p⟩

theorem ReadyForPhase.phase_polled {t0 : List Step} {w w1 : World} (h : ReadyForPhase t0 w)
    (x : Step) (e : w1.trace = w.trace ++ [x]) (hx : x.commit.isPhase = true) :
    PolledSince t0 w1 := by
  obtain ⟨new, e1, p, hl⟩ := h
  refine ⟨new ++ [x], by rw [e, e1]; simp, (polled_snoc new x).mpr ⟨p, ?_⟩⟩
  intro s hs
  exact ⟨hl s hs, fun _ => hx⟩

theorem ReadyForPhase.phase_ready {t0 : List Step} {w w1 : World} (h : ReadyForPhase t0 w)
    (x : Step) (e : w1.trace = w.trace ++ [x]) (hx : x.commit.isPhase = true)
    (hs : x.after.stopRequested = false) : ReadyForAny t0 w1 := by
  obtain ⟨new, e1, p⟩ := h.phase_polled x e hx
  have e2 : new = (w.trace.drop t0.length) ++ [x] := by
    obtain ⟨n0, e0, _⟩ := h
    have : t0 ++ new = t0 ++ (n0 ++ [x]) := by rw [← e1, e, e0]; simp
    have := List.append_cancel_left this
    rw [this, e0]
    simp
  refine ⟨new, e1, p, ?_⟩
  intro s hs1
  rw [e2] at hs1
  simp at hs1
  subst hs1
  exact ⟨hx, hs⟩

theorem ReadyForAny.other_ready {t0 : List Step} {w w1 : World} (h : ReadyForAny t0 w)
    (x : Step) (e : w1.trace = w.trace ++ [x]) (hx : x.commit.isPhase = false) :
    ReadyForPhase t0 w1 := by
  obtain ⟨new, e1, p, hl⟩ := h
  refine ⟨new ++ [x], by rw [e, e1]; simp, (polled_snoc new x).mpr ⟨p, ?_⟩, ?_⟩
  · intro s hs
    have := hl s hs
    exact ⟨fun _ => this.2, fun hn => by rw [this.1] at hn; exact absurd hn (by simp)⟩
  · intro s hs hp
    simp at hs
    subst hs
    rw [hx] at hp
    exact absurd hp (by simp)

theorem ReadyForAny.readyCheck {t0 : List Step} {w : World} (h : ReadyForAny t0 w) (env : Env) :
    ReadyForPhase t0 (checkIfBodyHeightHasChanged env w) := by
  rw [check_eq]
  split
  · exact (h.other_ready ⟨.liftToBodyHeight w.sBodyHeightAngle, w.inputs, env w.trace.length⟩
      (rfl : (commit env (.liftToBodyHeight w.sBodyHeightAngle) w).trace = _) rfl).same_trace rfl
  · exact h.toPhase.same_trace rfl

theorem ReadyForPhase.transformAll_polled {t0 : List Step} {w : World} (h : ReadyForPhase t0 w)
    (env : Env) (sc : ServoControl) (p l : LegAngles) (d : Nat) (m : Bool) :
    PolledSince t0 (transformAndSetAllServos env sc p l d m w) :=
  h.phase_polled ⟨.allServos p l d m, w.inputs, env w.trace.length⟩ rfl rfl

theorem ReadyForPhase.transformAll_ready {t0 : List Step} {w : World} (h : ReadyForPhase t0 w)
    (env : Env) (sc : ServoControl) (p l : LegAngles) (d : Nat) (m : Bool)
    (hs : ¬ (transformAndSetAllServos env sc p l d m w).stopRequested = true) :
    ReadyForAny t0 (transformAndSetAllServos env sc p l d m w) :=
  h.phase_ready ⟨.allServos p l d m, w.inputs, env w.trace.length⟩ rfl rfl (by simpa using hs)

theorem trotLoop_polled (env : Env) (sc : ServoControl) (t0 : List Step) :
    ∀ (fuel n d : Nat) (w : World), n ≤ 255 → iterations n ≤ fuel → ReadyForPhase t0 w →
      ∃ w1, moveTrotLoop env sc fuel n d w = some w1 ∧ PolledSince t0 w1 := by
  intro fuel
  induction fuel with
  | zero =>
    intro n d w h1 h2
    have := iterations_pos n
    omega
  | succ fuel ih =>
    intro n d w h1 h2 hr
    simp only [moveTrotLoop, RETURN_IF_STOP]
    split
    · exact ⟨_, rfl, hr.transformAll_polled env sc _ _ _ _⟩
    · rename_i hs1
      have r2 := (hr.transformAll_ready env sc _ _ _ _ hs1).readyCheck env
      split
      · exact ⟨_, rfl, r2.transformAll_polled env sc _ _ _ _⟩
      · rename_i hs3
        have r4 := (r2.transformAll_ready env sc _ _ _ _ hs3).readyCheck env
        split
        · rename_i hd
          have hi := iterations_of_dec8_ne_zero n h1 hd
          exact ih _ _ _ hi.2 (by omega) r4
        · exact ⟨_, rfl, r4.polled⟩

theorem turnLoop_polled (env : Env) (sc : ServoControl) (t0 : List Step) :
    ∀ (fuel n leg : Nat) (w : World), n ≤ 255 → iterations n ≤ fuel → ReadyForPhase t0 w →
      ∃ w1, moveTurnLoop env sc fuel n leg w = some w1 ∧ PolledSince t0 w1 := by
  intro fuel
  induction fuel with
  | zero =>
    intro n leg w h1 h2
    have := iterations_pos n
    omega
  | succ fuel ih =>
    intro n leg w h1 h2 hr
    simp only [moveTurnLoop, RETURN_IF_STOP]
    split
    · exact ⟨_, rfl, hr.phase_polled _ (basicQuarterTurn_trace env sc _ _ w) rfl⟩
    · rename_i hs1
      have r1 : ReadyForAny t0 (basicQuarterTurn env sc leg
          (decide (w.sMovingDirection = sc.MOVE_DIRECTION_LEFT)) w) :=
        hr.phase_ready _ (basicQuarterTurn_trace env sc _ _ w) rfl (by simpa using hs1)
      split
      · rename_i hd
        have hi := iterations_of_dec8_ne_zero n h1 hd
        exact ih _ _ _ hi.2 (by omega) r1.toPhase
      · exact ⟨_, rfl, r1.toPhase.polled⟩

theorem readyForAny_start (w : World) : ReadyForAny w.trace w :=
  ⟨[], by simp, trivial, by intro s hs; simp at hs⟩

theorem moveTrot_polled (env : Env) (sc : ServoControl) (n : Nat) (w : World) (h1 : n ≤ 255) :
    ∃ w1, moveTrot env sc n w = some w1 ∧ PolledSince w.trace w1 := by
  unfold moveTrot
  simp only [setEasingTypeForMoving]
  exact trotLoop_polled env sc w.trace 256 n _ _ h1 (iterations_le n h1)
    (readyForAny_start w).toPhase

theorem moveTurn_polled (env : Env) (sc : ServoControl) (n : Nat) (w : World) (h1 : n ≤ 255) :
    ∃ w1, moveTurn env sc n w = some w1 ∧ PolledSince w.trace w1 := by
  have r0 : ReadyForPhase w.trace (centerServos env w) :=
    (readyForAny_start w).other_ready ⟨.center, w.inputs, env w.trace.length⟩ rfl rfl
  have main : ∀ idx deg, ∃ w1,
      (if (moveOneServoAndCheckInputAndWait env idx deg (centerServos env w)).stopRequested = true
        then some (moveOneServoAndCheckInputAndWait env idx deg (centerServos env w))
        else moveTurnLoop env sc 256 n FRONT_LEFT_PIVOT
          (moveOneServoAndCheckInputAndWait env idx deg (centerServos env w))) = some w1
      ∧ PolledSince w.trace w1 := by
    intro idx deg
    have e : (moveOneServoAndCheckInputAndWait env idx deg (centerServos env w)).trace
        = (centerServos env w).trace ++ [⟨.oneServo idx deg, (centerServos env w).inputs,
            env (centerServos env w).trace.length⟩] := rfl
    split
    · exact ⟨_, rfl, r0.phase_polled _ e rfl⟩
    · rename_i hs
      exact turnLoop_polled env sc w.trace 256 n _ _ h1 (iterations_le n h1)
        (r0.phase_ready _ e rfl (by simpa using hs)).toPhase
  unfold moveTurn
  simp only [setEasingTypeForMoving, RETURN_IF_STOP]
  by_cases hd : (centerServos env w).sMovingDirection = sc.MOVE_DIRECTION_LEFT
  · simp only [hd, if_true]
    exact main _ _
  · simp only [hd, if_false]
    exact main _ _

theorem basicHalfCreep_polled (env : Env) (sc : ServoControl) (t0 : List Step) (d : Nat)
    (m : Bool) (w : World) (hr : ReadyForPhase t0 w) :
    PolledSince t0 (basicHalfCreep env sc d m w)
      ∧ (¬ (basicHalfCreep env sc d m w).stopRequested = true →
          ReadyForPhase t0 (basicHalfCreep env sc d m w)) := by
  have r0 : ReadyForPhase t0 (serialPrint .moveFrontLeg (serialPrint (.basicHalfCreep d m) w)) :=
    hr.same_trace rfl
  simp only [basicHalfCreep, RETURN_IF_STOP]
  split
  · rename_i hs1
    exact ⟨r0.transformAll_polled env sc _ _ _ _, fun hn => absurd hs1 hn⟩
  · rename_i hs1
    have r2 : ReadyForPhase t0 (serialPrint .moveBody (resetLift sc sc.FRONT_RIGHT_PIVOT
        (checkIfBodyHeightHasChanged env _))) :=
      ((r0.transformAll_ready env sc _ _ _ _ hs1).readyCheck env).same_trace rfl
    split
    · rename_i hs3
      exact ⟨r2.transformAll_polled env sc _ _ _ _, fun hn => absurd hs3 hn⟩
    · rename_i hs3
      have r4 : ReadyForPhase t0 (serialPrint .moveBackLeg (checkIfBodyHeightHasChanged env _)) :=
        ((r2.transformAll_ready env sc _ _ _ _ hs3).readyCheck env).same_trace rfl
      split
      · rename_i hs5
        exact ⟨r4.transformAll_polled env sc _ _ _ _, fun hn => absurd hs5 hn⟩
      · rename_i hs5
        have r6 : ReadyForPhase t0 (resetLift sc sc.BACK_LEFT_PIVOT
            (checkIfBodyHeightHasChanged env _)) :=
          ((r4.transformAll_ready env sc _ _ _ _ hs5).readyCheck env).same_trace rfl
        exact ⟨r6.polled, fun _ => r6⟩

theorem creepLoop_polled (env : Env) (sc : ServoControl) (t0 : List Step) :
    ∀ (fuel n d : Nat) (w : World), n ≤ 255 → iterations n ≤ fuel → ReadyForPhase t0 w →
      ∃ w1, moveCreepLoop env sc fuel n d w = some w1 ∧ PolledSince t0 w1 := by
  intro fuel
  induction fuel with
  | zero =>
    intro n d w h1 h2
    have := iterations_pos n
    omega
  | succ fuel ih =>
    intro n d w h1 h2 hr
    have b1 := basicHalfCreep_polled env sc t0 d false w hr
    simp only [moveCreepLoop, RETURN_IF_STOP]
    split
    · exact ⟨_, rfl, b1.1⟩
    · rename_i hs1
      have b2 := basicHalfCreep_polled env sc t0 d true _ (b1.2 hs1)
      split
      · exact ⟨_, rfl, b2.1⟩
      · rename_i hs2
        split
        · rename_i hd
          have hi := iterations_of_dec8_ne_zero n h1 hd
          exact ih _ _ _ hi.2 (by omega) (b2.2 hs2)
        · exact ⟨_, rfl, (b2.2 hs2).polled⟩

theorem moveCreep_polled (env : Env) (sc : ServoControl) (n : Nat) (w : World) (h1 : n ≤ 255) :
    ∃ w1, moveCreep env sc n w = some w1 ∧ PolledSince w.trace w1 := by
  have r0 : ReadyForPhase w.trace (goToYPosition env sc w.sMovingDirection w) :=
    (readyForAny_start w).other_ready
      ⟨.liftServos w.sBodyHeightAngle, w.inputs, env w.trace.length⟩ rfl rfl
  unfold moveCreep
  simp only [setEasingTypeForMoving]
  exact creepLoop_polled env sc w.trace 256 n _ _ h1 (iterations_le n h1) r0

/-- C16 (counterexample): with the stop signal set from the first blocking call on,
`moveCreep` issues a phase commit after the Y-stance commit and `moveTurn` issues the
pre-move after the centring commit; with the stop signal set during a body-height
corrective commit, `moveTrot` still issues the next phase commit.  In all three runs a
commit follows a commit that came back with the stop signal set. -/
theorem C16_counterexample :
    (moveCreep (stopFromEnv 0 60 0) sampleControl 1 (freshWorld 0 60)).map
        (fun w => w.trace.map (fun s => (s.commit, s.after.stopRequested)))
      = some [(.liftServos 60, true),
              (.allServos (creepPivots1 sampleControl) ⟨60, 60, 60, 135⟩ 0 false, true)]
    ∧ (moveTurn (stopFromEnv 0 60 0) sampleControl 1 (freshWorld 0 60)).map
        (fun w => w.trace.map (fun s => (s.commit, s.after.stopRequested)))
      = some [(.center, true), (.oneServo sampleControl.BACK_LEFT_PIVOT 50, true)]
    ∧ (moveTrot (stopFromEnv 0 62 1) sampleControl 1
          { freshWorld 0 60 with tCurrentBodyHeightAngle := 60 }).map
        (fun w => w.trace.map (fun s => (s.commit, s.after.stopRequested)))
      = some [(.allServos (trotPivots1 sampleControl) ⟨60, 97, 60, 97⟩ 0 false, false),
              (.liftToBodyHeight 62, true),
              (.allServos (trotPivots2 sampleControl) ⟨97, 62, 97, 62⟩ 0 false, true)]
    ∧ ¬ StopHaltsAlways
        [⟨.liftServos 60, ⟨0, 60, false⟩, ⟨0, 60, true⟩⟩,
         ⟨.allServos (creepPivots1 sampleControl) ⟨60, 60, 60, 135⟩ 0 false,
           ⟨0, 60, true⟩, ⟨0, 60, true⟩⟩] := by
  refine ⟨by rfl, by rfl, by rfl, ?_⟩
  intro h
  have := h [] _ _ rfl rfl (by intro t ht; simp at ht; subst ht; rfl)
  simp at this

/-- C16 (amended): for `moveTrot`, `moveTurn` and `moveCreep` under every environment the
call returns, and once a step of the call came back with the stop signal set and the
signal stays set: if that step was a phase commit (synchronized phase commit, quarter-turn
or turn pre-move) nothing follows it; if it was a set-up commit (Y stance, centring) or a
body-height corrective commit, at most one further commit is issued, and it is a phase
commit. -/
theorem C16_stop_polled_after_phase_commits (env : Env) (sc : ServoControl) (n : Nat)
    (w : World) (hn : n ≤ 255) :
    (∃ w1 new, moveTrot env sc n w = some w1 ∧ w1.trace = w.trace ++ new ∧ StopHaltsSoon new)
    ∧ (∃ w1 new, moveTurn env sc n w = some w1 ∧ w1.trace = w.trace ++ new ∧ StopHaltsSoon new)
    ∧ (∃ w1 new, moveCreep env sc n w = some w1 ∧ w1.trace = w.trace ++ new
        ∧ StopHaltsSoon new) := by
  obtain ⟨a, ha, na, ea, pa⟩ := moveTrot_polled env sc n w hn
  obtain ⟨b, hb, nb, eb, pb⟩ := moveTurn_polled env sc n w hn
  obtain ⟨c, hc, nc, ec, pc⟩ := moveCreep_polled env sc n w hn
  exact ⟨⟨a, na, ha, ea, pa.stopHaltsSoon⟩, ⟨b, nb, hb, eb, pb.stopHaltsSoon⟩,
    ⟨c, nc, hc, ec, pc.stopHaltsSoon⟩⟩

/-- C16 (witness): the three gaits with the stop signal set from the first blocking call
on. -/
theorem C16_stop_polled_after_phase_commits_witness :
    (∃ w1 new, moveTrot (stopFromEnv 0 60 0) sampleControl 3 (freshWorld 0 60) = some w1
        ∧ w1.trace = (freshWorld 0 60).trace ++ new ∧ StopHaltsSoon new)
    ∧ (∃ w1 new, moveTurn (stopFromEnv 0 60 0) sampleControl 3 (freshWorld 0 60) = some w1
        ∧ w1.trace = (freshWorld 0 60).trace ++ new ∧ StopHaltsSoon new)
    ∧ (∃ w1 new, moveCreep (stopFromEnv 0 60 0) sampleControl 3 (freshWorld 0 60) = some w1
        ∧ w1.trace = (freshWorld 0 60).trace ++ new ∧ StopHaltsSoon new) :=
  C16_stop_polled_after_phase_commits (stopFromEnv 0 60 0) sampleControl 3 (freshWorld 0 60)
    (by decide)

/-! ## Turn: direction sampling -/

theorem chain_sampledOnce (sc : ServoControl) :
    ∀ (qs : List Step) (leg : Nat) (lines : List SerialLine), TurnChain sc leg qs lines →
      (∀ s ∈ qs, s.after.sMovingDirection = s.before.sMovingDirection) →
      TurnChainSampledOnce sc leg qs lines := by
  intro qs
  induction qs with
  | nil =>
    intro leg lines h _
    cases lines with
    | nil => trivial
    | cons l ls => exact h
  | cons s ss ih =>
    intro leg lines h hsame
    cases lines with
    | nil => exact h
    | cons l ls =>
      obtain ⟨h1, h2, h3⟩ := h
      refine ⟨h1, h2, ?_⟩
      rw [← hsame s (by simp)]
      exact ih _ _ h3 (fun t ht => hsame t (by simp [ht]))

theorem Extends.ofQuarterTurn (env : Env) (sc : ServoControl) (leg : Nat) (aTurnLeft : Bool)
    (w : World) :
    Extends w (basicQuarterTurn env sc leg aTurnLeft w)
      [⟨.syncAll (targets (basicQuarterTurn env sc leg aTurnLeft w).sServoNextPositionArray),
        w.inputs, env w.trace.length⟩] :=
  ⟨basicQuarterTurn_trace env sc leg aTurnLeft w, ⟨rfl, trivial⟩, rfl⟩

theorem turnLoop_chain (env : Env) (sc : ServoControl) :
    ∀ (fuel n leg : Nat) (w : World), n ≤ 255 → iterations n ≤ fuel →
      ∃ w1 qs lines, moveTurnLoop env sc fuel n leg w = some w1 ∧ Extends w w1 qs
        ∧ w1.serial = w.serial ++ lines ∧ TurnChain sc leg qs lines := by
  intro fuel
  induction fuel with
  | zero =>
    intro n leg w h1 h2
    have := iterations_pos n
    omega
  | succ fuel ih =>
    intro n leg w h1 h2
    have x1 := Extends.ofQuarterTurn env sc leg
      (decide (w.sMovingDirection = sc.MOVE_DIRECTION_LEFT)) w
    have one : TurnChain sc leg
        [⟨.syncAll (targets (basicQuarterTurn env sc leg
            (decide (w.sMovingDirection = sc.MOVE_DIRECTION_LEFT)) w).sServoNextPositionArray),
          w.inputs, env w.trace.length⟩]
        [SerialLine.turnLeg leg (decide (w.sMovingDirection = sc.MOVE_DIRECTION_LEFT))] :=
      ⟨rfl, rfl, trivial⟩
    simp only [moveTurnLoop, RETURN_IF_STOP]
    split
    · exact ⟨_, _, _, rfl, x1, basicQuarterTurn_serial env sc leg _ w, one⟩
    · split
      · rename_i hd
        have hi := iterations_of_dec8_ne_zero n h1 hd
        obtain ⟨w1, qs, lines, e1, e2, e3, e4⟩ := ih (dec8 n)
          ((if (basicQuarterTurn env sc leg
              (decide (w.sMovingDirection = sc.MOVE_DIRECTION_LEFT)) w).sMovingDirection
              = sc.MOVE_DIRECTION_LEFT then inc8 leg else dec8 leg) % NUMBER_OF_LEGS)
          (basicQuarterTurn env sc leg (decide (w.sMovingDirection = sc.MOVE_DIRECTION_LEFT)) w)
          hi.2 (by omega)
        refine ⟨w1, _, SerialLine.turnLeg leg
          (decide (w.sMovingDirection = sc.MOVE_DIRECTION_LEFT)) :: lines, e1, x1.trans e2,
          ?_, ?_⟩
        · rw [e3, basicQuarterTurn_serial]
          simp
        · exact ⟨rfl, rfl, e4⟩
      · exact ⟨_, _, _, rfl, x1, basicQuarterTurn_serial env sc leg _ w, one⟩

theorem moveTurn_chain (env : Env) (sc : ServoControl) (n : Nat) (w : World) (h1 : n ≤ 255) :
    ∃ w1 c p qs lines, moveTurn env sc n w = some w1 ∧ w1.trace = w.trace ++ c :: p :: qs
      ∧ Continuous w.inputs (c :: p :: qs)
      ∧ c.commit = .center ∧ p.commit.isOneServo = true
      ∧ w1.serial = w.serial ++ lines ∧ TurnChain sc FRONT_LEFT_PIVOT qs lines := by
  have main : ∀ idx deg, ∃ w1 c p qs lines,
      (if (moveOneServoAndCheckInputAndWait env idx deg (centerServos env w)).stopRequested = true
        then some (moveOneServoAndCheckInputAndWait env idx deg (centerServos env w))
        else moveTurnLoop env sc 256 n FRONT_LEFT_PIVOT
          (moveOneServoAndCheckInputAndWait env idx deg (centerServos env w))) = some w1
      ∧ w1.trace = w.trace ++ c :: p :: qs
      ∧ Continuous w.inputs (c :: p :: qs)
      ∧ c.commit = .center ∧ p.commit.isOneServo = true
      ∧ w1.serial = w.serial ++ lines ∧ TurnChain sc FRONT_LEFT_PIVOT qs lines := by
    intro idx deg
    have x0 : Extends w (moveOneServoAndCheckInputAndWait env idx deg (centerServos env w))
        ([⟨.center, w.inputs, env w.trace.length⟩]
          ++ [⟨.oneServo idx deg, (centerServos env w).inputs,
              env (centerServos env w).trace.length⟩]) :=
      (show Extends w (centerServos env w) [⟨.center, w.inputs, env w.trace.length⟩] from
        ⟨rfl, ⟨rfl, trivial⟩, rfl⟩).trans
        (Extends.ofCommit env (.oneServo idx deg) (centerServos env w))
    have hser : (moveOneServoAndCheckInputAndWait env idx deg (centerServos env w)).serial
        = w.serial := rfl
    split
    · exact ⟨_, _, _, [], [], rfl, x0.1, x0.2.1, rfl, rfl, by rw [hser]; simp, trivial⟩
    · obtain ⟨w1, qs, lines, e1, e2, e3, e4⟩ := turnLoop_chain env sc 256 n FRONT_LEFT_PIVOT
        (moveOneServoAndCheckInputAndWait env idx deg (centerServos env w)) h1
        (iterations_le n h1)
      have x := x0.trans e2
      exact ⟨w1, _, _, qs, lines, e1, x.1, x.2.1, rfl, rfl, by rw [e3, hser], e4⟩
  unfold moveTurn
  simp only [setEasingTypeForMoving, RETURN_IF_STOP]
  by_cases hd : (centerServos env w).sMovingDirection = sc.MOVE_DIRECTION_LEFT
  · simp only [hd, if_true]
    exact main _ _
  · simp only [hd, if_false]
    exact main _ _

/-- C17 (counterexample): `moveTurn 2` entered with direction Left (1) while the direction
becomes 3 during the first quarter-turn commit.  The first quarter-turn is run for leg 0
as a left turn, by the value 1 current when it was issued, and the leg index is then
retreated to 3, by the value 3 current when the commit returned: the two senses of the
iteration come from different values, and the quarter-turns are not chained as with one
sample per iteration. -/
theorem C17_counterexample :
    (moveTurn (directionFromEnv sampleControl.MOVE_DIRECTION_LEFT 3 60 2) sampleControl 2
        (freshWorld sampleControl.MOVE_DIRECTION_LEFT 60)).map
        (fun w => (w.trace.drop 2, w.serial))
      = some ([⟨.syncAll [130, 135, 80, 60, 80, 60, 80, 60], ⟨1, 60, false⟩, ⟨3, 60, false⟩⟩,
               ⟨.syncAll [140, 60, 90, 60, 90, 60, 50, 135], ⟨3, 60, false⟩, ⟨3, 60, false⟩⟩],
              [.turnLeg 0 true, .turnLeg 3 false])
    ∧ ¬ TurnChainSampledOnce sampleControl FRONT_LEFT_PIVOT
        [⟨.syncAll [130, 135, 80, 60, 80, 60, 80, 60], ⟨1, 60, false⟩, ⟨3, 60, false⟩⟩,
         ⟨.syncAll [140, 60, 90, 60, 90, 60, 50, 135], ⟨3, 60, false⟩, ⟨3, 60, false⟩⟩]
        [.turnLeg 0 true, .turnLeg 3 false] := by
  refine ⟨by rfl, ?_⟩
  intro h
  have h2 := h.2.2.1
  exact absurd h2 (by decide)

/-- C17 (amended): for every environment `moveTurn` returns, and its quarter-turns are
chained as follows: each is run for the current leg index with the left/right sense of
the direction value current when it is issued, and the index is then advanced or
retreated by the direction value current when the quarter-turn commit has returned, which
(the steps being issued with the inputs their predecessor left) is also the value that
gives the sense of the next quarter-turn.  The two senses of an iteration come from the
same value whenever the direction does not change while the quarter-turn commit is in
progress. -/
theorem C17_turn_direction_sampling (env : Env) (sc : ServoControl) (n : Nat) (w : World)
    (hn : n ≤ 255) :
    ∃ w1 c p qs lines, moveTurn env sc n w = some w1 ∧ w1.trace = w.trace ++ c :: p :: qs
      ∧ Continuous w.inputs (c :: p :: qs)
      ∧ c.commit = .center ∧ p.commit.isOneServo = true
      ∧ w1.serial = w.serial ++ lines ∧ TurnChain sc FRONT_LEFT_PIVOT qs lines
      ∧ ((∀ s ∈ qs, s.after.sMovingDirection = s.before.sMovingDirection) →
          TurnChainSampledOnce sc FRONT_LEFT_PIVOT qs lines) := by
  obtain ⟨w1, c, p, qs, lines, e1, e2, e3, e4, e5, e6, e7⟩ := moveTurn_chain env sc n w hn
  refine ⟨w1, c, p, qs, lines, e1, e2, e3, e4, e5, e6, e7, ?_⟩
  intro hsame
  exact chain_sampledOnce sc qs FRONT_LEFT_PIVOT lines e7 hsame

/-- C17 (witness): `moveTurn 2` entered with direction Left while the direction becomes 3
during the first quarter-turn commit. -/
theorem C17_turn_direction_sampling_witness :
    ∃ w1 c p qs lines,
      moveTurn (directionFromEnv sampleControl.MOVE_DIRECTION_LEFT 3 60 2) sampleControl 2
          (freshWorld sampleControl.MOVE_DIRECTION_LEFT 60) = some w1
      ∧ w1.trace = (freshWorld sampleControl.MOVE_DIRECTION_LEFT 60).trace ++ c :: p :: qs
      ∧ Continuous (freshWorld sampleControl.MOVE_DIRECTION_LEFT 60).inputs (c :: p :: qs)
      ∧ c.commit = .center ∧ p.commit.isOneServo = true
      ∧ w1.serial = (freshWorld sampleControl.MOVE_DIRECTION_LEFT 60).serial ++ lines
      ∧ TurnChain sampleControl FRONT_LEFT_PIVOT qs lines
      ∧ ((∀ s ∈ qs, s.after.sMovingDirection = s.before.sMovingDirection) →
          TurnChainSampledOnce sampleControl FRONT_LEFT_PIVOT qs lines) :=
  C17_turn_direction_sampling (directionFromEnv sampleControl.MOVE_DIRECTION_LEFT 3 60 2)
    sampleControl 2 (freshWorld sampleControl.MOVE_DIRECTION_LEFT 60) (by decide)

/-! ## Creep: lift reset -/

/-- C18 (code at the failing input): a mirrored half creep to the left that completes
without cancellation at body height 60.  Phase 3 raised the leg at lift channel 5 (the
mirror image of canonical leg 1), the reset after it wrote lift channel 3 (the unmirrored
channel of BACK_LEFT_PIVOT), and the lift entry 5 of the next-position array is left at
LIFT_MAX_ANGLE = 135.  The unmirrored half creep leaves all four lift entries at 60. -/
theorem C18_code_at_failing_input :
    liftTargets (basicHalfCreep (quietEnv specControl.MOVE_DIRECTION_LEFT 60) specControl
        specControl.MOVE_DIRECTION_LEFT true
        (freshWorld specControl.MOVE_DIRECTION_LEFT 60)).sServoNextPositionArray
      = [60, 60, 135, 60]
    ∧ (basicHalfCreep (quietEnv specControl.MOVE_DIRECTION_LEFT 60) specControl
        specControl.MOVE_DIRECTION_LEFT true
        (freshWorld specControl.MOVE_DIRECTION_LEFT 60)).sBodyHeightAngle = 60
    ∧ (basicHalfCreep (quietEnv specControl.MOVE_DIRECTION_LEFT 60) specControl
        specControl.MOVE_DIRECTION_LEFT true
        (freshWorld specControl.MOVE_DIRECTION_LEFT 60)).trace.length = 3
    ∧ transformLegChannel 1 specControl.MOVE_DIRECTION_LEFT true + LIFT_SERVO_OFFSET = 5
    ∧ specControl.oneServoIndex specControl.BACK_LEFT_PIVOT specControl.MOVE_DIRECTION_LEFT
        + LIFT_SERVO_OFFSET = 3
    ∧ liftTargets (basicHalfCreep (quietEnv specControl.MOVE_DIRECTION_LEFT 60) specControl
        specControl.MOVE_DIRECTION_LEFT false
        (freshWorld specControl.MOVE_DIRECTION_LEFT 60)).sServoNextPositionArray
      = [60, 60, 60, 60] := by
  refine ⟨by rfl, by rfl, by rfl, by rfl, by rfl, by rfl⟩

/-! ## Trot: lift baseline -/

/-- C21 (code at the failing input): one trot cycle entered at body height 60 while the body
height is changed to 100 during the first phase (LIFT_MAX_ANGLE = 135).  The first phase
raises its pair to 97, the midpoint for 60; the second phase passes 100 to the grounded
legs and the stale 97 to the legs it is meant to raise, where the midpoint for 100 is
117. -/
theorem C21_code_at_failing_input :
    (moveTrot (quietEnv 0 100) sampleControl 1 (freshWorld 0 60)).map
        (fun w => w.trace.map (fun s => s.commit))
      = some [.allServos (trotPivots1 sampleControl) ⟨60, 97, 60, 97⟩ 0 false,
              .allServos (trotPivots2 sampleControl) ⟨97, 100, 97, 100⟩ 0 false]
    ∧ trotLiftMaxAngle sampleControl 60 = 97
    ∧ trotLiftMaxAngle sampleControl 100 = 117 := by
  refine ⟨by rfl, by rfl, by rfl⟩

/-! ## Turn: channel indices -/

theorem othersStores_replay (t : Int) (h : Nat) :
    ∀ (k : Nat) (i : Int) (a : Nat → Int),
      applyStores (basicQuarterTurnOthersStores t h k i a) a = basicQuarterTurnOthers t h k i a := by
  intro k
  induction k with
  | zero => intro i a; rfl
  | succ k ih =>
    intro i a
    simp only [basicQuarterTurnOthersStores, basicQuarterTurnOthers, applyStores,
      List.foldl_cons]
    exact ih _ _

theorem stores_replay (env : Env) (sc : ServoControl) (L : Nat) (aTurnLeft : Bool) (w : World) :
    applyStores (basicQuarterTurnStores sc L aTurnLeft w) w.sServoNextPositionArray
      = (basicQuarterTurn env sc L aTurnLeft w).sServoNextPositionArray := by
  simp only [basicQuarterTurnStores, applyStores, List.foldl_cons, basicQuarterTurn,
    synchronizeMoveAllServosAndCheckInputAndWait, commit, serialPrint]
  exact othersStores_replay _ _ _ _ _

theorem stores_indices (sc : ServoControl) (L : Nat) (aTurnLeft : Bool) (w : World)
    (hL : L < 4) :
    (basicQuarterTurnStores sc L aTurnLeft w).map Prod.fst
      = [((2 * L : Nat) : Int), ((2 * L + 1 : Nat) : Int),
         (((2 * L + 2) % 8 : Nat) : Int), (((2 * L + 2) % 8 + 1 : Nat) : Int),
         (((2 * L + 4) % 8 : Nat) : Int), (((2 * L + 4) % 8 + 1 : Nat) : Int),
         (((2 * L + 6) % 8 : Nat) : Int), (((2 * L + 6) % 8 + 1 : Nat) : Int)] := by
  interval_cases L <;> rfl

theorem turnLoop_leg_range (env : Env) (sc : ServoControl) :
    ∀ (fuel n leg : Nat) (w : World), n ≤ 255 → iterations n ≤ fuel → leg < NUMBER_OF_LEGS →
      ∃ w1 lines, moveTurnLoop env sc fuel n leg w = some w1 ∧ w1.serial = w.serial ++ lines
        ∧ ∀ l ∈ lines, l.legInRange := by
  intro fuel
  induction fuel with
  | zero =>
    intro n leg w h1 h2
    have := iterations_pos n
    omega
  | succ fuel ih =>
    intro n leg w h1 h2 hleg
    have one : ∀ l ∈ [SerialLine.turnLeg leg (decide (w.sMovingDirection = sc.MOVE_DIRECTION_LEFT))],
        l.legInRange := by
      intro l hl
      rw [List.mem_singleton.mp hl]
      exact hleg
    simp only [moveTurnLoop, RETURN_IF_STOP]
    split
    · exact ⟨_, _, rfl, basicQuarterTurn_serial env sc leg _ w, one⟩
    · split
      · rename_i hd
        have hi := iterations_of_dec8_ne_zero n h1 hd
        obtain ⟨w1, lines, e1, e2, e3⟩ := ih (dec8 n)
          ((if (basicQuarterTurn env sc leg
              (decide (w.sMovingDirection = sc.MOVE_DIRECTION_LEFT)) w).sMovingDirection
              = sc.MOVE_DIRECTION_LEFT then inc8 leg else dec8 leg) % NUMBER_OF_LEGS)
          (basicQuarterTurn env sc leg (decide (w.sMovingDirection = sc.MOVE_DIRECTION_LEFT)) w)
          hi.2 (by omega) (Nat.mod_lt _ (by decide))
        refine ⟨w1, SerialLine.turnLeg leg
          (decide (w.sMovingDirection = sc.MOVE_DIRECTION_LEFT)) :: lines, e1, ?_, ?_⟩
        · rw [e2, basicQuarterTurn_serial]
          simp
        · intro l hl
          rcases List.mem_cons.mp hl with hl | hl
          · exact one l (by rw [hl]; simp)
          · exact e3 l hl
      · exact ⟨_, _, rfl, basicQuarterTurn_serial env sc leg _ w, one⟩

theorem moveTurn_leg_range (env : Env) (sc : ServoControl) (n : Nat) (w : World)
    (h1 : n ≤ 255) :
    ∃ w1 lines, moveTurn env sc n w = some w1 ∧ w1.serial = w.serial ++ lines
      ∧ ∀ l ∈ lines, l.legInRange := by
  have main : ∀ idx deg, ∃ w1 lines,
      (if (moveOneServoAndCheckInputAndWait env idx deg (centerServos env w)).stopRequested = true
        then some (moveOneServoAndCheckInputAndWait env idx deg (centerServos env w))
        else moveTurnLoop env sc 256 n FRONT_LEFT_PIVOT
          (moveOneServoAndCheckInputAndWait env idx deg (centerServos env w))) = some w1
      ∧ w1.serial = w.serial ++ lines ∧ ∀ l ∈ lines, l.legInRange := by
    intro idx deg
    split
    · exact ⟨_, [], rfl, by simp [moveOneServoAndCheckInputAndWait, commit, centerServos],
        by intro l hl; simp at hl⟩
    · exact turnLoop_leg_range env sc 256 n FRONT_LEFT_PIVOT _ h1 (iterations_le n h1)
        (by decide)
  unfold moveTurn
  simp only [setEasingTypeForMoving, RETURN_IF_STOP]
  by_cases hd : (centerServos env w).sMovingDirection = sc.MOVE_DIRECTION_LEFT
  · simp only [hd, if_true]
    exact main _ _
  · simp only [hd, if_false]
    exact main _ _

/-- C23: `moveTurn` returns and every leg index it hands to `basicQuarterTurn` (as reported
on the serial log) is one of 0..3; and for every leg index `L` in 0..3, either turn sense
and any world, the stores `basicQuarterTurn` executes before its synchronized commit (which
replayed on the array give exactly the array the function leaves) are eight, each index
lies in 0..NUMBER_OF_SERVOS-1, no index is written twice, and every channel 0..7 is
written. -/
theorem C23_turn_stores_in_range (env : Env) (sc : ServoControl) (n : Nat) (w : World)
    (L : Nat) (aTurnLeft : Bool) (v : World) (hn : n ≤ 255) (hL : L < NUMBER_OF_LEGS) :
    (∃ w1 lines, moveTurn env sc n w = some w1 ∧ w1.serial = w.serial ++ lines
        ∧ ∀ l ∈ lines, l.legInRange)
    ∧ applyStores (basicQuarterTurnStores sc L aTurnLeft v) v.sServoNextPositionArray
        = (basicQuarterTurn env sc L aTurnLeft v).sServoNextPositionArray
    ∧ (basicQuarterTurnStores sc L aTurnLeft v).length = NUMBER_OF_SERVOS
    ∧ (∀ s ∈ basicQuarterTurnStores sc L aTurnLeft v, 0 ≤ s.1 ∧ s.1 < (NUMBER_OF_SERVOS : Nat))
    ∧ ((basicQuarterTurnStores sc L aTurnLeft v).map Prod.fst).Nodup
    ∧ (∀ j, j < NUMBER_OF_SERVOS →
        (j : Int) ∈ (basicQuarterTurnStores sc L aTurnLeft v).map Prod.fst) := by
  have hL4 : L < 4 := hL
  have hi := stores_indices sc L aTurnLeft v hL4
  refine ⟨moveTurn_leg_range env sc n w hn, stores_replay env sc L aTurnLeft v, ?_, ?_, ?_, ?_⟩
  · have := congrArg List.length hi
    simpa using this
  · intro s hs
    have hm : s.1 ∈ (basicQuarterTurnStores sc L aTurnLeft v).map Prod.fst :=
      List.mem_map_of_mem _ hs
    rw [hi] at hm
    have h8 : ((NUMBER_OF_SERVOS : Nat) : Int) = 8 := rfl
    rw [h8]
    interval_cases L <;> simp at hm <;> omega
  · rw [hi]
    interval_cases L <;> decide
  · intro j hj
    have hj8 : j < 8 := hj
    rw [hi]
    interval_cases L <;> interval_cases j <;> simp

/-- C23 (witness): `moveTurn 5` of a fresh program turning left, and the stores of a left
quarter-turn of leg 3, whose channel index wraps from 7 to 0. -/
theorem C23_turn_stores_in_range_witness :
    (∃ w1 lines, moveTurn (quietEnv 1 60) sampleControl 5 (freshWorld 1 60) = some w1
        ∧ w1.serial = (freshWorld 1 60).serial ++ lines ∧ ∀ l ∈ lines, l.legInRange)
    ∧ (basicQuarterTurnStores sampleControl 3 true (freshWorld 1 60)).map Prod.fst
        = [6, 7, 0, 1, 2, 3, 4, 5] :=
  ⟨(C23_turn_stores_in_range (quietEnv 1 60) sampleControl 5 (freshWorld 1 60) 3 true
      (freshWorld 1 60) (by decide) (by decide)).1, by rfl⟩

/-! ## Creep: direction sampling -/

theorem basicHalfCreep_dir (env : Env) (sc : ServoControl) (d : Nat) (m : Bool) (w : World) :
    ∃ seg k, Extends w (basicHalfCreep env sc d m w) seg ∧ 1 ≤ k ∧ k ≤ 3
      ∧ FollowsTemplate (phaseSteps seg) ((halfCreepTemplate sc d m).take k)
      ∧ (∃ s tail, seg = s :: tail ∧ s.commit.isAllServos = true ∧ s.before = w.inputs)
      ∧ (¬ (basicHalfCreep env sc d m w).stopRequested = true → k = 3) := by
  simp only [basicHalfCreep, RETURN_IF_STOP]
  have a0 : Extends w (serialPrint .moveFrontLeg (serialPrint (.basicHalfCreep d m) w)) [] :=
    Extends.of_eq rfl rfl
  generalize serialPrint .moveFrontLeg (serialPrint (.basicHalfCreep d m) w) = V0 at a0 ⊢
  have i0 : V0.inputs = w.inputs := a0.2.2
  have a1 := Extends.ofTransformAll env sc (creepPivots1 sc)
    ⟨V0.sBodyHeightAngle, V0.sBodyHeightAngle, V0.sBodyHeightAngle, sc.LIFT_MAX_ANGLE⟩ d m V0
  generalize transformAndSetAllServos env sc (creepPivots1 sc)
    ⟨V0.sBodyHeightAngle, V0.sBodyHeightAngle, V0.sBodyHeightAngle, sc.LIFT_MAX_ANGLE⟩ d m V0
    = V1 at a1 ⊢
  by_cases h1 : V1.stopRequested = true
  · rw [if_pos h1]
    exact ⟨_, 1, a0.trans a1, by omega, by omega, List.Forall₂.cons rfl List.Forall₂.nil,
      ⟨_, _, rfl, rfl, i0⟩, fun hn => absurd h1 hn⟩
  rw [if_neg h1]
  obtain ⟨c1, a2, q2⟩ := Extends.ofCheck env V1
  generalize checkIfBodyHeightHasChanged env V1 = V2 at a2 ⊢
  have a3 : Extends V2 (serialPrint .moveBody (resetLift sc sc.FRONT_RIGHT_PIVOT V2)) [] :=
    Extends.of_eq rfl rfl
  generalize serialPrint .moveBody (resetLift sc sc.FRONT_RIGHT_PIVOT V2) = V3 at a3 ⊢
  have a4 := Extends.ofTransformAll env sc (creepPivots2 sc)
    ⟨V3.sBodyHeightAngle, V3.sBodyHeightAngle, V3.sBodyHeightAngle, V3.sBodyHeightAngle⟩ d m V3
  generalize transformAndSetAllServos env sc (creepPivots2 sc)
    ⟨V3.sBodyHeightAngle, V3.sBodyHeightAngle, V3.sBodyHeightAngle, V3.sBodyHeightAngle⟩ d m V3
    = V4 at a4 ⊢
  by_cases h4 : V4.stopRequested = true
  · rw [if_pos h4]
    refine ⟨_, 2, (((a0.trans a1).trans a2).trans a3).trans a4, by omega, by omega, ?_,
      ⟨_, _, rfl, rfl, i0⟩, fun hn => absurd h4 hn⟩
    simp only [phaseSteps_append, q2, List.append_nil, List.nil_append]
    exact List.Forall₂.cons rfl (List.Forall₂.cons rfl List.Forall₂.nil)
  rw [if_neg h4]
  obtain ⟨c2, a5, q5⟩ := Extends.ofCheck env V4
  generalize checkIfBodyHeightHasChanged env V4 = V5 at a5 ⊢
  have a6 : Extends V5 (serialPrint .moveBackLeg V5) [] := Extends.of_eq rfl rfl
  generalize serialPrint .moveBackLeg V5 = V6 at a6 ⊢
  have a7 := Extends.ofTransformAll env sc (creepPivots3 sc)
    ⟨V6.sBodyHeightAngle, sc.LIFT_MAX_ANGLE, V6.sBodyHeightAngle, V6.sBodyHeightAngle⟩ d m V6
  generalize transformAndSetAllServos env sc (creepPivots3 sc)
    ⟨V6.sBodyHeightAngle, sc.LIFT_MAX_ANGLE, V6.sBodyHeightAngle, V6.sBodyHeightAngle⟩ d m V6
    = V7 at a7 ⊢
  have a07 := ((((((a0.trans a1).trans a2).trans a3).trans a4).trans a5).trans a6).trans a7
  have f3 : ∀ c3, phaseSteps c3 = [] → FollowsTemplate
      (phaseSteps (([] ++ [⟨.allServos (creepPivots1 sc)
          ⟨V0.sBodyHeightAngle, V0.sBodyHeightAngle, V0.sBodyHeightAngle, sc.LIFT_MAX_ANGLE⟩ d m,
          V0.inputs, env V0.trace.length⟩] ++ c1 ++ [] ++ [⟨.allServos (creepPivots2 sc)
          ⟨V3.sBodyHeightAngle, V3.sBodyHeightAngle, V3.sBodyHeightAngle, V3.sBodyHeightAngle⟩
          d m, V3.inputs, env V3.trace.length⟩] ++ c2 ++ [] ++ [⟨.allServos (creepPivots3 sc)
          ⟨V6.sBodyHeightAngle, sc.LIFT_MAX_ANGLE, V6.sBodyHeightAngle, V6.sBodyHeightAngle⟩
          d m, V6.inputs, env V6.trace.length⟩]) ++ c3))
      ((halfCreepTemplate sc d m).take 3) := by
    intro c3 q
    simp only [phaseSteps_append, q2, q5, q, List.append_nil, List.nil_append]
    exact List.Forall₂.cons rfl (List.Forall₂.cons rfl (List.Forall₂.cons rfl List.Forall₂.nil))
  by_cases h7 : V7.stopRequested = true
  · rw [if_pos h7]
    refine ⟨_, 3, a07, by omega, by omega, ?_, ⟨_, _, rfl, rfl, i0⟩, fun _ => rfl⟩
    have := f3 [] rfl
    simpa using this
  rw [if_neg h7]
  obtain ⟨c3, a8, q8⟩ := Extends.ofCheck env V7
  generalize checkIfBodyHeightHasChanged env V7 = V8 at a8 ⊢
  have a9 : Extends V8 (resetLift sc sc.BACK_LEFT_PIVOT V8) [] := Extends.of_eq rfl rfl
  refine ⟨_, 3, (a07.trans a8).trans a9, by omega, by omega, ?_, ⟨_, _, rfl, rfl, i0⟩,
    fun _ => rfl⟩
  have := f3 c3 q8
  simpa using this

theorem half_take (sc : ServoControl) (d k : Nat) (hk : k ≤ 3) :
    (halfCreepTemplate sc d false).take k = (creepCycleTemplate sc d).take k := by
  interval_cases k <;> rfl

theorem cycle_take (sc : ServoControl) (d k : Nat) (hk : k ≤ 3) :
    (halfCreepTemplate sc d false).take 3 ++ (halfCreepTemplate sc d true).take k
      = (creepCycleTemplate sc d).take (3 + k) := by
  interval_cases k <;> rfl

theorem creepCycle_of (sc : ServoControl) (s : Step) (rest : List Step) (d k : Nat)
    (hd : s.before.sMovingDirection = d) (hk : k ≤ 6)
    (f : FollowsTemplate (s :: rest) ((creepCycleTemplate sc d).take k)) :
    CreepCycle sc (s :: rest) ∧ (s :: rest).length = k := by
  have hl : (s :: rest).length = k := by
    rw [f.length_eq, List.length_take]
    have : (creepCycleTemplate sc d).length = 6 := rfl
    omega
  refine ⟨⟨s, rest, rfl, ?_⟩, hl⟩
  rw [hd, hl]
  exact f

theorem creepLoop_dirs (env : Env) (sc : ServoControl) :
    ∀ (fuel n d : Nat) (w : World), n ≤ 255 → iterations n ≤ fuel → d = w.sMovingDirection →
      ∃ (w1 : World) (new : List Step) (cycles : List (List Step)),
        moveCreepLoop env sc fuel n d w = some w1 ∧ Extends w w1 new
        ∧ phaseSteps new = cycles.flatten ∧ cycles ≠ []
        ∧ (∀ c ∈ cycles, CreepCycle sc c)
        ∧ (∀ c ∈ cycles.dropLast, c.length = 6)
        ∧ (∃ s tail, new = s :: tail ∧ s.commit.isAllServos = true ∧ s.before = w.inputs) := by
  intro fuel
  induction fuel with
  | zero =>
    intro n d w h1 h2
    have := iterations_pos n
    omega
  | succ fuel ih =>
    intro n d w h1 h2 hd
    obtain ⟨seg1, k1, x1, k1a, k1b, f1, ⟨s1, t1, es1, ps1, bs1⟩, full1⟩ :=
      basicHalfCreep_dir env sc d false w
    have p1 : phaseSteps seg1 = s1 :: phaseSteps t1 := by
      rw [es1]
      simp [phaseSteps, ps1]
    have hs1 : s1.before.sMovingDirection = d := by
      rw [bs1, hd]
      rfl
    simp only [moveCreepLoop, RETURN_IF_STOP]
    split
    · -- stopped during the unmirrored half creep
      rw [p1, half_take sc d k1 k1b] at f1
      obtain ⟨cy, _⟩ := creepCycle_of sc s1 (phaseSteps t1) d k1 hs1 (by omega) f1
      refine ⟨_, seg1, [s1 :: phaseSteps t1], rfl, x1, by simp [p1], by simp, ?_, ?_,
        ⟨s1, t1, es1, ps1, bs1⟩⟩
      · intro c hc
        rw [List.mem_singleton.mp hc]
        exact cy
      · intro c hc
        simp at hc
    · rename_i hstop1
      have hk1 : k1 = 3 := full1 hstop1
      obtain ⟨seg2, k2, x2, k2a, k2b, f2, _, full2⟩ :=
        basicHalfCreep_dir env sc d true (basicHalfCreep env sc d false w)
      have fc : FollowsTemplate (s1 :: (phaseSteps t1 ++ phaseSteps seg2))
          ((creepCycleTemplate sc d).take (3 + k2)) := by
        rw [← cycle_take sc d k2 k2b, ← List.cons_append, ← p1, ← hk1]
        exact f1.append f2
      obtain ⟨cy, cl⟩ := creepCycle_of sc s1 (phaseSteps t1 ++ phaseSteps seg2) d (3 + k2) hs1
        (by omega) fc
      have pc : phaseSteps (seg1 ++ seg2) = s1 :: (phaseSteps t1 ++ phaseSteps seg2) := by
        rw [phaseSteps_append, p1, List.cons_append]
      have hd12 : ∃ s tail, seg1 ++ seg2 = s :: tail ∧ s.commit.isAllServos = true
          ∧ s.before = w.inputs := ⟨s1, t1 ++ seg2, by rw [es1, List.cons_append], ps1, bs1⟩
      have last : ∃ (w1 : World) (new : List Step) (cycles : List (List Step)),
          some (basicHalfCreep env sc d true (basicHalfCreep env sc d false w)) = some w1
          ∧ Extends w w1 new
          ∧ phaseSteps new = cycles.flatten ∧ cycles ≠ []
          ∧ (∀ c ∈ cycles, CreepCycle sc c)
          ∧ (∀ c ∈ cycles.dropLast, c.length = 6)
          ∧ (∃ s tail, new = s :: tail ∧ s.commit.isAllServos = true ∧ s.before = w.inputs) := by
        refine ⟨_, seg1 ++ seg2, [s1 :: (phaseSteps t1 ++ phaseSteps seg2)], rfl, x1.trans x2,
          by simp [pc], by simp, ?_, ?_, hd12⟩
        · intro c hc
          rw [List.mem_singleton.mp hc]
          exact cy
        · intro c hc
          simp at hc
      split
      · exact last
      · rename_i hstop2
        have hk2 : k2 = 3 := full2 hstop2
        split
        · rename_i hn
          have hi := iterations_of_dec8_ne_zero n h1 hn
          obtain ⟨w1, new, cycles, e1, e2, e3, e4, e5, e6, _⟩ := ih (dec8 n)
            (if (basicHalfCreep env sc d true (basicHalfCreep env sc d false w)).sMovingDirection ≠ d
              then (basicHalfCreep env sc d true (basicHalfCreep env sc d false w)).sMovingDirection
              else d)
            (basicHalfCreep env sc d true (basicHalfCreep env sc d false w)) hi.2 (by omega)
            (by split <;> simp_all)
          refine ⟨w1, (seg1 ++ seg2) ++ new, (s1 :: (phaseSteps t1 ++ phaseSteps seg2)) :: cycles,
            e1, (x1.trans x2).trans e2, ?_, by simp, ?_, ?_, ?_⟩
          · rw [phaseSteps_append, pc, e3, List.flatten_cons]
          · intro c hc
            rcases List.mem_cons.mp hc with hc | hc
            · rw [hc]
              exact cy
            · exact e5 c hc
          · intro c hc
            rw [List.dropLast_cons_of_ne_nil e4] at hc
            rcases List.mem_cons.mp hc with hc | hc
            · rw [hc, cl, hk2]
            · exact e6 c hc
          · obtain ⟨s, tail, hs, hp, hb⟩ := hd12
            exact ⟨s, tail ++ new, by rw [hs, List.cons_append], hp, hb⟩
        · exact last

@[simp] theorem check_serial (env : Env) (w : World) :
    (checkIfBodyHeightHasChanged env w).serial = w.serial := by
  rw [check_eq]
  split <;> rfl

theorem basicHalfCreep_serial (env : Env) (sc : ServoControl) (d : Nat) (m : Bool) (w : World) :
    ∃ lines, (basicHalfCreep env sc d m w).serial
      = w.serial ++ SerialLine.basicHalfCreep d m :: lines := by
  simp only [basicHalfCreep, RETURN_IF_STOP]
  split
  · exact ⟨[.moveFrontLeg], by simp [serialPrint]⟩
  · split
    · exact ⟨[.moveFrontLeg, .moveBody], by simp [serialPrint, resetLift]⟩
    · split
      · exact ⟨[.moveFrontLeg, .moveBody, .moveBackLeg], by simp [serialPrint, resetLift]⟩
      · exact ⟨[.moveFrontLeg, .moveBody, .moveBackLeg], by simp [serialPrint, resetLift]⟩

theorem creepLoop_serial (env : Env) (sc : ServoControl) :
    ∀ (fuel n d : Nat) (w w1 : World), moveCreepLoop env sc fuel n d w = some w1 →
      ∃ lines, w1.serial = w.serial ++ lines := by
  intro fuel
  induction fuel with
  | zero =>
    intro n d w w1 h
    simp [moveCreepLoop] at h
  | succ fuel ih =>
    intro n d w w1 h
    obtain ⟨l1, e1⟩ := basicHalfCreep_serial env sc d false w
    obtain ⟨l2, e2⟩ := basicHalfCreep_serial env sc d true (basicHalfCreep env sc d false w)
    simp only [moveCreepLoop, RETURN_IF_STOP] at h
    split at h
    · rw [← Option.some.inj h]
      exact ⟨_, e1⟩
    · have e12 : (basicHalfCreep env sc d true (basicHalfCreep env sc d false w)).serial
          = w.serial ++ (SerialLine.basicHalfCreep d false :: l1
              ++ SerialLine.basicHalfCreep d true :: l2) := by
        rw [e2, e1, List.append_assoc]
      split at h
      · rw [← Option.some.inj h]
        exact ⟨_, e12⟩
      · split at h
        · obtain ⟨l3, e3⟩ := ih _ _ _ _ h
          exact ⟨_, by rw [e3, e12, List.append_assoc]⟩
        · rw [← Option.some.inj h]
          exact ⟨_, e12⟩

/-- C22 (counterexample): `moveCreep 1` entered with direction 0 while the direction
becomes 1 during the Y-stance commit.  The Y stance is run for direction 0 and both half
creeps of the first cycle for direction 1. -/
theorem C22_counterexample :
    (moveCreep (quietEnv 1 60) sampleControl 1 (freshWorld 0 60)).map
        (fun w => w.serial.filterMap SerialLine.direction?)
      = some [0, 1, 1]
    ∧ (moveCreep (quietEnv 1 60) sampleControl 1 (freshWorld 0 60)).map
        (fun w => w.trace.map (fun s => (s.commit, s.before.sMovingDirection)))
      = some [(.liftServos 60, 0),
              (creepPhase1 sampleControl 1 false 60, 1),
              (creepPhase2 sampleControl 1 false 60, 1),
              (creepPhase3 sampleControl 1 false 60, 1),
              (creepPhase1 sampleControl 1 true 60, 1),
              (creepPhase2 sampleControl 1 true 60, 1),
              (creepPhase3 sampleControl 1 true 60, 1)] := by
  refine ⟨by rfl, by rfl⟩

/-- C22 (amended): for every environment `moveCreep` returns; the Y stance is run for the
direction value current at entry; the phase commits that follow form creep cycles, every
cycle but the last complete (six phases), the last possibly cut short by the stop signal;
all phases of a cycle, the first cycle included, carry the direction value that was
current when the first phase of the cycle was issued, which for the first cycle is the
value the Y-stance commit left.  A direction change takes effect only at the end of the
set-up and at a cycle boundary. -/
theorem C22_creep_direction_per_cycle (env : Env) (sc : ServoControl) (n : Nat) (w : World)
    (hn : n ≤ 255) :
    ∃ (w1 : World) (setup : Step) (rest : List Step) (cycles : List (List Step))
        (lines : List SerialLine),
      moveCreep env sc n w = some w1
      ∧ w1.trace = w.trace ++ setup :: rest
      ∧ Continuous w.inputs (setup :: rest)
      ∧ setup.commit = .liftServos w.sBodyHeightAngle
      ∧ w1.serial = w.serial ++ SerialLine.goToYPosition w.sMovingDirection :: lines
      ∧ phaseSteps rest = cycles.flatten ∧ cycles ≠ []
      ∧ (∀ c ∈ cycles, CreepCycle sc c)
      ∧ (∀ c ∈ cycles.dropLast, c.length = 6)
      ∧ (∃ s tail, rest = s :: tail ∧ s.commit.isAllServos = true ∧ s.before = setup.after) := by
  unfold moveCreep
  simp only [setEasingTypeForMoving]
  obtain ⟨w1, new, cycles, e1, ⟨e2, e3, _⟩, e4, e5, e6, e7, ⟨s, tail, hs, hp, hb⟩⟩ :=
    creepLoop_dirs env sc 256 n
      (goToYPosition env sc w.sMovingDirection w).sMovingDirection
      (goToYPosition env sc w.sMovingDirection w) hn (iterations_le n hn) rfl
  obtain ⟨lines, el⟩ := creepLoop_serial env sc _ _ _ _ _ e1
  refine ⟨w1, ⟨.liftServos w.sBodyHeightAngle, w.inputs, env w.trace.length⟩, new, cycles,
    lines, e1, ?_, ⟨rfl, e3⟩, rfl, ?_, e4, e5, e6, e7, ⟨s, tail, hs, hp, hb⟩⟩
  · rw [e2]
    simp [goToYPosition, setLiftServos, commit, transformAndSetPivotServos, serialPrint,
      World.inputs]
  · rw [el]
    simp [goToYPosition, setLiftServos, commit, transformAndSetPivotServos, serialPrint]

/-- C22 (witness): two creep cycles entered with direction 0 while the direction becomes 1
during the Y-stance commit. -/
theorem C22_creep_direction_per_cycle_witness :
    ∃ (w1 : World) (setup : Step) (rest : List Step) (cycles : List (List Step))
        (lines : List SerialLine),
      moveCreep (quietEnv 1 60) sampleControl 2 (freshWorld 0 60) = some w1
      ∧ w1.trace = (freshWorld 0 60).trace ++ setup :: rest
      ∧ Continuous (freshWorld 0 60).inputs (setup :: rest)
      ∧ setup.commit = .liftServos (freshWorld 0 60).sBodyHeightAngle
      ∧ w1.serial = (freshWorld 0 60).serial
          ++ SerialLine.goToYPosition (freshWorld 0 60).sMovingDirection :: lines
      ∧ phaseSteps rest = cycles.flatten ∧ cycles ≠ []
      ∧ (∀ c ∈ cycles, CreepCycle sampleControl c)
      ∧ (∀ c ∈ cycles.dropLast, c.length = 6)
      ∧ (∃ s tail, rest = s :: tail ∧ s.commit.isAllServos = true ∧ s.before = setup.after) :=
  C22_creep_direction_per_cycle (quietEnv 1 60) sampleControl 2 (freshWorld 0 60) (by decide)

/-! ## Turn: pivot range -/

theorem turnLeg_bound (M B lo hi : Int) (leg p : Nat) (σ v : Int)
    (hM0 : 0 ≤ M) (hM : M ≤ 90) (hB0 : 0 ≤ B) (hB : 3 * B ≤ 90)
    (hmix : lo = -3 → hi = 3 → M + 3 * B ≤ 90)
    (hlo : lo = -3 ∨ lo = 0) (hhi : hi = 3 ∨ hi = 0)
    (inv : TurnLegInv M B lo hi leg p σ v) : 0 ≤ v ∧ v ≤ 180 := by
  obtain ⟨k, u, hv, hul, huh, hk1, hk2, hkind⟩ := inv
  have hk : k = 1 ∨ k = -1 ∨ k = 0 := by
    rcases hkind with ⟨h, _⟩ | ⟨h, _⟩
    · rcases h with h | h
      · exact Or.inl h
      · exact Or.inr (Or.inl h)
    · exact Or.inr (Or.inr h)
  have hu3 : -3 ≤ u ∧ u ≤ 3 := by
    clear hkind
    omega
  obtain ⟨hu1, hu2⟩ := hu3
  have e1 : k = 1 → lo = -3 → M + 3 * B ≤ 90 := fun h1 h2 => hmix h2 (hk1 h1)
  have e2 : k = -1 → hi = 3 → M + 3 * B ≤ 90 := fun h1 h2 => hmix (hk2 h1) h2
  subst hv
  rcases hk with rfl | rfl | rfl
  · have h3 := hk1 rfl
    rcases hlo with hl | hl
    · have := e1 rfl hl
      interval_cases u <;> constructor <;> linarith
    · have : 0 ≤ u := by omega
      interval_cases u <;> constructor <;> linarith
  · have h3 := hk2 rfl
    rcases hhi with hh | hh
    · have := e2 rfl hh
      interval_cases u <;> constructor <;> linarith
    · have : u ≤ 0 := by omega
      interval_cases u <;> constructor <;> linarith
  · interval_cases u <;> constructor <;> linarith

theorem turnLeg_step (M B lo hi : Int) (leg p q : Nat) (σ τ v : Int)
    (hleg : leg < 4) (hp : p < 4) (hpq : ((q : Int) - p - τ) % 4 = 0)
    (hσ : σ = 1 ∨ σ = -1) (hτ : τ = 1 ∨ τ = -1)
    (hlo : lo = -3 ∨ lo = 0) (hhi : hi = 3 ∨ hi = 0)
    (ha : SignAllowed lo hi σ)
    (inv : TurnLegInv M B lo hi leg p σ v) :
    TurnLegInv M B lo hi leg q τ (if leg = p then 90 + σ * M else v - σ * B) := by
  obtain ⟨k, u, hv, hul, huh, hk1, hk2, hkind⟩ := inv
  obtain ⟨ha1, ha2⟩ := ha
  by_cases hlp : leg = p
  · rw [if_pos hlp]
    clear hkind
    refine ⟨σ, 0, by ring, by omega, by omega, ha1, ha2, Or.inl ⟨hσ, ?_⟩⟩
    omega
  · rw [if_neg hlp]
    rcases hkind with ⟨hk, hc⟩ | ⟨hk0, x, hx1, hx2, hx3, hx4, hx5⟩
    · refine ⟨k, u + σ, by rw [hv]; ring, ?_, ?_, hk1, hk2, Or.inl ⟨hk, ?_⟩⟩
      · rcases hσ with h | h
        · omega
        · have := ha2 h
          omega
      · rcases hσ with h | h
        · have := ha1 h
          omega
        · omega
      · omega
    · have hl1 : 1 ≤ leg := by
        rcases Nat.eq_zero_or_pos leg with h | h
        · exact absurd (by rw [h, hx5 h]) hlp
        · exact h
      refine ⟨k, u + σ, by rw [hv]; ring, ?_, ?_, hk1, hk2,
        Or.inr ⟨hk0, x + τ, ?_, ?_, ?_, ?_, ?_⟩⟩
      · rcases hσ with h | h
        · omega
        · have := ha2 h
          omega
      · rcases hσ with h | h
        · have := ha1 h
          omega
        · omega
      · omega
      · omega
      · omega
      · omega
      · intro h
        omega

theorem turnSign_cases (sc : ServoControl) (d : Nat) : turnSign sc d = 1 ∨ turnSign sc d = -1 := by
  unfold turnSign
  split
  · exact Or.inl rfl
  · exact Or.inr rfl

theorem targets_getD (a : Nat → Int) (leg : Nat) (h : leg < NUMBER_OF_LEGS) :
    (targets a).getD (leg * SERVOS_PER_LEG) 0 = a (leg * SERVOS_PER_LEG) := by
  have h4 : leg < 4 := h
  interval_cases leg <;> rfl

theorem quarterTurn_pivot (env : Env) (sc : ServoControl) (p leg : Nat) (w : World)
    (hp : p < 4) (hleg : leg < 4)
    (hM : -127 ≤ sc.TURN_MOVE_ANGLE ∧ sc.TURN_MOVE_ANGLE ≤ 127)
    (hB : -127 ≤ sc.TURN_BODY_ANGLE ∧ sc.TURN_BODY_ANGLE ≤ 127) :
    (basicQuarterTurn env sc p (decide (w.sMovingDirection = sc.MOVE_DIRECTION_LEFT))
        w).sServoNextPositionArray (leg * SERVOS_PER_LEG)
      = if leg = p then 90 + turnSign sc w.sMovingDirection * sc.TURN_MOVE_ANGLE
        else w.sServoNextPositionArray (leg * SERVOS_PER_LEG)
          - turnSign sc w.sMovingDirection * sc.TURN_BODY_ANGLE := by
  rw [basicQuarterTurn_array env sc p _ w hp hM hB]
  have e : leg * SERVOS_PER_LEG = 2 * leg := by simp [SERVOS_PER_LEG, Nat.mul_comm]
  rw [e]
  have l1 : 2 * leg < 8 := by omega
  have m1 : 2 * leg % 2 = 0 := by omega
  have n2 : 2 * leg ≠ 2 * p + 1 := by omega
  by_cases hlp : leg = p
  · subst hlp
    by_cases hd : w.sMovingDirection = sc.MOVE_DIRECTION_LEFT
    · simp [turnSign, hd]
    · simp [turnSign, hd]
      ring
  · have n1 : 2 * leg ≠ 2 * p := by omega
    by_cases hd : w.sMovingDirection = sc.MOVE_DIRECTION_LEFT
    · simp [turnSign, hd, hlp, n1, n2, l1, m1]
    · simp [turnSign, hd, hlp, n1, n2, l1, m1]

theorem turn_next_index (sc : ServoControl) (p d : Nat) :
    ((((if d = sc.MOVE_DIRECTION_LEFT then inc8 p else dec8 p) % NUMBER_OF_LEGS : Nat) : Int)
        - p - turnSign sc d) % 4 = 0 := by
  unfold turnSign inc8 dec8 NUMBER_OF_LEGS
  split <;> omega

theorem turn_step_inv (env : Env) (sc : ServoControl) (lo hi : Int) (p : Nat) (w : World)
    (hp : p < 4)
    (hM : -127 ≤ sc.TURN_MOVE_ANGLE ∧ sc.TURN_MOVE_ANGLE ≤ 127)
    (hB : -127 ≤ sc.TURN_BODY_ANGLE ∧ sc.TURN_BODY_ANGLE ≤ 127)
    (hlo : lo = -3 ∨ lo = 0) (hhi : hi = 3 ∨ hi = 0)
    (ha : SignAllowed lo hi (turnSign sc w.sMovingDirection))
    (inv : TurnInv sc lo hi p w) :
    TurnInv sc lo hi
      ((if (basicQuarterTurn env sc p (decide (w.sMovingDirection = sc.MOVE_DIRECTION_LEFT))
              w).sMovingDirection = sc.MOVE_DIRECTION_LEFT
          then inc8 p else dec8 p) % NUMBER_OF_LEGS)
      (basicQuarterTurn env sc p (decide (w.sMovingDirection = sc.MOVE_DIRECTION_LEFT)) w) := by
  intro leg hleg
  have hleg4 : leg < 4 := hleg
  rw [quarterTurn_pivot env sc p leg w hp hleg4 hM hB]
  exact turnLeg_step _ _ lo hi leg p _ _ _ _ hleg4 hp (turn_next_index sc p _)
    (turnSign_cases sc _) (turnSign_cases sc _) hlo hhi ha (inv leg hleg)

theorem turnLoop_valid (env : Env) (sc : ServoControl) (lo hi : Int)
    (hM0 : 0 ≤ sc.TURN_MOVE_ANGLE) (hM : sc.TURN_MOVE_ANGLE ≤ 90)
    (hB0 : 0 ≤ sc.TURN_BODY_ANGLE) (hB : 3 * sc.TURN_BODY_ANGLE ≤ 90)
    (hmix : lo = -3 → hi = 3 → sc.TURN_MOVE_ANGLE + 3 * sc.TURN_BODY_ANGLE ≤ 90)
    (hlo : lo = -3 ∨ lo = 0) (hhi : hi = 3 ∨ hi = 0)
    (henv : ∀ j, SignAllowed lo hi (turnSign sc (env j).sMovingDirection)) :
    ∀ (fuel n p : Nat) (w : World), n ≤ 255 → iterations n ≤ fuel → p < 4 →
      SignAllowed lo hi (turnSign sc w.sMovingDirection) → TurnInv sc lo hi p w →
      ∃ w1 new, moveTurnLoop env sc fuel n p w = some w1 ∧ w1.trace = w.trace ++ new
        ∧ ∀ s ∈ new, s.commit.pivotsValid := by
  intro fuel
  induction fuel with
  | zero =>
    intro n p w h1 h2
    have := iterations_pos n
    omega
  | succ fuel ih =>
    intro n p w h1 h2 hp ha inv
    have inv1 := turn_step_inv env sc lo hi p w hp (by constructor <;> omega)
      (by constructor <;> omega) hlo hhi ha inv
    have htr := basicQuarterTurn_trace env sc p
      (decide (w.sMovingDirection = sc.MOVE_DIRECTION_LEFT)) w
    have hval : ∀ s ∈ [(⟨.syncAll (targets (basicQuarterTurn env sc p
          (decide (w.sMovingDirection = sc.MOVE_DIRECTION_LEFT)) w).sServoNextPositionArray),
          w.inputs, env w.trace.length⟩ : Step)], s.commit.pivotsValid := by
      intro s hs
      rw [List.mem_singleton.mp hs]
      intro leg hleg
      rw [targets_getD _ leg hleg]
      exact turnLeg_bound _ _ lo hi leg _ _ _ hM0 hM hB0 hB hmix hlo hhi (inv1 leg hleg)
    simp only [moveTurnLoop, RETURN_IF_STOP]
    split
    · exact ⟨_, _, rfl, htr, hval⟩
    · split
      · rename_i hd
        have hi2 := iterations_of_dec8_ne_zero n h1 hd
        obtain ⟨w1, new, e1, e2, e3⟩ := ih (dec8 n) _
          (basicQuarterTurn env sc p (decide (w.sMovingDirection = sc.MOVE_DIRECTION_LEFT)) w)
          hi2.2 (by omega) (Nat.mod_lt _ (by decide))
          (by rw [basicQuarterTurn_direction]; exact henv _) inv1
        refine ⟨w1, (⟨.syncAll (targets (basicQuarterTurn env sc p
          (decide (w.sMovingDirection = sc.MOVE_DIRECTION_LEFT)) w).sServoNextPositionArray),
          w.inputs, env w.trace.length⟩ : Step) :: new, e1, ?_, ?_⟩
        · rw [e2, htr]
          simp
        · intro s hs
          rcases List.mem_cons.mp hs with hs | hs
          · exact hval s (by rw [hs]; simp)
          · exact e3 s hs
      · exact ⟨_, _, rfl, htr, hval⟩

theorem centered_inv (env : Env) (sc : ServoControl) (lo hi : Int) (idx : Nat) (deg : Int)
    (w : World) (hlo : lo = -3 ∨ lo = 0) (hhi : hi = 3 ∨ hi = 0) :
    TurnInv sc lo hi FRONT_LEFT_PIVOT
      (moveOneServoAndCheckInputAndWait env idx deg (centerServos env w)) := by
  intro leg hleg
  have hleg4 : leg < 4 := hleg
  have hv : (moveOneServoAndCheckInputAndWait env idx deg
      (centerServos env w)).sServoNextPositionArray (leg * SERVOS_PER_LEG) = 90 := by
    have l1 : leg * SERVOS_PER_LEG < NUMBER_OF_SERVOS := by
      simp only [SERVOS_PER_LEG, NUMBER_OF_SERVOS, NUMBER_OF_LEGS]
      omega
    have l2 : leg * SERVOS_PER_LEG % SERVOS_PER_LEG = 0 := by simp
    simp [moveOneServoAndCheckInputAndWait, commit, centerServos, l1, l2]
  rw [hv]
  refine ⟨0, 0, by ring, by omega, by omega, by intro h; omega, by intro h; omega,
    Or.inr ⟨rfl, 0, by simp [FRONT_LEFT_PIVOT], by omega, by omega, ?_, fun _ => rfl⟩⟩
  rcases turnSign_cases sc (moveOneServoAndCheckInputAndWait env idx deg
      (centerServos env w)).sMovingDirection with h | h
  · exact Or.inl (by rw [h]; ring)
  · exact Or.inr (by rw [h]; ring)

theorem moveTurn_valid (env : Env) (sc : ServoControl) (lo hi : Int) (n : Nat) (w : World)
    (hn : n ≤ 255)
    (hM0 : 0 ≤ sc.TURN_MOVE_ANGLE) (hM : sc.TURN_MOVE_ANGLE ≤ 90)
    (hB0 : 0 ≤ sc.TURN_BODY_ANGLE) (hB : 3 * sc.TURN_BODY_ANGLE ≤ 90)
    (hmix : lo = -3 → hi = 3 → sc.TURN_MOVE_ANGLE + 3 * sc.TURN_BODY_ANGLE ≤ 90)
    (hlo : lo = -3 ∨ lo = 0) (hhi : hi = 3 ∨ hi = 0)
    (henv : ∀ j, SignAllowed lo hi (turnSign sc (env j).sMovingDirection)) :
    ∃ w1 new, moveTurn env sc n w = some w1 ∧ w1.trace = w.trace ++ new
      ∧ ∀ s ∈ new, s.commit.pivotsValid := by
  have main : ∀ (idx : Nat) (deg : Int), 0 ≤ deg → deg ≤ 180 → ∃ w1 new,
      (if (moveOneServoAndCheckInputAndWait env idx deg (centerServos env w)).stopRequested = true
        then some (moveOneServoAndCheckInputAndWait env idx deg (centerServos env w))
        else moveTurnLoop env sc 256 n FRONT_LEFT_PIVOT
          (moveOneServoAndCheckInputAndWait env idx deg (centerServos env w))) = some w1
      ∧ w1.trace = w.trace ++ new ∧ ∀ s ∈ new, s.commit.pivotsValid := by
    intro idx deg hd0 hd1
    have htr : (moveOneServoAndCheckInputAndWait env idx deg (centerServos env w)).trace
        = w.trace ++ [⟨.center, w.inputs, env w.trace.length⟩,
            ⟨.oneServo idx deg, (centerServos env w).inputs, env (w.trace.length + 1)⟩] := by
      simp [moveOneServoAndCheckInputAndWait, commit, centerServos, World.inputs]
    have hval : ∀ s ∈ [(⟨.center, w.inputs, env w.trace.length⟩ : Step),
        ⟨.oneServo idx deg, (centerServos env w).inputs, env (w.trace.length + 1)⟩],
        s.commit.pivotsValid := by
      intro s hs
      simp only [List.mem_cons, List.mem_singleton, List.not_mem_nil, or_false] at hs
      rcases hs with hs | hs
      · rw [hs]
        trivial
      · rw [hs]
        exact ⟨hd0, hd1⟩
    split
    · exact ⟨_, _, rfl, htr, hval⟩
    · obtain ⟨w1, new, e1, e2, e3⟩ := turnLoop_valid env sc lo hi hM0 hM hB0 hB hmix hlo hhi
        henv 256 n FRONT_LEFT_PIVOT
        (moveOneServoAndCheckInputAndWait env idx deg (centerServos env w)) hn
        (iterations_le n hn) (by decide) (henv _)
        (centered_inv env sc lo hi idx deg w hlo hhi)
      refine ⟨w1, [(⟨.center, w.inputs, env w.trace.length⟩ : Step),
        ⟨.oneServo idx deg, (centerServos env w).inputs, env (w.trace.length + 1)⟩] ++ new,
        e1, ?_, ?_⟩
      · rw [e2, htr, List.append_assoc]
      · intro s hs
        rcases List.mem_append.mp hs with hs | hs
        · exact hval s hs
        · exact e3 s hs
  unfold moveTurn
  simp only [setEasingTypeForMoving, RETURN_IF_STOP]
  by_cases hd : (centerServos env w).sMovingDirection = sc.MOVE_DIRECTION_LEFT
  · simp only [hd, if_true]
    exact main _ _ (by omega) (by omega)
  · simp only [hd, if_false]
    exact main _ _ (by omega) (by omega)

/-- C24 (counterexample): with TURN_MOVE_ANGLE = 90 and TURN_BODY_ANGLE = 30, which meet
the claimed bounds, `moveTurn 2` is entered turning left and the direction changes to
another value during the first quarter-turn.  The first quarter-turn puts the pivot of
leg 0 at 180; the second, a turn the other way, adds the body angle and commits 210 for
it. -/
theorem C24_counterexample :
    steepTurnControl.TURN_MOVE_ANGLE ≤ 90 ∧ 3 * steepTurnControl.TURN_BODY_ANGLE ≤ 90
    ∧ (moveTurn (directionFromEnv steepTurnControl.MOVE_DIRECTION_LEFT 3 60 2)
          steepTurnControl 2 (freshWorld steepTurnControl.MOVE_DIRECTION_LEFT 60)).map
        (fun w => w.trace.map (fun s => s.commit))
      = some [.center, .oneServo steepTurnControl.FRONT_RIGHT_PIVOT 180,
              .syncAll [180, 135, 60, 60, 60, 60, 60, 60],
              .syncAll [210, 60, 90, 60, 90, 60, 0, 135]]
    ∧ ¬ Commit.pivotsValid (.syncAll [210, 60, 90, 60, 90, 60, 0, 135]) := by
  refine ⟨by decide, by decide, by rfl, ?_⟩
  intro h
  exact absurd (h 0 (by decide)).2 (by decide)

/-- C24 (amended): with 0 ≤ TURN_MOVE_ANGLE ≤ 90 and 0 ≤ 3 * TURN_BODY_ANGLE ≤ 90, for
every cycle count and every environment `moveTurn` returns, and every pivot target it
commits (the pre-move angle and the four pivot entries of the next-position array at
every quarter-turn commit) lies in 0..180, provided either
TURN_MOVE_ANGLE + 3 * TURN_BODY_ANGLE ≤ 90, or the direction values observed during the
call all have the same turn sense (all MOVE_DIRECTION_LEFT, or none). -/
theorem C24_turn_pivots_valid (env : Env) (sc : ServoControl) (n : Nat) (w : World)
    (hn : n ≤ 255)
    (hM : 0 ≤ sc.TURN_MOVE_ANGLE ∧ sc.TURN_MOVE_ANGLE ≤ 90)
    (hB : 0 ≤ sc.TURN_BODY_ANGLE ∧ 3 * sc.TURN_BODY_ANGLE ≤ 90)
    (hdir : sc.TURN_MOVE_ANGLE + 3 * sc.TURN_BODY_ANGLE ≤ 90
      ∨ ∀ j k, ((env j).sMovingDirection = sc.MOVE_DIRECTION_LEFT
          ↔ (env k).sMovingDirection = sc.MOVE_DIRECTION_LEFT)) :
    ∃ w1 new, moveTurn env sc n w = some w1 ∧ w1.trace = w.trace ++ new
      ∧ ∀ s ∈ new, s.commit.pivotsValid := by
  obtain ⟨hM0, hM1⟩ := hM
  obtain ⟨hB0, hB1⟩ := hB
  rcases hdir with hsum | hconst
  · exact moveTurn_valid env sc (-3) 3 n w hn hM0 hM1 hB0 hB1 (fun _ _ => hsum)
      (Or.inl rfl) (Or.inl rfl) (fun _ => ⟨fun _ => rfl, fun _ => rfl⟩)
  · by_cases h0 : (env 0).sMovingDirection = sc.MOVE_DIRECTION_LEFT
    · refine moveTurn_valid env sc 0 3 n w hn hM0 hM1 hB0 hB1
        (fun h => absurd h (by decide)) (Or.inr rfl) (Or.inl rfl) (fun j => ⟨fun _ => rfl, ?_⟩)
      intro h
      have hj : (env j).sMovingDirection = sc.MOVE_DIRECTION_LEFT := (hconst 0 j).mp h0
      simp [turnSign, hj] at h
    · refine moveTurn_valid env sc (-3) 0 n w hn hM0 hM1 hB0 hB1
        (fun _ h => absurd h (by decide)) (Or.inl rfl) (Or.inr rfl) (fun j => ⟨?_, fun _ => rfl⟩)
      intro h
      have hj : ¬ (env j).sMovingDirection = sc.MOVE_DIRECTION_LEFT :=
        fun hj => h0 ((hconst 0 j).mpr hj)
      simp [turnSign, hj] at h

/-- C24 (witness): `moveTurn 2` with TURN_MOVE_ANGLE = 40 and TURN_BODY_ANGLE = 10 while
the direction changes from left to another value during the first quarter-turn. -/
theorem C24_turn_pivots_valid_witness :
    ∃ w1 new, moveTurn (directionFromEnv sampleControl.MOVE_DIRECTION_LEFT 3 60 2)
        sampleControl 2 (freshWorld sampleControl.MOVE_DIRECTION_LEFT 60) = some w1
      ∧ w1.trace = (freshWorld sampleControl.MOVE_DIRECTION_LEFT 60).trace ++ new
      ∧ ∀ s ∈ new, s.commit.pivotsValid :=
  C24_turn_pivots_valid (directionFromEnv sampleControl.MOVE_DIRECTION_LEFT 3 60 2)
    sampleControl 2 (freshWorld sampleControl.MOVE_DIRECTION_LEFT 60) (by decide)
    (by decide) (by decide) (Or.inl (by decide))

end Quadruped

namespace EasyButtonAtInt01

/-! ## Debouncing -/

theorem wrapLong_of_fits (x : Int) (h1 : -2147483648 ≤ x) (h2 : x ≤ 2147483647) :
    wrapLong x = x := by
  unfold wrapLong
  omega

/-- The 32-bit difference is the elapsed time: when `millis()` and `ButtonLastChangeMillis`
are `long` values whose difference fits a `long`, `tDeltaMillis` is their difference. -/
theorem deltaMillis_exact (ev : Interrupt) (b : EasyButton) (hm : ev.millis ≤ 2147483647)
    (h1 : -2147483648 ≤ (ev.millis : Int) - b.ButtonLastChangeMillis)
    (h2 : (ev.millis : Int) - b.ButtonLastChangeMillis ≤ 2147483647) :
    deltaMillis ev b = (ev.millis : Int) - b.ButtonLastChangeMillis := by
  have e : toLong ev.millis = (ev.millis : Int) := by
    unfold toLong
    omega
  unfold deltaMillis
  rw [e]
  exact wrapLong_of_fits _ h1 h2

/-- Across the sign change of the 32-bit `millis()` value the difference wraps to the
elapsed time: with the last change at 2147483600 and `millis()` returning 2147483748,
`tDeltaMillis` is 148 and a press is accepted (toggle inverted, callback called). -/
theorem deltaMillis_across_wrap :
    deltaMillis ⟨⟨false, true⟩, 2147483748, ⟨false, true⟩⟩
        { sampleButton with ButtonLastChangeMillis := 2147483600 } = 148
    ∧ (handleINT01Interrupts defaultBuild ⟨⟨false, true⟩, 2147483748, ⟨false, true⟩⟩
        { sampleButton with ButtonLastChangeMillis := 2147483600 }).1.ButtonToggleState = true
    ∧ (handleINT01Interrupts defaultBuild ⟨⟨false, true⟩, 2147483748, ⟨false, true⟩⟩
        { sampleButton with ButtonLastChangeMillis := 2147483600 }).2 = [true]
    ∧ handleINT01Interrupts defaultBuild ⟨⟨false, true⟩, 2147483600, ⟨false, true⟩⟩
        { sampleButton with ButtonLastChangeMillis := -2147483600 }
      = ({ sampleButton with ButtonLastChangeMillis := -2147483600 }, []) := by
  refine ⟨by decide, by decide, by decide, by decide⟩

/-- C13: `handleINT01Interrupts` ignores a change inside the debouncing time: for every
build, button and read of the pins, if the time since `ButtonLastChangeMillis` (the
handler's `tDeltaMillis`, the difference of the two `long` values computed in 32 bits) is
at most BUTTON_DEBOUNCING_MILLIS, or if the button state read from the pin (active when
the pin is LOW) equals the stored `ButtonStateIsActive` (a spike), the button is returned
with every field unchanged and the press callback is not called. -/
theorem C13_bounce_and_spike_ignored (build : ButtonBuild) (ev : Interrupt) (b : EasyButton)
    (h : deltaMillis ev b ≤ build.BUTTON_DEBOUNCING_MILLIS
      ∨ actualButtonStateIsActive build ev b = b.ButtonStateIsActive) :
    handleINT01Interrupts build ev b = (b, []) := by
  unfold handleINT01Interrupts
  dsimp only
  rcases h with h | h
  · have h1 : wrapLong (toLong ev.millis - b.ButtonLastChangeMillis) ≤ build.BUTTON_DEBOUNCING_MILLIS := h
    rw [if_pos h1]
  · rw [if_pos h]
    split <;> rfl

/-- C13 (witness): an interrupt 30 ms after the last change of the sample button. -/
theorem C13_bounce_and_spike_ignored_witness :
    handleINT01Interrupts defaultBuild ⟨⟨false, true⟩, 430, ⟨false, true⟩⟩ sampleButton
      = (sampleButton, []) :=
  C13_bounce_and_spike_ignored defaultBuild ⟨⟨false, true⟩, 430, ⟨false, true⟩⟩ sampleButton
    (Or.inl (by decide))

/-! ## Toggle state -/

theorem handle_toggle (build : ButtonBuild) (ev : Interrupt) (b : EasyButton) :
    (handleINT01Interrupts build ev b).1.ButtonToggleState
      = (if acceptedPress build ev b then !b.ButtonToggleState else b.ButtonToggleState) := by
  unfold handleINT01Interrupts acceptedPress deltaMillis
  dsimp only
  by_cases h1 : wrapLong (toLong ev.millis - b.ButtonLastChangeMillis) ≤ build.BUTTON_DEBOUNCING_MILLIS
  · rw [if_pos h1]
    have : ¬ build.BUTTON_DEBOUNCING_MILLIS < wrapLong (toLong ev.millis - b.ButtonLastChangeMillis) := by
      omega
    simp [this]
  · rw [if_neg h1]
    have h1' : build.BUTTON_DEBOUNCING_MILLIS < wrapLong (toLong ev.millis - b.ButtonLastChangeMillis) := by
      omega
    by_cases h2 : actualButtonStateIsActive build ev b = b.ButtonStateIsActive
    · rw [if_pos h2]
      simp [h2]
    · rw [if_neg h2]
      cases h3 : actualButtonStateIsActive build ev b
      · simp [h1', h3]
      · have h4 : b.ButtonStateIsActive = false := by
          rw [h3] at h2
          cases hb : b.ButtonStateIsActive
          · rfl
          · exact absurd hb.symm h2
        cases h5 : b.ButtonPressCallback
        · simp [h1', h4, h5]
        · simp only [if_true, h1', h4, h5, decide_True, Bool.true_and, Bool.and_true]
          split <;> simp

theorem handle_calls (build : ButtonBuild) (ev : Interrupt) (b : EasyButton) :
    (handleINT01Interrupts build ev b).2
      = (if acceptedPress build ev b && b.ButtonPressCallback then [!b.ButtonToggleState]
         else []) := by
  unfold handleINT01Interrupts acceptedPress deltaMillis
  dsimp only
  by_cases h1 : wrapLong (toLong ev.millis - b.ButtonLastChangeMillis) ≤ build.BUTTON_DEBOUNCING_MILLIS
  · rw [if_pos h1]
    have : ¬ build.BUTTON_DEBOUNCING_MILLIS < wrapLong (toLong ev.millis - b.ButtonLastChangeMillis) := by
      omega
    simp [this]
  · rw [if_neg h1]
    have h1' : build.BUTTON_DEBOUNCING_MILLIS < wrapLong (toLong ev.millis - b.ButtonLastChangeMillis) := by
      omega
    by_cases h2 : actualButtonStateIsActive build ev b = b.ButtonStateIsActive
    · rw [if_pos h2]
      simp [h2]
    · rw [if_neg h2]
      cases h3 : actualButtonStateIsActive build ev b
      · simp [h1', h3]
      · have h4 : b.ButtonStateIsActive = false := by
          rw [h3] at h2
          cases hb : b.ButtonStateIsActive
          · rfl
          · exact absurd hb.symm h2
        cases h5 : b.ButtonPressCallback
        · simp [h1', h4, h5]
        · simp only [if_true, h1', h4, h5, decide_True, Bool.true_and, Bool.and_true]
          split <;> simp

theorem accepted_release_not_press (build : ButtonBuild) (ev : Interrupt) (b : EasyButton)
    (h : acceptedRelease build ev b = true) : acceptedPress build ev b = false := by
  unfold acceptedRelease at h
  unfold acceptedPress
  cases h3 : actualButtonStateIsActive build ev b
  · simp
  · rw [h3] at h
    simp at h

theorem parity_step (t p : Bool) (k : Nat) :
    ((if p = true then !t else t) != decide (k % 2 = 1))
      = (t != decide (((if p = true then 1 else 0) + k) % 2 = 1)) := by
  rcases Nat.mod_two_eq_zero_or_one k with hm | hm
  · have e : (1 + k) % 2 = 1 := by omega
    cases p <;> cases t <;> simp [hm, e]
  · have e : (1 + k) % 2 = 0 := by omega
    cases p <;> cases t <;> simp [hm, e]

theorem handleAll_toggle (build : ButtonBuild) :
    ∀ (evs : List Interrupt) (b : EasyButton),
      (handleAll build evs b).1.ButtonToggleState
        = (b.ButtonToggleState != decide (acceptedPresses build evs b % 2 = 1)) := by
  intro evs
  induction evs with
  | nil => intro b; simp [handleAll, acceptedPresses]
  | cons ev rest ih =>
    intro b
    simp only [handleAll, acceptedPresses]
    rw [ih, handle_toggle]
    exact parity_step _ _ _

/-- C14: `ButtonToggleState` toggles on press and not on release: starting from `init()`,
after any sequence of interrupts handled by `handleINT01Interrupts`, it is true exactly
when the number of accepted presses (changes to the active state whose 32-bit
`tDeltaMillis` exceeds the debouncing time) is odd; an accepted release leaves it unchanged and
calls no callback; an accepted press inverts it and calls the callback, if set, exactly
once with the new toggle value. -/
theorem C14_toggle_on_press_only (build : ButtonBuild) (evs : List Interrupt)
    (b0 : EasyButton) :
    ((handleAll build evs (init b0)).1.ButtonToggleState = true
        ↔ acceptedPresses build evs (init b0) % 2 = 1)
    ∧ (∀ ev b, acceptedRelease build ev b = true →
        (handleINT01Interrupts build ev b).1.ButtonToggleState = b.ButtonToggleState
          ∧ (handleINT01Interrupts build ev b).2 = [])
    ∧ (∀ ev b, acceptedPress build ev b = true →
        (handleINT01Interrupts build ev b).1.ButtonToggleState = !b.ButtonToggleState
          ∧ (handleINT01Interrupts build ev b).2
            = (if b.ButtonPressCallback then [!b.ButtonToggleState] else [])) := by
  refine ⟨?_, ?_, ?_⟩
  · rw [handleAll_toggle]
    simp [init]
  · intro ev b h
    have hp := accepted_release_not_press build ev b h
    rw [handle_toggle, handle_calls, hp]
    simp
  · intro ev b h
    rw [handle_toggle, handle_calls, h]
    simp

/-- C14 (witness): a press of the sample button 600 ms after its last change inverts the
toggle state and calls the callback once with `true`. -/
theorem C14_toggle_on_press_only_witness :
    acceptedPress defaultBuild ⟨⟨false, true⟩, 1000, ⟨false, true⟩⟩ sampleButton = true
    ∧ (handleINT01Interrupts defaultBuild ⟨⟨false, true⟩, 1000, ⟨false, true⟩⟩
        sampleButton).1.ButtonToggleState = !sampleButton.ButtonToggleState
    ∧ (handleINT01Interrupts defaultBuild ⟨⟨false, true⟩, 1000, ⟨false, true⟩⟩ sampleButton).2
        = (if sampleButton.ButtonPressCallback then [!sampleButton.ButtonToggleState] else []) :=
  ⟨by decide, (C14_toggle_on_press_only defaultBuild [] sampleButton).2.2
    ⟨⟨false, true⟩, 1000, ⟨false, true⟩⟩ sampleButton (by decide)⟩

/-! ## Press duration -/

/-- C15 (code at the failing input): with the button pin LOW (button pressed, active) at
1000 ms and the last change at 400 ms, `updateButtonPressDuration` leaves the stored
duration 0 and returns 0; with the pin HIGH (button released) it stores and returns 600.
The pin level is tested without the negation of the negative logic. -/
theorem C15_code_at_failing_input :
    updateButtonPressDuration defaultBuild ⟨false, true⟩ 1000
        { sampleButton with ButtonStateIsActive := true }
      = ({ sampleButton with ButtonStateIsActive := true }, 0)
    ∧ updateButtonPressDuration defaultBuild ⟨true, true⟩ 1000 sampleButton
      = ({ sampleButton with ButtonPressDurationMillis := 600 }, 600) := by
  refine ⟨by decide, by decide⟩

/-! ## Re-check after the callback -/

/-- C25 (code at the failing input): button 1 at pin 3 (both buttons compiled in, callback
set) is pressed 600 ms after its last change and is still pressed (pin 3 LOW) when the
callback returns, while the pin of button 0 (pin 2) is HIGH.  The re-check reads pin 2:
the handler leaves `ButtonStateIsActive` false although the button is held.  With pin 2
LOW and pin 3 HIGH after the callback (button 1 released during the callback) it leaves
the state active. -/
theorem C25_code_at_failing_input :
    (handleINT01Interrupts defaultBuild ⟨⟨true, false⟩, 1000, ⟨true, false⟩⟩
        { sampleButton with isButton0AtPin2 := false }).1.ButtonStateIsActive = false
    ∧ (handleINT01Interrupts defaultBuild ⟨⟨true, false⟩, 1000, ⟨true, false⟩⟩
        { sampleButton with isButton0AtPin2 := false }).2 = [true]
    ∧ (handleINT01Interrupts defaultBuild ⟨⟨false, false⟩, 1000, ⟨false, true⟩⟩
        { sampleButton with isButton0AtPin2 := false }).1.ButtonStateIsActive = true
    ∧ (handleINT01Interrupts ⟨.button1, 50⟩ ⟨⟨true, false⟩, 1000, ⟨true, false⟩⟩
        { sampleButton with isButton0AtPin2 := false }).1.ButtonStateIsActive = false := by
  refine ⟨by decide, by decide, by decide, by decide⟩

end EasyButtonAtInt01
